import Mathlib

/-!
Verification of the AICrawler pipeline (github.com/TobiSchelling/AICrawler).

This file shallowly embeds the Go functions the claims are about and proves
properties of them.  Conventions used throughout:

* Go strings are modelled as Lean `String`; all concrete inputs are ASCII, so
  Go's byte-indexed `len`/slicing coincides with `String.length`/`take`.
* Go `float64` values are modelled as real numbers (`ℝ`); JSON numbers, which
  `encoding/json` decodes into `float64`, are modelled as exact rationals
  (`ℚ`).  The claims settled here depend only on comparisons and clamping
  where the rounding of a decimal literal to `float64` is immaterial.
* Fallible Go calls are modelled with `Option`/`Except`; out-parameters and
  mutation become explicit state passing.
-/

/-! ## JSON values and `encoding/json` decoding

`llm.ParseJSONResponse` (src/internal/llm/llm_test.go, second embedded file)
decodes text with `json.Unmarshal` into `map[string]any`.  We model JSON
values with an inductive type; objects keep their member list in source order
and, like Go's decoder, a duplicated key is resolved to its last occurrence
(`jLookup`). -/

inductive J where
  | null : J
  | bool (b : Bool) : J
  | num (q : ℚ) : J
  | str (s : String) : J
  | arr (xs : List J) : J
  | obj (ms : List (String × J)) : J
deriving BEq

/-- Whitespace accepted between JSON tokens by `encoding/json`. -/
def isJsonWs (c : Char) : Bool :=
  c = ' ' || c = '\t' || c = '\n' || c = '\r'

/-- `strings.TrimSpace` (ASCII whitespace; defined over the character list
so that concrete inputs evaluate). -/
def goTrim (s : String) : String :=
  String.mk (((s.data.dropWhile Char.isWhitespace).reverse.dropWhile
    Char.isWhitespace).reverse)

/-- Split at every character satisfying `p`, keeping empty pieces (the
convention of Go's `strings.Split`). -/
def splitOnPred (p : Char → Bool) : List Char → List (List Char)
  | [] => [[]]
  | c :: rest =>
    match splitOnPred p rest with
    | [] => [[]]
    | h :: t => if p c then [] :: h :: t else (c :: h) :: t

/-- `strings.Split(s, "\n")`. -/
def goSplitLines (s : String) : List String :=
  (splitOnPred (fun c => c = '\n') s.data).map String.mk

/-- `strings.HasPrefix`. -/
def goStartsWith (s pat : String) : Bool := pat.data.isPrefixOf s.data

def hexVal (c : Char) : Option Nat :=
  if '0' ≤ c ∧ c ≤ '9' then some (c.toNat - '0'.toNat)
  else if 'a' ≤ c ∧ c ≤ 'f' then some (c.toNat - 'a'.toNat + 10)
  else if 'A' ≤ c ∧ c ≤ 'F' then some (c.toNat - 'A'.toNat + 10)
  else none

/-- Decode the remainder of a JSON string literal (the opening quote already
consumed), returning the decoded content and the unread suffix.  Control
characters below 0x20 are rejected, escapes follow RFC 8259.  An invalid
`\uXXXX` code point decodes to a placeholder character where Go substitutes
U+FFFD; parse success agrees with Go either way. -/
def parseStringRest : List Char → List Char → Option (String × List Char)
  | [], _ => none
  | '"' :: rest, acc => some (String.mk acc.reverse, rest)
  | '\\' :: 'u' :: a :: b :: c :: d :: rest, acc =>
    match hexVal a, hexVal b, hexVal c, hexVal d with
    | some ha, some hb, some hc, some hd =>
      parseStringRest rest (Char.ofNat (((ha * 16 + hb) * 16 + hc) * 16 + hd) :: acc)
    | _, _, _, _ => none
  | '\\' :: e :: rest, acc =>
    if e = '"' then parseStringRest rest ('"' :: acc)
    else if e = '\\' then parseStringRest rest ('\\' :: acc)
    else if e = '/' then parseStringRest rest ('/' :: acc)
    else if e = 'b' then parseStringRest rest ('\x08' :: acc)
    else if e = 'f' then parseStringRest rest ('\x0c' :: acc)
    else if e = 'n' then parseStringRest rest ('\n' :: acc)
    else if e = 'r' then parseStringRest rest ('\r' :: acc)
    else if e = 't' then parseStringRest rest ('\t' :: acc)
    else none
  | c :: rest, acc =>
    if c.toNat < 0x20 then none else parseStringRest rest (c :: acc)

def digitsVal (ds : List Char) : Nat :=
  ds.foldl (fun a c => a * 10 + (c.toNat - '0'.toNat)) 0

def pow10 (z : ℤ) : ℚ := (10 : ℚ) ^ z

/-- Parse a JSON number (RFC 8259 grammar, as enforced by Go's scanner) into
its exact rational value, returning the unread suffix. -/
def parseNumberChars (cs : List Char) : Option (ℚ × List Char) :=
  let signed := match cs with
    | '-' :: r => (true, r)
    | _ => (false, cs)
  let neg := signed.1
  let cs1 := signed.2
  match cs1.head? with
  | none => none
  | some c =>
    if ¬ c.isDigit then none
    else
      let intDigits := cs1.takeWhile Char.isDigit
      let rest1 := cs1.dropWhile Char.isDigit
      if 1 < intDigits.length ∧ intDigits.headD '0' = '0' then none
      else
        let fracStep : Option (List Char × List Char) :=
          match rest1 with
          | '.' :: r2 =>
            let fd := r2.takeWhile Char.isDigit
            if fd = [] then none else some (fd, r2.dropWhile Char.isDigit)
          | _ => some ([], rest1)
        match fracStep with
        | none => none
        | some (fd, rest2) =>
          let expStep : Option (Int × List Char) :=
            match rest2 with
            | 'e' :: r3 | 'E' :: r3 =>
              let esigned := match r3 with
                | '-' :: r4 => (true, r4)
                | '+' :: r4 => (false, r4)
                | _ => (false, r3)
              let ed := esigned.2.takeWhile Char.isDigit
              if ed = [] then none
              else
                let ev : Int := digitsVal ed
                some (if esigned.1 then -ev else ev, esigned.2.dropWhile Char.isDigit)
            | _ => some (0, rest2)
          match expStep with
          | none => none
          | some (ex, rest3) =>
            let mant : Int := digitsVal intDigits * 10 ^ fd.length + digitsVal fd
            let mant := if neg then -mant else mant
            some ((mant : ℚ) * pow10 (ex - fd.length), rest3)

mutual

/-- Parse one JSON value, skipping leading whitespace; fuel bounds recursion
depth (one unit is spent per nested value, so `length + 1` always suffices). -/
def parseValue : Nat → List Char → Option (J × List Char)
  | 0, _ => none
  | fuel + 1, cs =>
    let cs := cs.dropWhile isJsonWs
    match cs with
    | '{' :: r =>
      let r1 := r.dropWhile isJsonWs
      match r1 with
      | '}' :: r2 => some (.obj [], r2)
      | _ => parseMembers fuel r []
    | '[' :: r =>
      let r1 := r.dropWhile isJsonWs
      match r1 with
      | ']' :: r2 => some (.arr [], r2)
      | _ => parseItems fuel r []
    | '"' :: r =>
      match parseStringRest r [] with
      | some (s, rest) => some (.str s, rest)
      | none => none
    | 't' :: 'r' :: 'u' :: 'e' :: r => some (.bool true, r)
    | 'f' :: 'a' :: 'l' :: 's' :: 'e' :: r => some (.bool false, r)
    | 'n' :: 'u' :: 'l' :: 'l' :: r => some (.null, r)
    | _ =>
      match parseNumberChars cs with
      | some (q, rest) => some (.num q, rest)
      | none => none

/-- Parse the members of a JSON object after its opening brace. -/
def parseMembers : Nat → List Char → List (String × J) → Option (J × List Char)
  | 0, _, _ => none
  | fuel + 1, cs, acc =>
    let cs := cs.dropWhile isJsonWs
    match cs with
    | '"' :: r =>
      match parseStringRest r [] with
      | some (k, r1) =>
        let r1 := r1.dropWhile isJsonWs
        match r1 with
        | ':' :: r2 =>
          match parseValue fuel r2 with
          | some (v, r3) =>
            let r3 := r3.dropWhile isJsonWs
            match r3 with
            | ',' :: r4 => parseMembers fuel r4 (acc ++ [(k, v)])
            | '}' :: r4 => some (.obj (acc ++ [(k, v)]), r4)
            | _ => none
          | none => none
        | _ => none
      | none => none
    | _ => none

/-- Parse the elements of a JSON array after its opening bracket. -/
def parseItems : Nat → List Char → List J → Option (J × List Char)
  | 0, _, _ => none
  | fuel + 1, cs, acc =>
    match parseValue fuel cs with
    | some (v, r) =>
      let r := r.dropWhile isJsonWs
      match r with
      | ',' :: r1 => parseItems fuel r1 (acc ++ [v])
      | ']' :: r1 => some (.arr (acc ++ [v]), r1)
      | _ => none
    | none => none

end

/-- `json.Unmarshal` of a complete text: one value, then only trailing
whitespace. -/
def parseJsonTop (s : String) : Option J :=
  match parseValue (s.length + 1) s.data with
  | some (v, rest) => if rest.dropWhile isJsonWs = [] then some v else none
  | none => none

/-- Go map lookup on a decoded object: a duplicated key keeps its last
occurrence, matching `encoding/json`. -/
def jLookup (ms : List (String × J)) (key : String) : Option J :=
  ms.foldl (fun acc kv => if kv.1 = key then some kv.2 else acc) none

/-! ## `llm.ParseJSONResponse` -/

/-- Index of the closing fence line: the greatest `i ≥ 1` whose trimmed line
is a bare fence, defaulting to the last line (Go scans from the end and
breaks at the first hit).  `goTrim` models `strings.TrimSpace` (ASCII
whitespace). -/
def lastFenceIdx (lines : List String) : Nat :=
  match (List.range lines.length).reverse.find?
      (fun i => decide (0 < i) && (goTrim (lines.getD i "") = "```" : Bool)) with
  | some i => i
  | none => lines.length - 1

/-- Strip one markdown code fence (Go: split on newlines, drop the first line
and everything from the closing fence on).  A one-line fenced input makes the
Go code slice `lines[1:0]` and panic; the model returns the empty string
there — no claim depends on that input. -/
def stripFences (text : String) : String :=
  if goStartsWith text "```" then
    let lines := goSplitLines text
    let endIdx := lastFenceIdx lines
    String.intercalate "\n" ((lines.drop 1).take (endIdx - 1))
  else text

/-- `llm.ParseJSONResponse`: trim, reject empty, strip one code fence, then
`json.Unmarshal` into `map[string]any`.  A top-level `null` unmarshals into a
nil map without error and every other non-object value is a decode error; in
both cases the function hands `nil` to its callers, so both map to `none`. -/
def ParseJSONResponse (text : String) : Option (List (String × J)) :=
  let text := goTrim text
  if text = "" then none
  else
    let text := stripFences text
    match parseJsonTop text with
    | some (.obj ms) => some ms
    | _ => none

/-! ## Triage (src/internal/triage/triage.go)

Only the fields of `database.Article` that triage and clustering read are
modelled. -/

structure Article where
  id : Int
  url : String
  title : String
  source : Option String
  publishedDate : Option String
  content : Option String
  contentFetched : Bool
  periodID : Option String
deriving BEq

/-- The row `triageArticle` produces (Go struct `triageResult`; the
`articleType`/`reason` pointers are always non-nil where constructed with a
value, so they stay `Option` only to mirror the struct). -/
structure triageResult where
  verdict : String
  articleType : Option String
  keyPoints : List String
  reason : Option String
  practicalScore : Int
deriving BEq

/-- `getString(m, key, fallback)`: the value if present and a JSON string,
else the fallback. -/
def getString (m : List (String × J)) (key fallback : String) : String :=
  match jLookup m key with
  | some (.str s) => s
  | _ => fallback

/-- Go `int(f)` on a `float64`: truncation toward zero (here on the exact
rational). -/
def goTruncInt (q : ℚ) : Int :=
  if 0 ≤ q then ⌊q⌋ else ⌈q⌉

/-- `getInt(m, key, fallback)`: a JSON number truncated to int, else the
fallback (the `json.Number` branch is dead under the default decoder). -/
def getInt (m : List (String × J)) (key : String) (fallback : Int) : Int :=
  match jLookup m key with
  | some (.num q) => goTruncInt q
  | _ => fallback

/-- `strings.ToLower` on ASCII input (Lean's `Char.toLower` lowercases
exactly the ASCII uppercase letters). -/
def goToLower (s : String) : String := String.mk (s.data.map Char.toLower)

/-- The recovery row stored when the LLM response cannot be parsed. -/
def recoveryTriageResult : triageResult :=
  { verdict := "relevant"
    articleType := some "other"
    keyPoints := []
    reason := some "LLM response could not be parsed"
    practicalScore := 2 }

/-- The clamping performed by `triageArticle` on a successfully decoded
object. -/
def clampTriage (parsed : List (String × J)) : triageResult :=
  let verdict0 := goToLower (getString parsed "verdict" "relevant")
  let verdict := if verdict0 ≠ "relevant" ∧ verdict0 ≠ "skip" then "relevant" else verdict0
  let at0 := getString parsed "article_type" "other"
  let reason := getString parsed "relevance_reason" ""
  let keyPoints :=
    match jLookup parsed "key_points" with
    | some (.arr arr) =>
      let kps := arr.filterMap (fun v => match v with | .str s => some s | _ => none)
      if 5 < kps.length then kps.take 5 else kps
    | _ => []
  let score0 := getInt parsed "practical_score" 2
  let score :=
    if verdict = "skip" then 0
    else if score0 < 1 then 1
    else if 5 < score0 then 5
    else score0
  { verdict := verdict
    articleType := some at0
    keyPoints := keyPoints
    reason := some reason
    practicalScore := score }

/-- `triageArticle`, given the provider's outcome for the article's prompt
(the prompt itself does not influence the stored row). -/
def triageArticle (gen : Except String String) : Except String triageResult :=
  match gen with
  | .error e => .error e
  | .ok responseText =>
    match ParseJSONResponse responseText with
    | none => .ok recoveryTriageResult
    | some parsed => .ok (clampTriage parsed)

/-- Counters of a triage run (Go struct `Result` in package triage). -/
structure TriageRunResult where
  processed : Nat
  relevant : Nat
  skipped : Nat
  errors : Nat
deriving BEq

/-- The per-article loop of `TriageArticles`: on error count it and move on;
otherwise insert the row (replace semantics) and count processed plus
relevant/skipped.  `gen` gives each article's provider outcome.  The
`result == nil` branch in Go is unreachable (`triageArticle` never returns a
nil row without an error). -/
def triageStep (gen : Article → Except String String)
    (acc : TriageRunResult × List (Int × triageResult)) (article : Article) :
    TriageRunResult × List (Int × triageResult) :=
  match triageArticle (gen article) with
  | .error _ =>
    ({ acc.1 with errors := acc.1.errors + 1 }, acc.2)
  | .ok result =>
    let r := acc.1
    let r := { r with processed := r.processed + 1 }
    let r := if result.verdict = "relevant"
      then { r with relevant := r.relevant + 1 }
      else { r with skipped := r.skipped + 1 }
    (r, acc.2 ++ [(article.id, result)])

def triageArticlesLoop (articles : List Article) (gen : Article → Except String String) :
    TriageRunResult × List (Int × triageResult) :=
  articles.foldl (triageStep gen) (⟨0, 0, 0, 0⟩, [])

/-! ## Composer (src/unnamed/part_012, package compose) -/

def brieflyNotedLabel : String := "Briefly Noted"

structure SourceReference where
  title : String
  url : String
  contribution : String
deriving BEq

structure StorylineNarrative where
  storylineID : Int
  title : String
  narrativeText : String
  sourceReferences : List SourceReference
deriving BEq

structure Storyline where
  id : Int
  periodID : String
  label : String
  articleCount : Nat
deriving BEq

structure Briefing where
  periodID : String
  tldr : String
  bodyMarkdown : String
  storylineCount : Nat
  articleCount : Nat
deriving BEq

/-- `fallbackTLDR`: one bullet per non-"Briefly Noted" narrative title, or the
no-storylines sentinel. -/
def fallbackTLDR (narratives : List StorylineNarrative) : String :=
  let bullets := (narratives.filter (fun n => n.title ≠ brieflyNotedLabel)).map
    (fun n => "- " ++ n.title)
  if bullets.length = 0 then "- No significant storylines today."
  else String.intercalate "\n" bullets

/-- `generateTLDR`.  `provider` is `none` when no LLM provider is configured;
otherwise it carries the outcome of the single `Generate` call (the prompt
built from the narratives does not influence which branch is taken). -/
def generateTLDR (narratives : List StorylineNarrative)
    (provider : Option (Except String String)) : String :=
  match provider with
  | none => fallbackTLDR narratives
  | some outcome =>
    match outcome with
    | .error _ => fallbackTLDR narratives
    | .ok responseText =>
      if responseText = "" then fallbackTLDR narratives
      else
        match ParseJSONResponse responseText with
        | some parsed =>
          (match jLookup parsed "tldr_bullets" with
          | some (.arr arr) =>
            let lines := arr.filterMap
              (fun b => match b with | .str s => some ("- " ++ s) | _ => none)
            String.intercalate "\n" lines
          | _ => goTrim responseText)
        | none => goTrim responseText

/-- `assembleBody`: main sections with optional source lists, then any
"Briefly Noted" narratives, separated by horizontal rules. -/
def assembleBody (narratives : List StorylineNarrative) : String :=
  let mainNarratives := narratives.filter (fun n => n.title ≠ brieflyNotedLabel)
  let brieflyNoted := narratives.filter (fun n => n.title = brieflyNotedLabel)
  let sections := mainNarratives.map (fun n =>
    let sect := "## " ++ n.title ++ "\n\n" ++ n.narrativeText
    if 0 < n.sourceReferences.length then
      let refs := n.sourceReferences.map (fun ref =>
        let line := "- [" ++ ref.title ++ "](" ++ ref.url ++ ")"
        if ref.contribution ≠ "" then line ++ " — " ++ ref.contribution else line)
      sect ++ "\n\n**Sources:**\n" ++ String.intercalate "\n" refs
    else sect)
  let sections := sections ++ brieflyNoted.map (fun n =>
    "## " ++ n.title ++ "\n\n" ++ n.narrativeText)
  String.intercalate "\n\n---\n\n" sections

/-- `ComposeBriefing`, modelled on the briefing row it persists: the empty
sentinel when the period has no narratives, otherwise TL;DR plus assembled
body with the storyline/article counts. -/
def ComposeBriefing (periodID : String) (narratives : List StorylineNarrative)
    (storylines : List Storyline) (provider : Option (Except String String)) : Briefing :=
  if narratives.length = 0 then
    { periodID := periodID
      tldr := "- No articles collected today."
      bodyMarkdown := "No briefing content available for this period."
      storylineCount := 0
      articleCount := 0 }
  else
    { periodID := periodID
      tldr := generateTLDR narratives provider
      bodyMarkdown := assembleBody narratives
      storylineCount := storylines.length
      articleCount := (storylines.map (fun s => s.articleCount)).sum }

/-! ## Content fetcher (src/internal/fetch/fetch.go) -/

/-- Outcome of the HTTP round trip in `fetchArticleContent`: a transport
error (`client.Do` fails) or a response with status and body. -/
inductive TransportOutcome where
  | connErr : TransportOutcome
  | resp (status : Nat) (body : String) : TransportOutcome

/-- `fetchArticleContent`: transport errors and extraction failures yield
`("", nil)`; a status ≥ 400 yields an `httpError` (the code); otherwise the
extracted text is returned only when its trimmed length exceeds 100.
`extract` stands for `readability.FromReader`; a body-read error is folded
into the extraction error. -/
def fetchArticleContent (resp : TransportOutcome)
    (extract : String → Except String String) : String × Option Nat :=
  match resp with
  | .connErr => ("", none)
  | .resp status body =>
    if 400 ≤ status then ("", some status)
    else
      match extract body with
      | .error _ => ("", none)
      | .ok textContent =>
        let text := goTrim textContent
        if 100 < text.length then (text, none) else ("", none)

/-- What `FetchMissingContent` does to one article's row (no prior failure
for its domain): store content or mark the attempt. -/
inductive FetchAction where
  | store (content : String) : FetchAction
  | markOnly : FetchAction
deriving BEq

/-- The per-article branch of `FetchMissingContent`: an HTTP error or empty
content marks the attempt; non-empty content is stored. -/
def fetchActionFor (resp : TransportOutcome)
    (extract : String → Except String String) : FetchAction :=
  let r := fetchArticleContent resp extract
  match r.2 with
  | some _ => .markOnly
  | none => if r.1 ≠ "" then .store r.1 else .markOnly

/-- Effect of the chosen action on the article row (`UpdateArticleContent`
sets content and the fetched flag; `MarkArticleFetchAttempted` only the
flag). -/
def applyFetchAction (row : Article) (action : FetchAction) : Article :=
  match action with
  | .store content => { row with content := some content, contentFetched := true }
  | .markOnly => { row with contentFetched := true }

/-! ## Articles store (src/internal/database/articles.go over the migration-1
schema, src/unnamed/part_001) -/

/-- The `articles` table plus the autoincrement sequence. -/
structure ArticlesTable where
  rows : List Article
  seq : Int
deriving BEq

/-- `InsertArticle`: the schema's `url TEXT UNIQUE NOT NULL` makes a
duplicate URL the only failing constraint for Go callers (all other columns
are nullable or supplied); the Go wrapper turns any `Exec` error into
`(0, nil)` and a successful insert returns the new autoincrement id (the
`collected_at` default is not observed by any claim and is omitted). -/
def InsertArticle (db : ArticlesTable) (url title : String)
    (source publishedDate content periodID : Option String) :
    ArticlesTable × Int × Option String :=
  if db.rows.any (fun r => r.url = url) then (db, 0, none)
  else
    let id := db.seq + 1
    let row : Article :=
      { id := id, url := url, title := title, source := source,
        publishedDate := publishedDate, content := content, contentFetched := false,
        periodID := periodID }
    ({ rows := db.rows ++ [row], seq := id }, id, none)

/-- `GetArticleByID`. -/
def GetArticleByID (db : ArticlesTable) (id : Int) : Option Article :=
  db.rows.find? (fun r => r.id = id)

/-! ## Storyline labels (src/unnamed/part_011, `generateLabel`)

`generateLabel` ranks title tokens through a Go map.  The map's *content*
(keys and counts) is deterministic, but each `range` over it enumerates the
keys in an unspecified order, so the function is modelled with one
enumeration order per selection round (`ords`); `roundsAdmissible` says each
order enumerates exactly the keys remaining in the map at that round. -/

def stopWords : List String :=
  ["the", "a", "an", "is", "are", "was",
   "were", "be", "been", "being", "have", "has",
   "had", "do", "does", "did", "will", "would",
   "could", "should", "may", "might", "can", "shall",
   "to", "of", "in", "for", "on", "with", "at",
   "by", "from", "as", "into", "through", "during",
   "before", "after", "above", "below", "and", "but",
   "or", "nor", "not", "so", "yet", "both",
   "either", "neither", "each", "every", "all", "any",
   "few", "more", "most", "other", "some", "such",
   "no", "only", "own", "same", "than", "too",
   "very", "just", "how", "what", "which", "who",
   "whom", "this", "that", "these", "those", "it",
   "its", "new", "about", "up", "out", "one",
   "two", "also", "like", "get", "use"]

/-- `strings.Fields`: whitespace-separated substrings, no empties. -/
def goFields (s : String) : List String :=
  ((splitOnPred Char.isWhitespace s.data).map String.mk).filter (fun w => w ≠ "")

def punctCutset : List Char :=
  ['.', ',', '!', '?', ':', ';', '"', '\'', '(', ')', '-', '[', ']']

/-- `strings.Trim(word, ".,!?:;\"'()-[]")`: strips the cutset characters
from both ends. -/
def trimPunct (w : String) : String :=
  String.mk (((w.data.dropWhile (fun c => c ∈ punctCutset)).reverse.dropWhile
    (fun c => c ∈ punctCutset)).reverse)

/-- The tokens that survive into `wordCounts`, with multiplicity, in
first-seen order: fields of the lowercased titles, trimmed, keeping length
> 2 non-stop-words. -/
def survivingTokens (articles : List Article) : List String :=
  articles.flatMap (fun a =>
    ((goFields (goToLower a.title)).map trimPunct).filter
      (fun w => 2 < w.length ∧ w ∉ stopWords))

/-- Distinct elements in first-seen order (used for map key sets). -/
def firstSeen {α : Type} [DecidableEq α] (toks : List α) : List α :=
  toks.foldl (fun acc w => if w ∈ acc then acc else acc ++ [w]) []

/-- One `range wordCounts` pass of the selection loop: starting from
`maxCount = 0, maxWord = ""`, take the first strictly greater count in
enumeration order. -/
def pickMaxWord (cnt : String → Nat) (ord : List String) : String :=
  (ord.foldl (fun acc w => if acc.2 < cnt w then (w, cnt w) else acc) ("", 0)).1

/-- ASCII part of Go's `isSeparator` used by `strings.Title`: letters,
digits and underscore do not separate; other ASCII characters do. -/
def goIsSeparator (c : Char) : Bool :=
  if c.isAlpha ∨ c.isDigit ∨ c = '_' then false else true

/-- `strings.Title` on ASCII: uppercase every letter that follows a
separator (or starts the string). -/
def goTitle (s : String) : String :=
  String.mk (s.data.foldl (fun (st : Char × List Char) c =>
    (c, st.2 ++ [if goIsSeparator st.1 then c.toUpper else c])) (' ', [])).2

/-- The selection state: title-cased picks so far and the deleted keys. -/
def labelStep (toks : List String) (st : List String × List String)
    (ord : List String) : List String × List String :=
  let maxWord := pickMaxWord (fun w => toks.count w) ord
  if maxWord ≠ "" then (st.1 ++ [goTitle maxWord], st.2 ++ [maxWord]) else st

/-- `generateLabel` given the three rounds' map-enumeration orders. -/
def generateLabel (articles : List Article) (ords : List (List String)) : String :=
  let toks := survivingTokens articles
  let fin := [ords.getD 0 [], ords.getD 1 [], ords.getD 2 []].foldl (labelStep toks) ([], [])
  if 0 < fin.1.length then String.intercalate " " fin.1
  else
    match articles with
    | [] => ""
    | a :: _ => a.title.take 50

/-- `ords` is admissible iff each round enumerates exactly the keys still in
the map: a permutation of the remaining key list, where a successful pick is
deleted before the next round. -/
def roundsAdmissible (toks : List String) : List String → List (List String) → Bool
  | _, [] => true
  | keys, ord :: rest =>
    ord.isPerm keys &&
      (let w := pickMaxWord (fun v => toks.count v) ord
       roundsAdmissible toks (if w ≠ "" then keys.erase w else keys) rest)

/-- Admissibility of the three enumeration orders for `generateLabel`. -/
def labelOrdsAdmissible (articles : List Article) (ords : List (List String)) : Bool :=
  ords.length = 3 &&
    roundsAdmissible (survivingTokens articles)
      (firstSeen (survivingTokens articles)) ords

/-- Modelled from the claim's wording (for comparison with `generateLabel`):
lowercased tokens with *trailing* punctuation stripped, length ≤ 2 and
stop-words discarded, top 3 by frequency with ties broken by *first-seen*
order, title-cased and space-joined; fallback to the first title truncated
to 50 characters. -/
def specLabel (articles : List Article) : String :=
  let toks := articles.flatMap (fun a =>
    ((goFields (goToLower a.title)).map
      (fun w => String.mk ((w.data.reverse.dropWhile (fun c => c ∈ punctCutset)).reverse))).filter
      (fun w => 2 < w.length ∧ w ∉ stopWords))
  let pick3 := [(), (), ()].foldl
    (fun (st : List String × List String) _ =>
      let remaining := (firstSeen toks).filter (fun w => w ∉ st.2)
      let maxWord := pickMaxWord (fun w => toks.count w) remaining
      if maxWord ≠ "" then (st.1 ++ [goTitle maxWord], st.2 ++ [maxWord]) else st)
    ([], [])
  if 0 < pick3.1.length then String.intercalate " " pick3.1
  else
    match articles with
    | [] => ""
    | a :: _ => a.title.take 50

/-! ## Ward linkage (src/internal/cluster/ward_test.go, second embedded file)

`float64` arithmetic is modelled over `ℝ`.  The Go distance slice is
modelled as a total function `Nat → ℝ` that is `0` wherever the slice has
not been written: reads past `len` return `0` in the Go code and the slots
`setDist` appends before writing are zero-filled, so the two views agree on
every read the algorithm performs. -/

structure merge where
  a : Nat
  b : Nat
  distance : ℝ
  size : Nat

/-- Squared Euclidean distance of two same-dimension vectors (the Go loop
ranges over the first vector; for same-dimension inputs `zipWith` agrees). -/
def sqDist (xs ys : List ℝ) : ℝ :=
  (List.zipWith (fun a b => (a - b) * (a - b)) xs ys).sum

/-- `pairwiseDistances`: condensed row-major upper-triangle squared
distances. -/
def pairwiseDistances (embeddings : List (List ℝ)) : List ℝ :=
  let n := embeddings.length
  (List.range n).flatMap (fun i =>
    (List.range' (i + 1) (n - (i + 1))).map (fun j =>
      sqDist (embeddings.getD i []) (embeddings.getD j [])))

/-- `condensedIndex` (the argument swap is inlined). -/
def condensedIndex (n i j : Nat) : Nat :=
  if j < i then n * j - j * (j + 1) / 2 + i - j - 1
  else n * i - i * (i + 1) / 2 + j - i - 1

/-- `extendedKey`: storage key for distances involving merged clusters. -/
def extendedKey (n i j : Nat) : Nat :=
  if j < i then n * (n - 1) / 2 + j * (2 * n - 1) + i
  else n * (n - 1) / 2 + i * (2 * n - 1) + j

/-- `getDist` on the function view of the distance slice. -/
def getDist (d : Nat → ℝ) (n i j : Nat) : ℝ :=
  if i = j then 0
  else if i < n ∧ j < n then d (condensedIndex n i j)
  else d (extendedKey n i j)

/-- `setDist` on the function view of the distance slice. -/
def setDist (d : Nat → ℝ) (n i j : Nat) (val : ℝ) : Nat → ℝ :=
  let key := if i < n ∧ j < n then condensedIndex n i j else extendedKey n i j
  fun m => if m = key then val else d m

/-- The pairs `(i, j)`, `i < j < m`, in the scan order of the nested Go
loops. -/
def goPairs (m : Nat) : List (Nat × Nat) :=
  (List.range m).flatMap (fun i =>
    (List.range' (i + 1) (m - (i + 1))).map (fun j => (i, j)))

/-- The minimum search of one `wardLinkage` step: scan all active pairs
below `m` in loop order, keeping the first strictly smaller distance (the
`math.MaxFloat64` seed is modelled by `none`, and the first active pair
always replaces it). -/
noncomputable def findMinStep (d : Nat → ℝ) (n : Nat) (active : Nat → Bool)
    (acc : Option (ℝ × Nat × Nat)) (p : Nat × Nat) : Option (ℝ × Nat × Nat) :=
  if active p.1 && active p.2 then
    match acc with
    | none => some (getDist d n p.1 p.2, p.1, p.2)
    | some best =>
      if getDist d n p.1 p.2 < best.1 then some (getDist d n p.1 p.2, p.1, p.2)
      else acc
  else acc

noncomputable def findMinPair (d : Nat → ℝ) (n : Nat) (active : Nat → Bool)
    (m : Nat) : Option (ℝ × Nat × Nat) :=
  (goPairs m).foldl (findMinStep d n active) none

structure WardState where
  d : Nat → ℝ
  active : Nat → Bool
  size : Nat → Nat
  merges : List merge

/-- The Lance-Williams update of one main-loop iteration against one
remaining cluster `k` (the inner loop body of `wardLinkage`). -/
noncomputable def wardUpdate (n : Nat) (size : Nat → Nat) (active1 : Nat → Bool)
    (newCluster minI minJ : Nat) (minDist : ℝ) (d : Nat → ℝ) (k : Nat) : Nat → ℝ :=
  if active1 k then
    let ni : ℝ := size minI
    let nj : ℝ := size minJ
    let nk : ℝ := size k
    let dik := getDist d n minI k
    let djk := getDist d n minJ k
    let dij := minDist
    setDist d n newCluster k (((nk + ni) * dik + (nk + nj) * djk - nk * dij) / (nk + ni + nj))
  else d

/-- One iteration of the main `wardLinkage` loop: find the minimal active
pair, deactivate it, activate cluster `n + step`, record the merge (with the
Euclidean `math.Sqrt` of the squared minimum), and run the Lance–Williams
update against every remaining active cluster.  Go reaches the `none`
branch never (there are always at least two active clusters). -/
noncomputable def wardStep (n : Nat) (st : WardState) (step : Nat) : WardState :=
  match findMinPair st.d n st.active (n + step) with
  | none => st
  | some (minDist, minI, minJ) =>
    let newCluster := n + step
    let newSize := st.size minI + st.size minJ
    let active1 : Nat → Bool := fun i => if i = minI ∨ i = minJ then false else st.active i
    let active2 : Nat → Bool := fun i => if i = newCluster then true else active1 i
    let size2 : Nat → Nat := fun i => if i = newCluster then newSize else st.size i
    let d2 := (List.range newCluster).foldl
      (wardUpdate n st.size active1 newCluster minI minJ minDist) st.d
    { d := d2
      active := active2
      size := size2
      merges := st.merges ++ [{ a := minI, b := minJ, distance := Real.sqrt minDist, size := newSize }] }

/-- `wardLinkage`: `n - 1` merge steps from the condensed distance matrix. -/
noncomputable def wardLinkage (dist : List ℝ) (n : Nat) : List merge :=
  let d0 : Nat → ℝ := fun m => if h : m < dist.length then dist.get ⟨m, h⟩ else 0
  let st0 : WardState :=
    { d := d0
      active := fun i => decide (i < n)
      size := fun i => if i < n then 1 else 0
      merges := [] }
  ((List.range (n - 1)).foldl (wardStep n) st0).merges

/-! ## Dendrogram cut and `ClusterArticles` (src/unnamed/part_011)

The union-find arrays are modelled as functions; the mutating `find` and
`setLabel` loops get a fuel of `2 * n`, which exceeds the longest possible
parent chain over the `2n - 1` nodes `cutDendrogram` builds. -/

/-- `find` with path compression: returns the updated label array and the
root. -/
def findCompress : (Nat → Nat) → Nat → Nat → (Nat → Nat) × Nat
  | labels, i, 0 => (labels, i)
  | labels, i, fuel + 1 =>
    if labels i = i then (labels, i)
    else
      let g := labels (labels i)
      findCompress (fun x => if x = i then g else labels x) g fuel

/-- `setLabel`: walk the parent chain from `b`, setting every visited node
(the root included) to `label`. -/
def setLabelLoop : (Nat → Nat) → Nat → Nat → Nat → (Nat → Nat)
  | labels, b, label, 0 => fun x => if x = b then label else labels x
  | labels, b, label, fuel + 1 =>
    if labels b = b then fun x => if x = b then label else labels x
    else
      let nxt := labels b
      setLabelLoop (fun x => if x = b then label else labels x) nxt label fuel

/-- `cutDendrogram`: accept merges with recorded distance ≤ threshold, then
resolve the original points' roots and compact them to dense 0-based ids. -/
noncomputable def cutDendrogram (merges : List merge) (n : Nat) (threshold : ℝ) :
    List Nat :=
  let processed := merges.foldl
    (fun (st : (Nat → Nat) × Nat) m =>
      let newCluster := n + st.2
      let labels :=
        if m.distance ≤ threshold then
          let fr := findCompress st.1 m.a (2 * n)
          let labelA := fr.2
          setLabelLoop (fun x => if x = newCluster then labelA else fr.1 x) m.b labelA (2 * n)
        else fun x => if x = newCluster then newCluster else st.1 x
      (labels, st.2 + 1))
    (fun i => i, 0)
  let resolved := (List.range n).foldl
    (fun (st : (Nat → Nat) × List (Nat × Nat) × List Nat) i =>
      let fr := findCompress st.1 i (2 * n)
      let root := fr.2
      match st.2.1.find? (fun kv => kv.1 = root) with
      | some kv => (fr.1, st.2.1, st.2.2 ++ [kv.2])
      | none => (fr.1, st.2.1 ++ [(root, st.2.1.length)], st.2.2 ++ [st.2.1.length]))
    (processed.1, [], [])
  resolved.2.2

structure ClusterResult where
  storylineCount : Nat
  articleCount : Nat
  brieflyNotedCount : Nat
deriving BEq

/-- Observable trace of one `ClusterArticles` call: the returned result
(`none` on error), whether `ClearStorylinesForPeriod` ran, the storyline
rows inserted (label and member ids) and how many times `Embedder.Embed`
was invoked. -/
structure ClusterTrace where
  result : Option ClusterResult
  cleared : Bool
  inserts : List (String × List Int)
  embedCalls : Nat

/-- `ClusterArticles` on the period's relevant articles.  `articleText`
stands for the triage-backed embedding text; `labelOrds` supplies
`generateLabel`'s map-enumeration orders per group.  Go iterates the
`groups` map in unspecified order; the model takes the dense labels in
ascending first-seen order (the claims settled here do not depend on the
order of inserts).  Go would panic if the embedder returned more vectors
than articles; the zip truncates instead. -/
noncomputable def ClusterArticles (articles : List Article)
    (articleText : Article → String)
    (embed : List String → Except String (List (List ℝ)))
    (labelOrds : List Article → List (List String))
    (distanceThreshold : ℝ) : ClusterTrace :=
  if articles.length = 0 then
    { result := some { storylineCount := 0, articleCount := 0, brieflyNotedCount := 0 }
      cleared := false, inserts := [], embedCalls := 0 }
  else if articles.length < 2 then
    let res : ClusterResult :=
      { storylineCount := 1, articleCount := articles.length
        brieflyNotedCount := articles.length }
    { result := some res
      cleared := true
      inserts := [(brieflyNotedLabel, articles.map (fun a => a.id))]
      embedCalls := 0 }
  else
    let texts := articles.map articleText
    match embed texts with
    | .error _ => { result := none, cleared := true, inserts := [], embedCalls := 1 }
    | .ok embeddings =>
      let clusterLabels :=
        cutDendrogram (wardLinkage (pairwiseDistances embeddings) embeddings.length)
          embeddings.length distanceThreshold
      let pairs := clusterLabels.zip articles
      let groups := (firstSeen (pairs.map Prod.fst)).map
        (fun ℓ => (pairs.filter (fun p => p.1 = ℓ)).map Prod.snd)
      let storylineGroups := groups.filter (fun g => 2 ≤ g.length)
      let brieflyNoted := (groups.filter (fun g => ¬ 2 ≤ g.length)).flatten
      let storyInserts := storylineGroups.map
        (fun g => (generateLabel g (labelOrds g), g.map (fun a => a.id)))
      let bnInserts :=
        if 0 < brieflyNoted.length then
          [(brieflyNotedLabel, brieflyNoted.map (fun a => a.id))]
        else []
      let bnCount := if 0 < brieflyNoted.length then brieflyNoted.length else 0
      { result := some
          { storylineCount := storylineGroups.length + (if 0 < bnCount then 1 else 0)
            articleCount := articles.length
            brieflyNotedCount := bnCount }
        cleared := true
        inserts := storyInserts ++ bnInserts
        embedCalls := 1 }

/-! ## Period resolution (src/unnamed/part_013, `resolvePeriod`)

Dates are modelled as Go `time` absolute day numbers: `goDaysSinceEpoch`
and the `absDate` pipeline below transcribe the layered 400/100/4-year
cycle arithmetic of Go's `time` package (`daysSinceEpoch`, `absDate`),
with the absolute epoch at January 1 of year −292277022399.
`time.Time.Sub(..).Hours()/24` is exact for whole-day UTC values, so the
missed-day count is the day-number difference (the `Duration` overflow
beyond ±292 years is outside every quantified statement below).  A failed
`time.Parse` is discarded by the Go code (`_`); the model substitutes day 0,
which no claim reaches. -/

def isLeapYear (y : Int) : Bool := y % 4 = 0 && (y % 100 ≠ 0 || y % 400 = 0)

def daysInMonth (y : Int) (m : Nat) : Nat :=
  if m = 1 then 31
  else if m = 2 then (if isLeapYear y then 29 else 28)
  else if m = 3 then 31
  else if m = 4 then 30
  else if m = 5 then 31
  else if m = 6 then 30
  else if m = 7 then 31
  else if m = 8 then 31
  else if m = 9 then 30
  else if m = 10 then 31
  else if m = 11 then 30
  else 31

/-- `daysBefore[m]` from Go `time`: days in a non-leap year before month `m+1`. -/
def daysBefore (m : Nat) : Int :=
  if m = 0 then 0
  else if m = 1 then 31
  else if m = 2 then 59
  else if m = 3 then 90
  else if m = 4 then 120
  else if m = 5 then 151
  else if m = 6 then 181
  else if m = 7 then 212
  else if m = 8 then 243
  else if m = 9 then 273
  else if m = 10 then 304
  else if m = 11 then 334
  else 365

def goDaysSinceEpoch (year : Int) : Int :=
  let y := year + 292277022399
  let n400 := y / 400
  let y1 := y - 400 * n400
  let n100 := y1 / 100
  let y2 := y1 - 100 * n100
  let n4 := y2 / 4
  let y3 := y2 - 4 * n4
  146097 * n400 + 36524 * n100 + 1461 * n4 + 365 * y3

def goDateToAbs (year : Int) (month day : Nat) : Int :=
  goDaysSinceEpoch year + daysBefore (month - 1) +
    (if 3 ≤ month ∧ isLeapYear year then 1 else 0) + (day : Int) - 1

def absN0 (z : Int) : Int := z / 146097
def absD0 (z : Int) : Int := z - 146097 * absN0 z
def absN1 (z : Int) : Int := absD0 z / 36524 - absD0 z / 36524 / 4
def absD1 (z : Int) : Int := absD0 z - 36524 * absN1 z
def absN2 (z : Int) : Int := absD1 z / 1461
def absD2 (z : Int) : Int := absD1 z - 1461 * absN2 z
def absN3 (z : Int) : Int := absD2 z / 365 - absD2 z / 365 / 4
def absYday (z : Int) : Int := absD2 z - 365 * absN3 z
def absYear (z : Int) : Int :=
  400 * absN0 z + 100 * absN1 z + 4 * absN2 z + absN3 z - 292277022399

def goMonthDayCore (day : Int) : Nat × Nat :=
  let month := day / 31
  let endv := daysBefore (month.toNat + 1)
  let mb := if endv ≤ day then (month + 1, endv) else (month, daysBefore month.toNat)
  ((mb.1 + 1).toNat, (day - mb.2 + 1).toNat)

def goMonthDay (year yday : Int) : Nat × Nat :=
  if isLeapYear year ∧ yday = 59 then (2, 29)
  else goMonthDayCore (if isLeapYear year ∧ 59 < yday then yday - 1 else yday)

def goAbsDate (z : Int) : Int × Nat × Nat :=
  let md := goMonthDay (absYear z) (absYday z)
  (absYear z, md.1, md.2)

set_option maxHeartbeats 2000000

def nextDay (y : Int) (m d : Nat) : Int × Nat × Nat :=
  if d < daysInMonth y m then (y, m, d + 1)
  else if m < 12 then (y, m + 1, 1)
  else (y + 1, 1, 1)

/-- `time.Parse("2006-01-02", s)`: exactly `YYYY-MM-DD` with a valid
calendar date. -/
def parseDate (s : String) : Option Int :=
  match s.data with
  | [y1, y2, y3, y4, h1, c1, c2, h2, e1, e2] =>
    if h1 = '-' ∧ h2 = '-' ∧
        ([y1, y2, y3, y4, c1, c2, e1, e2].all Char.isDigit) then
      let y : Int := digitsVal [y1, y2, y3, y4]
      let mo := digitsVal [c1, c2]
      let da := digitsVal [e1, e2]
      if 1 ≤ mo ∧ mo ≤ 12 ∧ 1 ≤ da ∧ da ≤ daysInMonth y mo then
        some (goDateToAbs y mo da)
      else none
    else none
  | _ => none

def pad2 (v : Nat) : String :=
  String.mk [Char.ofNat (48 + v / 10 % 10), Char.ofNat (48 + v % 10)]

def pad4 (v : Nat) : String :=
  String.mk [Char.ofNat (48 + v / 1000 % 10), Char.ofNat (48 + v / 100 % 10),
    Char.ofNat (48 + v / 10 % 10), Char.ofNat (48 + v % 10)]


/-- `Format("2006-01-02")` for dates with a 4-digit year. -/
def formatDate (dn : Int) : String :=
  pad4 (goAbsDate dn).1.toNat ++ "-" ++ pad2 (goAbsDate dn).2.1 ++ "-" ++ pad2 (goAbsDate dn).2.2

/-- `database.MakePeriodID` (src/unnamed/part_003). -/
def MakePeriodID (start fin : String) : String :=
  if start = fin then start else start ++ ".." ++ fin

/-- `resolvePeriod`.  `lastRun` is what `GetLastRunDate` returned (the last
report's end date, or `""` when no run exists); `answer` is what the
operator would type if the catch-up consent prompt were shown — it is only
consulted in the `missedDays > 5` branch. -/
def resolvePeriod (lastRun today : String) (explicitDaysBack : Int)
    (answer : String) : Except String (String × Int) :=
  if 0 < explicitDaysBack then
    if explicitDaysBack = 1 then .ok (today, explicitDaysBack)
    else
      let todayDate := (parseDate today).getD 0
      let start := formatDate (todayDate - (explicitDaysBack - 1))
      .ok (MakePeriodID start today, explicitDaysBack)
  else if lastRun = "" then .ok (today, 1)
  else
    let lastDate := (parseDate lastRun).getD 0
    let todayDate := (parseDate today).getD 0
    let missedDays := todayDate - lastDate
    if missedDays ≤ 0 then .ok (today, 1)
    else if missedDays = 1 then .ok (today, 1)
    else
      let startDate := formatDate (lastDate + 1)
      let periodID := MakePeriodID startDate today
      if 5 < missedDays then
        let ans := goTrim (goToLower answer)
        if ans ≠ "y" ∧ ans ≠ "yes" then .error "aborted"
        else .ok (periodID, missedDays)
      else .ok (periodID, missedDays)


/-! ## Theorems

### Calendar round trip for the Go date model -/

theorem ediv_shift (k q S : Int) (hk : k ≠ 0) : (k * q + S) / k = q + S / k := by
  rw [add_comm, Int.add_mul_ediv_left S q hk, add_comm]

theorem yearLayers_decomp (a b c r3 yd : Int)
    (hb : 0 ≤ b ∧ b ≤ 3) (hc : 0 ≤ c ∧ c ≤ 24) (hr3 : 0 ≤ r3 ∧ r3 ≤ 3)
    (hyd0 : 0 ≤ yd)
    (hyd1 : yd ≤ 364 + (if r3 = 3 ∧ (c ≠ 24 ∨ b = 3) then 1 else 0)) :
    absYear (146097 * a + 36524 * b + 1461 * c + 365 * r3 + yd) =
        400 * a + 100 * b + 4 * c + r3 - 292277022399 ∧
      absYday (146097 * a + 36524 * b + 1461 * c + 365 * r3 + yd) = yd := by
  have hyd365 : yd ≤ 365 := by split_ifs at hyd1 <;> omega
  have h0 : absN0 (146097 * a + 36524 * b + 1461 * c + 365 * r3 + yd) = a := by
    simp only [absN0]
    rw [show (146097 * a + 36524 * b + 1461 * c + 365 * r3 + yd)
        = 146097 * a + (36524 * b + 1461 * c + 365 * r3 + yd) from by ring,
      ediv_shift _ _ _ (by norm_num),
      Int.ediv_eq_zero_of_lt (by omega) (by omega)]
    ring
  have hd0 : absD0 (146097 * a + 36524 * b + 1461 * c + 365 * r3 + yd) =
      36524 * b + 1461 * c + 365 * r3 + yd := by
    simp only [absD0]
    rw [h0]
    ring
  -- the 100-year layer needs the leap tie: the extra cycle day only occurs
  -- in the last year of the 400-year cycle
  have hS2 : (1461 * c + 365 * r3 + yd ≤ 36523) ∨
      (b = 3 ∧ 1461 * c + 365 * r3 + yd = 36524) := by
    split_ifs at hyd1 with hL
    · rcases hL.2 with h | h <;> omega
    · omega
  have hq1 : (36524 * b + 1461 * c + 365 * r3 + yd) / 36524
      = b + (1461 * c + 365 * r3 + yd) / 36524 := by
    rw [show 36524 * b + 1461 * c + 365 * r3 + yd
        = 36524 * b + (1461 * c + 365 * r3 + yd) from by ring,
      ediv_shift _ _ _ (by norm_num)]
  have h1 : absN1 (146097 * a + 36524 * b + 1461 * c + 365 * r3 + yd) = b := by
    simp only [absN1]
    rw [hd0, hq1]
    rcases hS2 with h | h
    · rw [Int.ediv_eq_zero_of_lt (by omega) (by omega)]
      omega
    · rw [h.2]
      norm_num
      omega
  have hd1 : absD1 (146097 * a + 36524 * b + 1461 * c + 365 * r3 + yd) =
      1461 * c + 365 * r3 + yd := by
    simp only [absD1]
    rw [hd0, h1]
    ring
  have h2 : absN2 (146097 * a + 36524 * b + 1461 * c + 365 * r3 + yd) = c := by
    simp only [absN2]
    rw [hd1,
      show 1461 * c + 365 * r3 + yd = 1461 * c + (365 * r3 + yd) from by ring,
      ediv_shift _ _ _ (by norm_num),
      Int.ediv_eq_zero_of_lt (by omega) (by omega)]
    ring
  have hd2 : absD2 (146097 * a + 36524 * b + 1461 * c + 365 * r3 + yd) =
      365 * r3 + yd := by
    simp only [absD2]
    rw [hd1, h2]
    ring
  have hS3 : yd ≤ 364 ∨ (r3 = 3 ∧ yd = 365) := by
    split_ifs at hyd1 with hL
    · rcases hL with ⟨h3, _⟩ <;> omega
    · omega
  have hq3 : (365 * r3 + yd) / 365 = r3 + yd / 365 :=
    ediv_shift _ _ _ (by norm_num)
  have h3 : absN3 (146097 * a + 36524 * b + 1461 * c + 365 * r3 + yd) = r3 := by
    simp only [absN3]
    rw [hd2, hq3]
    rcases hS3 with h | h
    · rw [Int.ediv_eq_zero_of_lt (by omega) (by omega)]
      omega
    · rw [h.2]
      norm_num
      omega
  refine ⟨?_, ?_⟩
  · rw [absYear, h0, h1, h2, h3]
  · rw [absYday, hd2, h3]
    rcases hS3 with h | h
    · have : yd / 365 = 0 := Int.ediv_eq_zero_of_lt (by omega) (by omega)
      omega
    · omega

theorem goMonthDayCore_spec (m d : Nat) (hm1 : 1 ≤ m) (hm2 : m ≤ 12) (hd1 : 1 ≤ d)
    (hd2 : (d : Int) ≤ daysBefore m - daysBefore (m - 1)) :
    goMonthDayCore (daysBefore (m - 1) + (d : Int) - 1) = (m, d) := by
  interval_cases m
  · -- month 1
    have hd' : (d : Int) ≤ 31 := hd2
    show goMonthDayCore (0 + (d : Int) - 1) = (1, d)
    simp only [goMonthDayCore]
    rw [show (0 + (d : Int) - 1) / 31 = 0 from by omega]
    all_goals first
    | (rw [show daysBefore (((0 : Int)).toNat + 1) = 31 from rfl,
          show daysBefore ((0 : Int)).toNat = 0 from rfl]
       split_ifs <;> simp only [Prod.mk.injEq] <;> constructor <;> omega)
  · -- month 2
    have hd' : (d : Int) ≤ 28 := hd2
    show goMonthDayCore (31 + (d : Int) - 1) = (2, d)
    simp only [goMonthDayCore]
    rw [show (31 + (d : Int) - 1) / 31 = 1 from by omega]
    all_goals first
    | (rw [show daysBefore (((1 : Int)).toNat + 1) = 59 from rfl,
          show daysBefore ((1 : Int)).toNat = 31 from rfl]
       split_ifs <;> simp only [Prod.mk.injEq] <;> constructor <;> omega)
  · -- month 3
    have hd' : (d : Int) ≤ 31 := hd2
    show goMonthDayCore (59 + (d : Int) - 1) = (3, d)
    simp only [goMonthDayCore]
    rcases (show (59 + (d : Int) - 1) / 31 = 1 ∨ (59 + (d : Int) - 1) / 31 = 2 from by omega) with hq | hq <;> rw [hq]
    all_goals first
    | (rw [show daysBefore (((1 : Int)).toNat + 1) = 59 from rfl,
          show daysBefore ((1 : Int)).toNat = 31 from rfl]
       split_ifs <;> simp only [Prod.mk.injEq] <;> constructor <;> omega)
    | (rw [show daysBefore (((2 : Int)).toNat + 1) = 90 from rfl,
          show daysBefore ((2 : Int)).toNat = 59 from rfl]
       split_ifs <;> simp only [Prod.mk.injEq] <;> constructor <;> omega)
  · -- month 4
    have hd' : (d : Int) ≤ 30 := hd2
    show goMonthDayCore (90 + (d : Int) - 1) = (4, d)
    simp only [goMonthDayCore]
    rcases (show (90 + (d : Int) - 1) / 31 = 2 ∨ (90 + (d : Int) - 1) / 31 = 3 from by omega) with hq | hq <;> rw [hq]
    all_goals first
    | (rw [show daysBefore (((2 : Int)).toNat + 1) = 90 from rfl,
          show daysBefore ((2 : Int)).toNat = 59 from rfl]
       split_ifs <;> simp only [Prod.mk.injEq] <;> constructor <;> omega)
    | (rw [show daysBefore (((3 : Int)).toNat + 1) = 120 from rfl,
          show daysBefore ((3 : Int)).toNat = 90 from rfl]
       split_ifs <;> simp only [Prod.mk.injEq] <;> constructor <;> omega)
  · -- month 5
    have hd' : (d : Int) ≤ 31 := hd2
    show goMonthDayCore (120 + (d : Int) - 1) = (5, d)
    simp only [goMonthDayCore]
    rcases (show (120 + (d : Int) - 1) / 31 = 3 ∨ (120 + (d : Int) - 1) / 31 = 4 from by omega) with hq | hq <;> rw [hq]
    all_goals first
    | (rw [show daysBefore (((3 : Int)).toNat + 1) = 120 from rfl,
          show daysBefore ((3 : Int)).toNat = 90 from rfl]
       split_ifs <;> simp only [Prod.mk.injEq] <;> constructor <;> omega)
    | (rw [show daysBefore (((4 : Int)).toNat + 1) = 151 from rfl,
          show daysBefore ((4 : Int)).toNat = 120 from rfl]
       split_ifs <;> simp only [Prod.mk.injEq] <;> constructor <;> omega)
  · -- month 6
    have hd' : (d : Int) ≤ 30 := hd2
    show goMonthDayCore (151 + (d : Int) - 1) = (6, d)
    simp only [goMonthDayCore]
    rcases (show (151 + (d : Int) - 1) / 31 = 4 ∨ (151 + (d : Int) - 1) / 31 = 5 from by omega) with hq | hq <;> rw [hq]
    all_goals first
    | (rw [show daysBefore (((4 : Int)).toNat + 1) = 151 from rfl,
          show daysBefore ((4 : Int)).toNat = 120 from rfl]
       split_ifs <;> simp only [Prod.mk.injEq] <;> constructor <;> omega)
    | (rw [show daysBefore (((5 : Int)).toNat + 1) = 181 from rfl,
          show daysBefore ((5 : Int)).toNat = 151 from rfl]
       split_ifs <;> simp only [Prod.mk.injEq] <;> constructor <;> omega)
  · -- month 7
    have hd' : (d : Int) ≤ 31 := hd2
    show goMonthDayCore (181 + (d : Int) - 1) = (7, d)
    simp only [goMonthDayCore]
    rcases (show (181 + (d : Int) - 1) / 31 = 5 ∨ (181 + (d : Int) - 1) / 31 = 6 from by omega) with hq | hq <;> rw [hq]
    all_goals first
    | (rw [show daysBefore (((5 : Int)).toNat + 1) = 181 from rfl,
          show daysBefore ((5 : Int)).toNat = 151 from rfl]
       split_ifs <;> simp only [Prod.mk.injEq] <;> constructor <;> omega)
    | (rw [show daysBefore (((6 : Int)).toNat + 1) = 212 from rfl,
          show daysBefore ((6 : Int)).toNat = 181 from rfl]
       split_ifs <;> simp only [Prod.mk.injEq] <;> constructor <;> omega)
  · -- month 8
    have hd' : (d : Int) ≤ 31 := hd2
    show goMonthDayCore (212 + (d : Int) - 1) = (8, d)
    simp only [goMonthDayCore]
    rcases (show (212 + (d : Int) - 1) / 31 = 6 ∨ (212 + (d : Int) - 1) / 31 = 7 from by omega) with hq | hq <;> rw [hq]
    all_goals first
    | (rw [show daysBefore (((6 : Int)).toNat + 1) = 212 from rfl,
          show daysBefore ((6 : Int)).toNat = 181 from rfl]
       split_ifs <;> simp only [Prod.mk.injEq] <;> constructor <;> omega)
    | (rw [show daysBefore (((7 : Int)).toNat + 1) = 243 from rfl,
          show daysBefore ((7 : Int)).toNat = 212 from rfl]
       split_ifs <;> simp only [Prod.mk.injEq] <;> constructor <;> omega)
  · -- month 9
    have hd' : (d : Int) ≤ 30 := hd2
    show goMonthDayCore (243 + (d : Int) - 1) = (9, d)
    simp only [goMonthDayCore]
    rcases (show (243 + (d : Int) - 1) / 31 = 7 ∨ (243 + (d : Int) - 1) / 31 = 8 from by omega) with hq | hq <;> rw [hq]
    all_goals first
    | (rw [show daysBefore (((7 : Int)).toNat + 1) = 243 from rfl,
          show daysBefore ((7 : Int)).toNat = 212 from rfl]
       split_ifs <;> simp only [Prod.mk.injEq] <;> constructor <;> omega)
    | (rw [show daysBefore (((8 : Int)).toNat + 1) = 273 from rfl,
          show daysBefore ((8 : Int)).toNat = 243 from rfl]
       split_ifs <;> simp only [Prod.mk.injEq] <;> constructor <;> omega)
  · -- month 10
    have hd' : (d : Int) ≤ 31 := hd2
    show goMonthDayCore (273 + (d : Int) - 1) = (10, d)
    simp only [goMonthDayCore]
    rcases (show (273 + (d : Int) - 1) / 31 = 8 ∨ (273 + (d : Int) - 1) / 31 = 9 from by omega) with hq | hq <;> rw [hq]
    all_goals first
    | (rw [show daysBefore (((8 : Int)).toNat + 1) = 273 from rfl,
          show daysBefore ((8 : Int)).toNat = 243 from rfl]
       split_ifs <;> simp only [Prod.mk.injEq] <;> constructor <;> omega)
    | (rw [show daysBefore (((9 : Int)).toNat + 1) = 304 from rfl,
          show daysBefore ((9 : Int)).toNat = 273 from rfl]
       split_ifs <;> simp only [Prod.mk.injEq] <;> constructor <;> omega)
  · -- month 11
    have hd' : (d : Int) ≤ 30 := hd2
    show goMonthDayCore (304 + (d : Int) - 1) = (11, d)
    simp only [goMonthDayCore]
    rcases (show (304 + (d : Int) - 1) / 31 = 9 ∨ (304 + (d : Int) - 1) / 31 = 10 from by omega) with hq | hq <;> rw [hq]
    all_goals first
    | (rw [show daysBefore (((9 : Int)).toNat + 1) = 304 from rfl,
          show daysBefore ((9 : Int)).toNat = 273 from rfl]
       split_ifs <;> simp only [Prod.mk.injEq] <;> constructor <;> omega)
    | (rw [show daysBefore (((10 : Int)).toNat + 1) = 334 from rfl,
          show daysBefore ((10 : Int)).toNat = 304 from rfl]
       split_ifs <;> simp only [Prod.mk.injEq] <;> constructor <;> omega)
  · -- month 12
    have hd' : (d : Int) ≤ 31 := hd2
    show goMonthDayCore (334 + (d : Int) - 1) = (12, d)
    simp only [goMonthDayCore]
    rcases (show (334 + (d : Int) - 1) / 31 = 10 ∨ (334 + (d : Int) - 1) / 31 = 11 from by omega) with hq | hq <;> rw [hq]
    all_goals first
    | (rw [show daysBefore (((10 : Int)).toNat + 1) = 334 from rfl,
          show daysBefore ((10 : Int)).toNat = 304 from rfl]
       split_ifs <;> simp only [Prod.mk.injEq] <;> constructor <;> omega)
    | (rw [show daysBefore (((11 : Int)).toNat + 1) = 365 from rfl,
          show daysBefore ((11 : Int)).toNat = 334 from rfl]
       split_ifs <;> simp only [Prod.mk.injEq] <;> constructor <;> omega)

theorem goMonthDay_spec (year : Int) (m d : Nat) (hm1 : 1 ≤ m) (hm2 : m ≤ 12)
    (hd1 : 1 ≤ d) (hd2 : d ≤ daysInMonth year m) :
    goMonthDay year
        (daysBefore (m - 1) + (if 3 ≤ m ∧ isLeapYear year then 1 else 0) + (d : Int) - 1)
      = (m, d) := by
  interval_cases m <;> rcases Bool.eq_false_or_eq_true (isLeapYear year) with hL | hL
  · -- month 1, leap year: true
    have hdim : d ≤ 31 := hd2
    rw [hL]
    show goMonthDay year (0 + 0 + (d : Int) - 1) = (1, d)
    simp only [goMonthDay]
    rw [hL]
    simp only [eq_self_iff_true, true_and]
    split_ifs with h1 h2
    · exfalso; omega
    · exfalso; omega
    · exact goMonthDayCore_spec 1 d (by norm_num) (by norm_num) hd1 (by show (d : Int) ≤ (31 : Int) - 0; omega)
  · -- month 1, leap year: false
    have hdim : d ≤ 31 := hd2
    rw [hL]
    show goMonthDay year (0 + 0 + (d : Int) - 1) = (1, d)
    simp only [goMonthDay]
    rw [hL]
    simp only [Bool.false_eq_true, false_and, if_false]
    exact goMonthDayCore_spec 1 d (by norm_num) (by norm_num) hd1 (by show (d : Int) ≤ (31 : Int) - 0; omega)
  · -- month 2, leap year: true
    have hdim : d ≤ 29 := by simp [daysInMonth, hL] at hd2; omega
    rw [hL]
    show goMonthDay year (31 + 0 + (d : Int) - 1) = (2, d)
    simp only [goMonthDay]
    rw [hL]
    simp only [eq_self_iff_true, true_and]
    split_ifs with h1 h2
    · simp only [Prod.mk.injEq, eq_self_iff_true, true_and]
      omega
    · exfalso; omega
    · exact goMonthDayCore_spec 2 d (by norm_num) (by norm_num) hd1 (by show (d : Int) ≤ (59 : Int) - 31; omega)
  · -- month 2, leap year: false
    have hdim : d ≤ 28 := by simp [daysInMonth, hL] at hd2; omega
    rw [hL]
    show goMonthDay year (31 + 0 + (d : Int) - 1) = (2, d)
    simp only [goMonthDay]
    rw [hL]
    simp only [Bool.false_eq_true, false_and, if_false]
    exact goMonthDayCore_spec 2 d (by norm_num) (by norm_num) hd1 (by show (d : Int) ≤ (59 : Int) - 31; omega)
  · -- month 3, leap year: true
    have hdim : d ≤ 31 := hd2
    rw [hL]
    show goMonthDay year (59 + 1 + (d : Int) - 1) = (3, d)
    simp only [goMonthDay]
    rw [hL]
    simp only [eq_self_iff_true, true_and]
    split_ifs with h1 h2
    · exfalso; omega
    · rw [show (59 : Int) + 1 + (d : Int) - 1 - 1 = 59 + (d : Int) - 1 from by ring]
      exact goMonthDayCore_spec 3 d (by norm_num) (by norm_num) hd1 (by show (d : Int) ≤ (90 : Int) - 59; omega)
    · exfalso; omega
  · -- month 3, leap year: false
    have hdim : d ≤ 31 := hd2
    rw [hL]
    show goMonthDay year (59 + 0 + (d : Int) - 1) = (3, d)
    simp only [goMonthDay]
    rw [hL]
    simp only [Bool.false_eq_true, false_and, if_false]
    exact goMonthDayCore_spec 3 d (by norm_num) (by norm_num) hd1 (by show (d : Int) ≤ (90 : Int) - 59; omega)
  · -- month 4, leap year: true
    have hdim : d ≤ 30 := hd2
    rw [hL]
    show goMonthDay year (90 + 1 + (d : Int) - 1) = (4, d)
    simp only [goMonthDay]
    rw [hL]
    simp only [eq_self_iff_true, true_and]
    split_ifs with h1 h2
    · exfalso; omega
    · rw [show (90 : Int) + 1 + (d : Int) - 1 - 1 = 90 + (d : Int) - 1 from by ring]
      exact goMonthDayCore_spec 4 d (by norm_num) (by norm_num) hd1 (by show (d : Int) ≤ (120 : Int) - 90; omega)
    · exfalso; omega
  · -- month 4, leap year: false
    have hdim : d ≤ 30 := hd2
    rw [hL]
    show goMonthDay year (90 + 0 + (d : Int) - 1) = (4, d)
    simp only [goMonthDay]
    rw [hL]
    simp only [Bool.false_eq_true, false_and, if_false]
    exact goMonthDayCore_spec 4 d (by norm_num) (by norm_num) hd1 (by show (d : Int) ≤ (120 : Int) - 90; omega)
  · -- month 5, leap year: true
    have hdim : d ≤ 31 := hd2
    rw [hL]
    show goMonthDay year (120 + 1 + (d : Int) - 1) = (5, d)
    simp only [goMonthDay]
    rw [hL]
    simp only [eq_self_iff_true, true_and]
    split_ifs with h1 h2
    · exfalso; omega
    · rw [show (120 : Int) + 1 + (d : Int) - 1 - 1 = 120 + (d : Int) - 1 from by ring]
      exact goMonthDayCore_spec 5 d (by norm_num) (by norm_num) hd1 (by show (d : Int) ≤ (151 : Int) - 120; omega)
    · exfalso; omega
  · -- month 5, leap year: false
    have hdim : d ≤ 31 := hd2
    rw [hL]
    show goMonthDay year (120 + 0 + (d : Int) - 1) = (5, d)
    simp only [goMonthDay]
    rw [hL]
    simp only [Bool.false_eq_true, false_and, if_false]
    exact goMonthDayCore_spec 5 d (by norm_num) (by norm_num) hd1 (by show (d : Int) ≤ (151 : Int) - 120; omega)
  · -- month 6, leap year: true
    have hdim : d ≤ 30 := hd2
    rw [hL]
    show goMonthDay year (151 + 1 + (d : Int) - 1) = (6, d)
    simp only [goMonthDay]
    rw [hL]
    simp only [eq_self_iff_true, true_and]
    split_ifs with h1 h2
    · exfalso; omega
    · rw [show (151 : Int) + 1 + (d : Int) - 1 - 1 = 151 + (d : Int) - 1 from by ring]
      exact goMonthDayCore_spec 6 d (by norm_num) (by norm_num) hd1 (by show (d : Int) ≤ (181 : Int) - 151; omega)
    · exfalso; omega
  · -- month 6, leap year: false
    have hdim : d ≤ 30 := hd2
    rw [hL]
    show goMonthDay year (151 + 0 + (d : Int) - 1) = (6, d)
    simp only [goMonthDay]
    rw [hL]
    simp only [Bool.false_eq_true, false_and, if_false]
    exact goMonthDayCore_spec 6 d (by norm_num) (by norm_num) hd1 (by show (d : Int) ≤ (181 : Int) - 151; omega)
  · -- month 7, leap year: true
    have hdim : d ≤ 31 := hd2
    rw [hL]
    show goMonthDay year (181 + 1 + (d : Int) - 1) = (7, d)
    simp only [goMonthDay]
    rw [hL]
    simp only [eq_self_iff_true, true_and]
    split_ifs with h1 h2
    · exfalso; omega
    · rw [show (181 : Int) + 1 + (d : Int) - 1 - 1 = 181 + (d : Int) - 1 from by ring]
      exact goMonthDayCore_spec 7 d (by norm_num) (by norm_num) hd1 (by show (d : Int) ≤ (212 : Int) - 181; omega)
    · exfalso; omega
  · -- month 7, leap year: false
    have hdim : d ≤ 31 := hd2
    rw [hL]
    show goMonthDay year (181 + 0 + (d : Int) - 1) = (7, d)
    simp only [goMonthDay]
    rw [hL]
    simp only [Bool.false_eq_true, false_and, if_false]
    exact goMonthDayCore_spec 7 d (by norm_num) (by norm_num) hd1 (by show (d : Int) ≤ (212 : Int) - 181; omega)
  · -- month 8, leap year: true
    have hdim : d ≤ 31 := hd2
    rw [hL]
    show goMonthDay year (212 + 1 + (d : Int) - 1) = (8, d)
    simp only [goMonthDay]
    rw [hL]
    simp only [eq_self_iff_true, true_and]
    split_ifs with h1 h2
    · exfalso; omega
    · rw [show (212 : Int) + 1 + (d : Int) - 1 - 1 = 212 + (d : Int) - 1 from by ring]
      exact goMonthDayCore_spec 8 d (by norm_num) (by norm_num) hd1 (by show (d : Int) ≤ (243 : Int) - 212; omega)
    · exfalso; omega
  · -- month 8, leap year: false
    have hdim : d ≤ 31 := hd2
    rw [hL]
    show goMonthDay year (212 + 0 + (d : Int) - 1) = (8, d)
    simp only [goMonthDay]
    rw [hL]
    simp only [Bool.false_eq_true, false_and, if_false]
    exact goMonthDayCore_spec 8 d (by norm_num) (by norm_num) hd1 (by show (d : Int) ≤ (243 : Int) - 212; omega)
  · -- month 9, leap year: true
    have hdim : d ≤ 30 := hd2
    rw [hL]
    show goMonthDay year (243 + 1 + (d : Int) - 1) = (9, d)
    simp only [goMonthDay]
    rw [hL]
    simp only [eq_self_iff_true, true_and]
    split_ifs with h1 h2
    · exfalso; omega
    · rw [show (243 : Int) + 1 + (d : Int) - 1 - 1 = 243 + (d : Int) - 1 from by ring]
      exact goMonthDayCore_spec 9 d (by norm_num) (by norm_num) hd1 (by show (d : Int) ≤ (273 : Int) - 243; omega)
    · exfalso; omega
  · -- month 9, leap year: false
    have hdim : d ≤ 30 := hd2
    rw [hL]
    show goMonthDay year (243 + 0 + (d : Int) - 1) = (9, d)
    simp only [goMonthDay]
    rw [hL]
    simp only [Bool.false_eq_true, false_and, if_false]
    exact goMonthDayCore_spec 9 d (by norm_num) (by norm_num) hd1 (by show (d : Int) ≤ (273 : Int) - 243; omega)
  · -- month 10, leap year: true
    have hdim : d ≤ 31 := hd2
    rw [hL]
    show goMonthDay year (273 + 1 + (d : Int) - 1) = (10, d)
    simp only [goMonthDay]
    rw [hL]
    simp only [eq_self_iff_true, true_and]
    split_ifs with h1 h2
    · exfalso; omega
    · rw [show (273 : Int) + 1 + (d : Int) - 1 - 1 = 273 + (d : Int) - 1 from by ring]
      exact goMonthDayCore_spec 10 d (by norm_num) (by norm_num) hd1 (by show (d : Int) ≤ (304 : Int) - 273; omega)
    · exfalso; omega
  · -- month 10, leap year: false
    have hdim : d ≤ 31 := hd2
    rw [hL]
    show goMonthDay year (273 + 0 + (d : Int) - 1) = (10, d)
    simp only [goMonthDay]
    rw [hL]
    simp only [Bool.false_eq_true, false_and, if_false]
    exact goMonthDayCore_spec 10 d (by norm_num) (by norm_num) hd1 (by show (d : Int) ≤ (304 : Int) - 273; omega)
  · -- month 11, leap year: true
    have hdim : d ≤ 30 := hd2
    rw [hL]
    show goMonthDay year (304 + 1 + (d : Int) - 1) = (11, d)
    simp only [goMonthDay]
    rw [hL]
    simp only [eq_self_iff_true, true_and]
    split_ifs with h1 h2
    · exfalso; omega
    · rw [show (304 : Int) + 1 + (d : Int) - 1 - 1 = 304 + (d : Int) - 1 from by ring]
      exact goMonthDayCore_spec 11 d (by norm_num) (by norm_num) hd1 (by show (d : Int) ≤ (334 : Int) - 304; omega)
    · exfalso; omega
  · -- month 11, leap year: false
    have hdim : d ≤ 30 := hd2
    rw [hL]
    show goMonthDay year (304 + 0 + (d : Int) - 1) = (11, d)
    simp only [goMonthDay]
    rw [hL]
    simp only [Bool.false_eq_true, false_and, if_false]
    exact goMonthDayCore_spec 11 d (by norm_num) (by norm_num) hd1 (by show (d : Int) ≤ (334 : Int) - 304; omega)
  · -- month 12, leap year: true
    have hdim : d ≤ 31 := hd2
    rw [hL]
    show goMonthDay year (334 + 1 + (d : Int) - 1) = (12, d)
    simp only [goMonthDay]
    rw [hL]
    simp only [eq_self_iff_true, true_and]
    split_ifs with h1 h2
    · exfalso; omega
    · rw [show (334 : Int) + 1 + (d : Int) - 1 - 1 = 334 + (d : Int) - 1 from by ring]
      exact goMonthDayCore_spec 12 d (by norm_num) (by norm_num) hd1 (by show (d : Int) ≤ (365 : Int) - 334; omega)
    · exfalso; omega
  · -- month 12, leap year: false
    have hdim : d ≤ 31 := hd2
    rw [hL]
    show goMonthDay year (334 + 0 + (d : Int) - 1) = (12, d)
    simp only [goMonthDay]
    rw [hL]
    simp only [Bool.false_eq_true, false_and, if_false]
    exact goMonthDayCore_spec 12 d (by norm_num) (by norm_num) hd1 (by show (d : Int) ≤ (365 : Int) - 334; omega)

theorem goAbsDate_goDateToAbs (year : Int) (m d : Nat)
    (hy0 : 0 ≤ year) (hy1 : year ≤ 10000)
    (hm1 : 1 ≤ m) (hm2 : m ≤ 12) (hd1 : 1 ≤ d) (hd2 : d ≤ daysInMonth year m) :
    goAbsDate (goDateToAbs year m d) = (year, m, d) := by
  obtain ⟨a, ha⟩ : ∃ a, (year + 292277022399) / 400 = a := ⟨_, rfl⟩
  obtain ⟨b, hb⟩ : ∃ b, (year + 292277022399 - 400 * a) / 100 = b := ⟨_, rfl⟩
  obtain ⟨c, hc⟩ : ∃ c, (year + 292277022399 - 400 * a - 100 * b) / 4 = c := ⟨_, rfl⟩
  obtain ⟨r3, hr3⟩ : ∃ r3, year + 292277022399 - 400 * a - 100 * b - 4 * c = r3 := ⟨_, rfl⟩
  have hb0 : 0 ≤ b ∧ b ≤ 3 := by omega
  have hc0 : 0 ≤ c ∧ c ≤ 24 := by omega
  have hr30 : 0 ≤ r3 ∧ r3 ≤ 3 := by omega
  have hyearform : year = 400 * a + 100 * b + 4 * c + r3 - 292277022399 := by omega
  have hleap : isLeapYear year = true ↔ (r3 = 3 ∧ (c ≠ 24 ∨ b = 3)) := by
    simp only [isLeapYear, Bool.and_eq_true, Bool.or_eq_true, decide_eq_true_eq,
      bne_iff_ne, ne_eq]
    omega
  have hfwd : goDateToAbs year m d =
      146097 * a + 36524 * b + 1461 * c + 365 * r3 +
        (daysBefore (m - 1) + (if 3 ≤ m ∧ isLeapYear year then 1 else 0) + (d : Int) - 1) := by
    simp only [goDateToAbs, goDaysSinceEpoch]
    rw [ha, hb, hc]
    rw [show year + 292277022399 - 400 * a - 100 * b - 4 * c = r3 from hr3]
    ring
  have hyd : 0 ≤ daysBefore (m - 1) + (if 3 ≤ m ∧ isLeapYear year then 1 else 0) + (d : Int) - 1 ∧
      daysBefore (m - 1) + (if 3 ≤ m ∧ isLeapYear year then 1 else 0) + (d : Int) - 1 ≤
        364 + (if r3 = 3 ∧ (c ≠ 24 ∨ b = 3) then 1 else 0) := by
    rcases Bool.eq_false_or_eq_true (isLeapYear year) with hL | hL <;> interval_cases m
    · -- month 1, leap year: true
      have hdim : d ≤ 31 := hd2
      have hP : r3 = 3 ∧ (c ≠ 24 ∨ b = 3) := hleap.mp hL
      rw [if_pos hP, hL]
      show 0 ≤ 0 + 0 + (d : Int) - 1 ∧ 0 + 0 + (d : Int) - 1 ≤ 365
      omega
    · -- month 2, leap year: true
      have hdim : d ≤ 29 := by simp [daysInMonth, hL] at hd2; omega
      have hP : r3 = 3 ∧ (c ≠ 24 ∨ b = 3) := hleap.mp hL
      rw [if_pos hP, hL]
      show 0 ≤ 31 + 0 + (d : Int) - 1 ∧ 31 + 0 + (d : Int) - 1 ≤ 365
      omega
    · -- month 3, leap year: true
      have hdim : d ≤ 31 := hd2
      have hP : r3 = 3 ∧ (c ≠ 24 ∨ b = 3) := hleap.mp hL
      rw [if_pos hP, hL]
      show 0 ≤ 59 + 1 + (d : Int) - 1 ∧ 59 + 1 + (d : Int) - 1 ≤ 365
      omega
    · -- month 4, leap year: true
      have hdim : d ≤ 30 := hd2
      have hP : r3 = 3 ∧ (c ≠ 24 ∨ b = 3) := hleap.mp hL
      rw [if_pos hP, hL]
      show 0 ≤ 90 + 1 + (d : Int) - 1 ∧ 90 + 1 + (d : Int) - 1 ≤ 365
      omega
    · -- month 5, leap year: true
      have hdim : d ≤ 31 := hd2
      have hP : r3 = 3 ∧ (c ≠ 24 ∨ b = 3) := hleap.mp hL
      rw [if_pos hP, hL]
      show 0 ≤ 120 + 1 + (d : Int) - 1 ∧ 120 + 1 + (d : Int) - 1 ≤ 365
      omega
    · -- month 6, leap year: true
      have hdim : d ≤ 30 := hd2
      have hP : r3 = 3 ∧ (c ≠ 24 ∨ b = 3) := hleap.mp hL
      rw [if_pos hP, hL]
      show 0 ≤ 151 + 1 + (d : Int) - 1 ∧ 151 + 1 + (d : Int) - 1 ≤ 365
      omega
    · -- month 7, leap year: true
      have hdim : d ≤ 31 := hd2
      have hP : r3 = 3 ∧ (c ≠ 24 ∨ b = 3) := hleap.mp hL
      rw [if_pos hP, hL]
      show 0 ≤ 181 + 1 + (d : Int) - 1 ∧ 181 + 1 + (d : Int) - 1 ≤ 365
      omega
    · -- month 8, leap year: true
      have hdim : d ≤ 31 := hd2
      have hP : r3 = 3 ∧ (c ≠ 24 ∨ b = 3) := hleap.mp hL
      rw [if_pos hP, hL]
      show 0 ≤ 212 + 1 + (d : Int) - 1 ∧ 212 + 1 + (d : Int) - 1 ≤ 365
      omega
    · -- month 9, leap year: true
      have hdim : d ≤ 30 := hd2
      have hP : r3 = 3 ∧ (c ≠ 24 ∨ b = 3) := hleap.mp hL
      rw [if_pos hP, hL]
      show 0 ≤ 243 + 1 + (d : Int) - 1 ∧ 243 + 1 + (d : Int) - 1 ≤ 365
      omega
    · -- month 10, leap year: true
      have hdim : d ≤ 31 := hd2
      have hP : r3 = 3 ∧ (c ≠ 24 ∨ b = 3) := hleap.mp hL
      rw [if_pos hP, hL]
      show 0 ≤ 273 + 1 + (d : Int) - 1 ∧ 273 + 1 + (d : Int) - 1 ≤ 365
      omega
    · -- month 11, leap year: true
      have hdim : d ≤ 30 := hd2
      have hP : r3 = 3 ∧ (c ≠ 24 ∨ b = 3) := hleap.mp hL
      rw [if_pos hP, hL]
      show 0 ≤ 304 + 1 + (d : Int) - 1 ∧ 304 + 1 + (d : Int) - 1 ≤ 365
      omega
    · -- month 12, leap year: true
      have hdim : d ≤ 31 := hd2
      have hP : r3 = 3 ∧ (c ≠ 24 ∨ b = 3) := hleap.mp hL
      rw [if_pos hP, hL]
      show 0 ≤ 334 + 1 + (d : Int) - 1 ∧ 334 + 1 + (d : Int) - 1 ≤ 365
      omega
    · -- month 1, leap year: false
      have hdim : d ≤ 31 := hd2
      have hnP : ¬ (r3 = 3 ∧ (c ≠ 24 ∨ b = 3)) := fun hp => absurd (hleap.mpr hp) (by simp [hL])
      rw [if_neg hnP, hL]
      show 0 ≤ 0 + 0 + (d : Int) - 1 ∧ 0 + 0 + (d : Int) - 1 ≤ 364
      omega
    · -- month 2, leap year: false
      have hdim : d ≤ 28 := by simp [daysInMonth, hL] at hd2; omega
      have hnP : ¬ (r3 = 3 ∧ (c ≠ 24 ∨ b = 3)) := fun hp => absurd (hleap.mpr hp) (by simp [hL])
      rw [if_neg hnP, hL]
      show 0 ≤ 31 + 0 + (d : Int) - 1 ∧ 31 + 0 + (d : Int) - 1 ≤ 364
      omega
    · -- month 3, leap year: false
      have hdim : d ≤ 31 := hd2
      have hnP : ¬ (r3 = 3 ∧ (c ≠ 24 ∨ b = 3)) := fun hp => absurd (hleap.mpr hp) (by simp [hL])
      rw [if_neg hnP, hL]
      show 0 ≤ 59 + 0 + (d : Int) - 1 ∧ 59 + 0 + (d : Int) - 1 ≤ 364
      omega
    · -- month 4, leap year: false
      have hdim : d ≤ 30 := hd2
      have hnP : ¬ (r3 = 3 ∧ (c ≠ 24 ∨ b = 3)) := fun hp => absurd (hleap.mpr hp) (by simp [hL])
      rw [if_neg hnP, hL]
      show 0 ≤ 90 + 0 + (d : Int) - 1 ∧ 90 + 0 + (d : Int) - 1 ≤ 364
      omega
    · -- month 5, leap year: false
      have hdim : d ≤ 31 := hd2
      have hnP : ¬ (r3 = 3 ∧ (c ≠ 24 ∨ b = 3)) := fun hp => absurd (hleap.mpr hp) (by simp [hL])
      rw [if_neg hnP, hL]
      show 0 ≤ 120 + 0 + (d : Int) - 1 ∧ 120 + 0 + (d : Int) - 1 ≤ 364
      omega
    · -- month 6, leap year: false
      have hdim : d ≤ 30 := hd2
      have hnP : ¬ (r3 = 3 ∧ (c ≠ 24 ∨ b = 3)) := fun hp => absurd (hleap.mpr hp) (by simp [hL])
      rw [if_neg hnP, hL]
      show 0 ≤ 151 + 0 + (d : Int) - 1 ∧ 151 + 0 + (d : Int) - 1 ≤ 364
      omega
    · -- month 7, leap year: false
      have hdim : d ≤ 31 := hd2
      have hnP : ¬ (r3 = 3 ∧ (c ≠ 24 ∨ b = 3)) := fun hp => absurd (hleap.mpr hp) (by simp [hL])
      rw [if_neg hnP, hL]
      show 0 ≤ 181 + 0 + (d : Int) - 1 ∧ 181 + 0 + (d : Int) - 1 ≤ 364
      omega
    · -- month 8, leap year: false
      have hdim : d ≤ 31 := hd2
      have hnP : ¬ (r3 = 3 ∧ (c ≠ 24 ∨ b = 3)) := fun hp => absurd (hleap.mpr hp) (by simp [hL])
      rw [if_neg hnP, hL]
      show 0 ≤ 212 + 0 + (d : Int) - 1 ∧ 212 + 0 + (d : Int) - 1 ≤ 364
      omega
    · -- month 9, leap year: false
      have hdim : d ≤ 30 := hd2
      have hnP : ¬ (r3 = 3 ∧ (c ≠ 24 ∨ b = 3)) := fun hp => absurd (hleap.mpr hp) (by simp [hL])
      rw [if_neg hnP, hL]
      show 0 ≤ 243 + 0 + (d : Int) - 1 ∧ 243 + 0 + (d : Int) - 1 ≤ 364
      omega
    · -- month 10, leap year: false
      have hdim : d ≤ 31 := hd2
      have hnP : ¬ (r3 = 3 ∧ (c ≠ 24 ∨ b = 3)) := fun hp => absurd (hleap.mpr hp) (by simp [hL])
      rw [if_neg hnP, hL]
      show 0 ≤ 273 + 0 + (d : Int) - 1 ∧ 273 + 0 + (d : Int) - 1 ≤ 364
      omega
    · -- month 11, leap year: false
      have hdim : d ≤ 30 := hd2
      have hnP : ¬ (r3 = 3 ∧ (c ≠ 24 ∨ b = 3)) := fun hp => absurd (hleap.mpr hp) (by simp [hL])
      rw [if_neg hnP, hL]
      show 0 ≤ 304 + 0 + (d : Int) - 1 ∧ 304 + 0 + (d : Int) - 1 ≤ 364
      omega
    · -- month 12, leap year: false
      have hdim : d ≤ 31 := hd2
      have hnP : ¬ (r3 = 3 ∧ (c ≠ 24 ∨ b = 3)) := fun hp => absurd (hleap.mpr hp) (by simp [hL])
      rw [if_neg hnP, hL]
      show 0 ≤ 334 + 0 + (d : Int) - 1 ∧ 334 + 0 + (d : Int) - 1 ≤ 364
      omega
  have hdec := yearLayers_decomp a b c r3
    (daysBefore (m - 1) + (if 3 ≤ m ∧ isLeapYear year then 1 else 0) + (d : Int) - 1)
    hb0 hc0 hr30 hyd.1 hyd.2
  rw [hfwd]
  simp only [goAbsDate]
  rw [hdec.1, hdec.2]
  rw [show 400 * a + 100 * b + 4 * c + r3 - 292277022399 = year from by omega]
  rw [goMonthDay_spec year m d hm1 hm2 hd1 hd2]

theorem gDSE_decomp (a b c r3 : Int)
    (hb : 0 ≤ b ∧ b ≤ 3) (hc : 0 ≤ c ∧ c ≤ 24) (hr3 : 0 ≤ r3 ∧ r3 ≤ 3) :
    goDaysSinceEpoch (400 * a + 100 * b + 4 * c + r3 - 292277022399) =
      146097 * a + 36524 * b + 1461 * c + 365 * r3 := by
  simp only [goDaysSinceEpoch]
  rw [show 400 * a + 100 * b + 4 * c + r3 - 292277022399 + 292277022399
      = 400 * a + (100 * b + 4 * c + r3) from by ring,
    ediv_shift _ _ _ (by norm_num), Int.ediv_eq_zero_of_lt (by omega) (by omega)]
  rw [show a + 0 = a from by ring]
  rw [show 400 * a + (100 * b + 4 * c + r3) - 400 * a = 100 * b + (4 * c + r3) from by ring,
    ediv_shift _ _ _ (by norm_num), Int.ediv_eq_zero_of_lt (by omega) (by omega)]
  rw [show b + 0 = b from by ring]
  rw [show 100 * b + (4 * c + r3) - 100 * b = 4 * c + r3 from by ring,
    ediv_shift _ _ _ (by norm_num), Int.ediv_eq_zero_of_lt (by omega) (by omega)]
  rw [show c + 0 = c from by ring]
  ring

theorem isLeapYear_decomp (a b c r3 : Int)
    (hb : 0 ≤ b ∧ b ≤ 3) (hc : 0 ≤ c ∧ c ≤ 24) (hr3 : 0 ≤ r3 ∧ r3 ≤ 3) :
    isLeapYear (400 * a + 100 * b + 4 * c + r3 - 292277022399) = true ↔
      (r3 = 3 ∧ (c ≠ 24 ∨ b = 3)) := by
  simp only [isLeapYear, Bool.and_eq_true, Bool.or_eq_true, decide_eq_true_eq,
    bne_iff_ne, ne_eq]
  omega

theorem gDSE_succ (year : Int) :
    goDaysSinceEpoch (year + 1) =
      goDaysSinceEpoch year + 365 + (if isLeapYear year then 1 else 0) := by
  obtain ⟨a, ha⟩ : ∃ a, (year + 292277022399) / 400 = a := ⟨_, rfl⟩
  obtain ⟨b, hb⟩ : ∃ b, (year + 292277022399 - 400 * a) / 100 = b := ⟨_, rfl⟩
  obtain ⟨c, hc⟩ : ∃ c, (year + 292277022399 - 400 * a - 100 * b) / 4 = c := ⟨_, rfl⟩
  obtain ⟨r3, hr3⟩ : ∃ r3, year + 292277022399 - 400 * a - 100 * b - 4 * c = r3 := ⟨_, rfl⟩
  have hb0 : 0 ≤ b ∧ b ≤ 3 := by omega
  have hc0 : 0 ≤ c ∧ c ≤ 24 := by omega
  have hr30 : 0 ≤ r3 ∧ r3 ≤ 3 := by omega
  have hyf : year = 400 * a + 100 * b + 4 * c + r3 - 292277022399 := by omega
  have hL := isLeapYear_decomp a b c r3 hb0 hc0 hr30
  rw [← hyf] at hL
  have hbase : goDaysSinceEpoch year = 146097 * a + 36524 * b + 1461 * c + 365 * r3 := by
    rw [hyf]; exact gDSE_decomp a b c r3 hb0 hc0 hr30
  rcases (show r3 ≤ 2 ∨ (r3 = 3 ∧ c ≤ 23) ∨ (r3 = 3 ∧ c = 24 ∧ b ≤ 2) ∨
      (r3 = 3 ∧ c = 24 ∧ b = 3) from by omega) with h | h | h | h
  · have hnext : goDaysSinceEpoch (year + 1)
        = 146097 * a + 36524 * b + 1461 * c + 365 * (r3 + 1) := by
      rw [show year + 1 = 400 * a + 100 * b + 4 * c + (r3 + 1) - 292277022399 from by omega]
      exact gDSE_decomp a b c (r3 + 1) hb0 hc0 (by omega)
    rw [hnext, hbase, if_neg (by rw [hL]; omega)]
    ring
  · have hnext : goDaysSinceEpoch (year + 1)
        = 146097 * a + 36524 * b + 1461 * (c + 1) + 365 * 0 := by
      rw [show year + 1 = 400 * a + 100 * b + 4 * (c + 1) + 0 - 292277022399 from by omega]
      exact gDSE_decomp a b (c + 1) 0 hb0 (by omega) (by omega)
    rw [hnext, hbase, if_pos (by rw [hL]; omega)]
    omega
  · have hnext : goDaysSinceEpoch (year + 1)
        = 146097 * a + 36524 * (b + 1) + 1461 * 0 + 365 * 0 := by
      rw [show year + 1 = 400 * a + 100 * (b + 1) + 4 * 0 + 0 - 292277022399 from by omega]
      exact gDSE_decomp a (b + 1) 0 0 (by omega) (by omega) (by omega)
    rw [hnext, hbase, if_neg (by rw [hL]; omega)]
    omega
  · have hnext : goDaysSinceEpoch (year + 1)
        = 146097 * (a + 1) + 36524 * 0 + 1461 * 0 + 365 * 0 := by
      rw [show year + 1 = 400 * (a + 1) + 100 * 0 + 4 * 0 + 0 - 292277022399 from by omega]
      exact gDSE_decomp (a + 1) 0 0 0 (by omega) (by omega) (by omega)
    rw [hnext, hbase, if_pos (by rw [hL]; omega)]
    omega

theorem ydayBounds (year : Int) (m d : Nat) (P : Prop) [Decidable P]
    (hleap : isLeapYear year = true ↔ P)
    (hm1 : 1 ≤ m) (hm2 : m ≤ 12) (hd1 : 1 ≤ d) (hd2 : d ≤ daysInMonth year m) :
    0 ≤ daysBefore (m - 1) + (if 3 ≤ m ∧ isLeapYear year then 1 else 0) + (d : Int) - 1 ∧
      daysBefore (m - 1) + (if 3 ≤ m ∧ isLeapYear year then 1 else 0) + (d : Int) - 1 ≤
        364 + (if P then 1 else 0) := by
  rcases Bool.eq_false_or_eq_true (isLeapYear year) with hL | hL <;> interval_cases m
  · -- month 1, leap year: true
    have hdim : d ≤ 31 := hd2
    have hP : P := hleap.mp hL
    rw [if_pos hP, hL]
    show 0 ≤ 0 + 0 + (d : Int) - 1 ∧ 0 + 0 + (d : Int) - 1 ≤ 365
    omega
  · -- month 2, leap year: true
    have hdim : d ≤ 29 := by simp [daysInMonth, hL] at hd2; omega
    have hP : P := hleap.mp hL
    rw [if_pos hP, hL]
    show 0 ≤ 31 + 0 + (d : Int) - 1 ∧ 31 + 0 + (d : Int) - 1 ≤ 365
    omega
  · -- month 3, leap year: true
    have hdim : d ≤ 31 := hd2
    have hP : P := hleap.mp hL
    rw [if_pos hP, hL]
    show 0 ≤ 59 + 1 + (d : Int) - 1 ∧ 59 + 1 + (d : Int) - 1 ≤ 365
    omega
  · -- month 4, leap year: true
    have hdim : d ≤ 30 := hd2
    have hP : P := hleap.mp hL
    rw [if_pos hP, hL]
    show 0 ≤ 90 + 1 + (d : Int) - 1 ∧ 90 + 1 + (d : Int) - 1 ≤ 365
    omega
  · -- month 5, leap year: true
    have hdim : d ≤ 31 := hd2
    have hP : P := hleap.mp hL
    rw [if_pos hP, hL]
    show 0 ≤ 120 + 1 + (d : Int) - 1 ∧ 120 + 1 + (d : Int) - 1 ≤ 365
    omega
  · -- month 6, leap year: true
    have hdim : d ≤ 30 := hd2
    have hP : P := hleap.mp hL
    rw [if_pos hP, hL]
    show 0 ≤ 151 + 1 + (d : Int) - 1 ∧ 151 + 1 + (d : Int) - 1 ≤ 365
    omega
  · -- month 7, leap year: true
    have hdim : d ≤ 31 := hd2
    have hP : P := hleap.mp hL
    rw [if_pos hP, hL]
    show 0 ≤ 181 + 1 + (d : Int) - 1 ∧ 181 + 1 + (d : Int) - 1 ≤ 365
    omega
  · -- month 8, leap year: true
    have hdim : d ≤ 31 := hd2
    have hP : P := hleap.mp hL
    rw [if_pos hP, hL]
    show 0 ≤ 212 + 1 + (d : Int) - 1 ∧ 212 + 1 + (d : Int) - 1 ≤ 365
    omega
  · -- month 9, leap year: true
    have hdim : d ≤ 30 := hd2
    have hP : P := hleap.mp hL
    rw [if_pos hP, hL]
    show 0 ≤ 243 + 1 + (d : Int) - 1 ∧ 243 + 1 + (d : Int) - 1 ≤ 365
    omega
  · -- month 10, leap year: true
    have hdim : d ≤ 31 := hd2
    have hP : P := hleap.mp hL
    rw [if_pos hP, hL]
    show 0 ≤ 273 + 1 + (d : Int) - 1 ∧ 273 + 1 + (d : Int) - 1 ≤ 365
    omega
  · -- month 11, leap year: true
    have hdim : d ≤ 30 := hd2
    have hP : P := hleap.mp hL
    rw [if_pos hP, hL]
    show 0 ≤ 304 + 1 + (d : Int) - 1 ∧ 304 + 1 + (d : Int) - 1 ≤ 365
    omega
  · -- month 12, leap year: true
    have hdim : d ≤ 31 := hd2
    have hP : P := hleap.mp hL
    rw [if_pos hP, hL]
    show 0 ≤ 334 + 1 + (d : Int) - 1 ∧ 334 + 1 + (d : Int) - 1 ≤ 365
    omega
  · -- month 1, leap year: false
    have hdim : d ≤ 31 := hd2
    have hnP : ¬ P := fun hp => absurd (hleap.mpr hp) (by simp [hL])
    rw [if_neg hnP, hL]
    show 0 ≤ 0 + 0 + (d : Int) - 1 ∧ 0 + 0 + (d : Int) - 1 ≤ 364
    omega
  · -- month 2, leap year: false
    have hdim : d ≤ 28 := by simp [daysInMonth, hL] at hd2; omega
    have hnP : ¬ P := fun hp => absurd (hleap.mpr hp) (by simp [hL])
    rw [if_neg hnP, hL]
    show 0 ≤ 31 + 0 + (d : Int) - 1 ∧ 31 + 0 + (d : Int) - 1 ≤ 364
    omega
  · -- month 3, leap year: false
    have hdim : d ≤ 31 := hd2
    have hnP : ¬ P := fun hp => absurd (hleap.mpr hp) (by simp [hL])
    rw [if_neg hnP, hL]
    show 0 ≤ 59 + 0 + (d : Int) - 1 ∧ 59 + 0 + (d : Int) - 1 ≤ 364
    omega
  · -- month 4, leap year: false
    have hdim : d ≤ 30 := hd2
    have hnP : ¬ P := fun hp => absurd (hleap.mpr hp) (by simp [hL])
    rw [if_neg hnP, hL]
    show 0 ≤ 90 + 0 + (d : Int) - 1 ∧ 90 + 0 + (d : Int) - 1 ≤ 364
    omega
  · -- month 5, leap year: false
    have hdim : d ≤ 31 := hd2
    have hnP : ¬ P := fun hp => absurd (hleap.mpr hp) (by simp [hL])
    rw [if_neg hnP, hL]
    show 0 ≤ 120 + 0 + (d : Int) - 1 ∧ 120 + 0 + (d : Int) - 1 ≤ 364
    omega
  · -- month 6, leap year: false
    have hdim : d ≤ 30 := hd2
    have hnP : ¬ P := fun hp => absurd (hleap.mpr hp) (by simp [hL])
    rw [if_neg hnP, hL]
    show 0 ≤ 151 + 0 + (d : Int) - 1 ∧ 151 + 0 + (d : Int) - 1 ≤ 364
    omega
  · -- month 7, leap year: false
    have hdim : d ≤ 31 := hd2
    have hnP : ¬ P := fun hp => absurd (hleap.mpr hp) (by simp [hL])
    rw [if_neg hnP, hL]
    show 0 ≤ 181 + 0 + (d : Int) - 1 ∧ 181 + 0 + (d : Int) - 1 ≤ 364
    omega
  · -- month 8, leap year: false
    have hdim : d ≤ 31 := hd2
    have hnP : ¬ P := fun hp => absurd (hleap.mpr hp) (by simp [hL])
    rw [if_neg hnP, hL]
    show 0 ≤ 212 + 0 + (d : Int) - 1 ∧ 212 + 0 + (d : Int) - 1 ≤ 364
    omega
  · -- month 9, leap year: false
    have hdim : d ≤ 30 := hd2
    have hnP : ¬ P := fun hp => absurd (hleap.mpr hp) (by simp [hL])
    rw [if_neg hnP, hL]
    show 0 ≤ 243 + 0 + (d : Int) - 1 ∧ 243 + 0 + (d : Int) - 1 ≤ 364
    omega
  · -- month 10, leap year: false
    have hdim : d ≤ 31 := hd2
    have hnP : ¬ P := fun hp => absurd (hleap.mpr hp) (by simp [hL])
    rw [if_neg hnP, hL]
    show 0 ≤ 273 + 0 + (d : Int) - 1 ∧ 273 + 0 + (d : Int) - 1 ≤ 364
    omega
  · -- month 11, leap year: false
    have hdim : d ≤ 30 := hd2
    have hnP : ¬ P := fun hp => absurd (hleap.mpr hp) (by simp [hL])
    rw [if_neg hnP, hL]
    show 0 ≤ 304 + 0 + (d : Int) - 1 ∧ 304 + 0 + (d : Int) - 1 ≤ 364
    omega
  · -- month 12, leap year: false
    have hdim : d ≤ 31 := hd2
    have hnP : ¬ P := fun hp => absurd (hleap.mpr hp) (by simp [hL])
    rw [if_neg hnP, hL]
    show 0 ≤ 334 + 0 + (d : Int) - 1 ∧ 334 + 0 + (d : Int) - 1 ≤ 364
    omega
theorem nextDay_spec (year : Int) (m d : Nat)
    (hm1 : 1 ≤ m) (hm2 : m ≤ 12) (hd1 : 1 ≤ d) (hd2 : d ≤ daysInMonth year m) :
    goDateToAbs (nextDay year m d).1 (nextDay year m d).2.1 (nextDay year m d).2.2
        = goDateToAbs year m d + 1 ∧
      1 ≤ (nextDay year m d).2.1 ∧ (nextDay year m d).2.1 ≤ 12 ∧
      1 ≤ (nextDay year m d).2.2 ∧
      (nextDay year m d).2.2 ≤ daysInMonth (nextDay year m d).1 (nextDay year m d).2.1 ∧
      ((nextDay year m d).1 = year ∨ ((nextDay year m d).1 = year + 1 ∧ m = 12)) := by
  simp only [nextDay]
  split_ifs with h1 h2
  · -- within the same month
    refine ⟨?_, hm1, hm2, by show (1 : Nat) ≤ d + 1; omega,
      by show d + 1 ≤ daysInMonth year m; exact h1, Or.inl rfl⟩
    simp only [goDateToAbs]
    push_cast
    ring
  · -- first day of the next month
    rcases Bool.eq_false_or_eq_true (isLeapYear year) with hL | hL <;> interval_cases m
    · -- month 1, leap year: true
      have hdim : d ≤ 31 := hd2
      have h1n : ¬ (d < 31) := h1
      refine ⟨?_, by norm_num, by norm_num, by norm_num, ?_, Or.inl rfl⟩
      · simp only [goDateToAbs]
        rw [hL]
        show goDaysSinceEpoch year + daysBefore (1 + 1 - 1) + 0 + ((1 : Nat) : Int) - 1
          = goDaysSinceEpoch year + daysBefore (1 - 1) + 0 + (d : Int) - 1 + 1
        rw [show daysBefore (1 + 1 - 1) = 31 from rfl,
          show daysBefore (1 - 1) = 0 from rfl]
        omega
      · simp [daysInMonth, hL]
    · -- month 2, leap year: true
      have hdim : d ≤ 29 := by simp [daysInMonth, hL] at hd2; omega
      have h1n : ¬ (d < 29) := by simpa [daysInMonth, hL] using h1
      refine ⟨?_, by norm_num, by norm_num, by norm_num, ?_, Or.inl rfl⟩
      · simp only [goDateToAbs]
        rw [hL]
        show goDaysSinceEpoch year + daysBefore (2 + 1 - 1) + 1 + ((1 : Nat) : Int) - 1
          = goDaysSinceEpoch year + daysBefore (2 - 1) + 0 + (d : Int) - 1 + 1
        rw [show daysBefore (2 + 1 - 1) = 59 from rfl,
          show daysBefore (2 - 1) = 31 from rfl]
        omega
      · show (1 : Nat) ≤ 31
        norm_num
    · -- month 3, leap year: true
      have hdim : d ≤ 31 := hd2
      have h1n : ¬ (d < 31) := h1
      refine ⟨?_, by norm_num, by norm_num, by norm_num, ?_, Or.inl rfl⟩
      · simp only [goDateToAbs]
        rw [hL]
        show goDaysSinceEpoch year + daysBefore (3 + 1 - 1) + 1 + ((1 : Nat) : Int) - 1
          = goDaysSinceEpoch year + daysBefore (3 - 1) + 1 + (d : Int) - 1 + 1
        rw [show daysBefore (3 + 1 - 1) = 90 from rfl,
          show daysBefore (3 - 1) = 59 from rfl]
        omega
      · show (1 : Nat) ≤ 30
        norm_num
    · -- month 4, leap year: true
      have hdim : d ≤ 30 := hd2
      have h1n : ¬ (d < 30) := h1
      refine ⟨?_, by norm_num, by norm_num, by norm_num, ?_, Or.inl rfl⟩
      · simp only [goDateToAbs]
        rw [hL]
        show goDaysSinceEpoch year + daysBefore (4 + 1 - 1) + 1 + ((1 : Nat) : Int) - 1
          = goDaysSinceEpoch year + daysBefore (4 - 1) + 1 + (d : Int) - 1 + 1
        rw [show daysBefore (4 + 1 - 1) = 120 from rfl,
          show daysBefore (4 - 1) = 90 from rfl]
        omega
      · show (1 : Nat) ≤ 31
        norm_num
    · -- month 5, leap year: true
      have hdim : d ≤ 31 := hd2
      have h1n : ¬ (d < 31) := h1
      refine ⟨?_, by norm_num, by norm_num, by norm_num, ?_, Or.inl rfl⟩
      · simp only [goDateToAbs]
        rw [hL]
        show goDaysSinceEpoch year + daysBefore (5 + 1 - 1) + 1 + ((1 : Nat) : Int) - 1
          = goDaysSinceEpoch year + daysBefore (5 - 1) + 1 + (d : Int) - 1 + 1
        rw [show daysBefore (5 + 1 - 1) = 151 from rfl,
          show daysBefore (5 - 1) = 120 from rfl]
        omega
      · show (1 : Nat) ≤ 30
        norm_num
    · -- month 6, leap year: true
      have hdim : d ≤ 30 := hd2
      have h1n : ¬ (d < 30) := h1
      refine ⟨?_, by norm_num, by norm_num, by norm_num, ?_, Or.inl rfl⟩
      · simp only [goDateToAbs]
        rw [hL]
        show goDaysSinceEpoch year + daysBefore (6 + 1 - 1) + 1 + ((1 : Nat) : Int) - 1
          = goDaysSinceEpoch year + daysBefore (6 - 1) + 1 + (d : Int) - 1 + 1
        rw [show daysBefore (6 + 1 - 1) = 181 from rfl,
          show daysBefore (6 - 1) = 151 from rfl]
        omega
      · show (1 : Nat) ≤ 31
        norm_num
    · -- month 7, leap year: true
      have hdim : d ≤ 31 := hd2
      have h1n : ¬ (d < 31) := h1
      refine ⟨?_, by norm_num, by norm_num, by norm_num, ?_, Or.inl rfl⟩
      · simp only [goDateToAbs]
        rw [hL]
        show goDaysSinceEpoch year + daysBefore (7 + 1 - 1) + 1 + ((1 : Nat) : Int) - 1
          = goDaysSinceEpoch year + daysBefore (7 - 1) + 1 + (d : Int) - 1 + 1
        rw [show daysBefore (7 + 1 - 1) = 212 from rfl,
          show daysBefore (7 - 1) = 181 from rfl]
        omega
      · show (1 : Nat) ≤ 31
        norm_num
    · -- month 8, leap year: true
      have hdim : d ≤ 31 := hd2
      have h1n : ¬ (d < 31) := h1
      refine ⟨?_, by norm_num, by norm_num, by norm_num, ?_, Or.inl rfl⟩
      · simp only [goDateToAbs]
        rw [hL]
        show goDaysSinceEpoch year + daysBefore (8 + 1 - 1) + 1 + ((1 : Nat) : Int) - 1
          = goDaysSinceEpoch year + daysBefore (8 - 1) + 1 + (d : Int) - 1 + 1
        rw [show daysBefore (8 + 1 - 1) = 243 from rfl,
          show daysBefore (8 - 1) = 212 from rfl]
        omega
      · show (1 : Nat) ≤ 30
        norm_num
    · -- month 9, leap year: true
      have hdim : d ≤ 30 := hd2
      have h1n : ¬ (d < 30) := h1
      refine ⟨?_, by norm_num, by norm_num, by norm_num, ?_, Or.inl rfl⟩
      · simp only [goDateToAbs]
        rw [hL]
        show goDaysSinceEpoch year + daysBefore (9 + 1 - 1) + 1 + ((1 : Nat) : Int) - 1
          = goDaysSinceEpoch year + daysBefore (9 - 1) + 1 + (d : Int) - 1 + 1
        rw [show daysBefore (9 + 1 - 1) = 273 from rfl,
          show daysBefore (9 - 1) = 243 from rfl]
        omega
      · show (1 : Nat) ≤ 31
        norm_num
    · -- month 10, leap year: true
      have hdim : d ≤ 31 := hd2
      have h1n : ¬ (d < 31) := h1
      refine ⟨?_, by norm_num, by norm_num, by norm_num, ?_, Or.inl rfl⟩
      · simp only [goDateToAbs]
        rw [hL]
        show goDaysSinceEpoch year + daysBefore (10 + 1 - 1) + 1 + ((1 : Nat) : Int) - 1
          = goDaysSinceEpoch year + daysBefore (10 - 1) + 1 + (d : Int) - 1 + 1
        rw [show daysBefore (10 + 1 - 1) = 304 from rfl,
          show daysBefore (10 - 1) = 273 from rfl]
        omega
      · show (1 : Nat) ≤ 30
        norm_num
    · -- month 11, leap year: true
      have hdim : d ≤ 30 := hd2
      have h1n : ¬ (d < 30) := h1
      refine ⟨?_, by norm_num, by norm_num, by norm_num, ?_, Or.inl rfl⟩
      · simp only [goDateToAbs]
        rw [hL]
        show goDaysSinceEpoch year + daysBefore (11 + 1 - 1) + 1 + ((1 : Nat) : Int) - 1
          = goDaysSinceEpoch year + daysBefore (11 - 1) + 1 + (d : Int) - 1 + 1
        rw [show daysBefore (11 + 1 - 1) = 334 from rfl,
          show daysBefore (11 - 1) = 304 from rfl]
        omega
      · show (1 : Nat) ≤ 31
        norm_num
    · -- month 1, leap year: false
      have hdim : d ≤ 31 := hd2
      have h1n : ¬ (d < 31) := h1
      refine ⟨?_, by norm_num, by norm_num, by norm_num, ?_, Or.inl rfl⟩
      · simp only [goDateToAbs]
        rw [hL]
        show goDaysSinceEpoch year + daysBefore (1 + 1 - 1) + 0 + ((1 : Nat) : Int) - 1
          = goDaysSinceEpoch year + daysBefore (1 - 1) + 0 + (d : Int) - 1 + 1
        rw [show daysBefore (1 + 1 - 1) = 31 from rfl,
          show daysBefore (1 - 1) = 0 from rfl]
        omega
      · simp [daysInMonth, hL]
    · -- month 2, leap year: false
      have hdim : d ≤ 28 := by simp [daysInMonth, hL] at hd2; omega
      have h1n : ¬ (d < 28) := by simpa [daysInMonth, hL] using h1
      refine ⟨?_, by norm_num, by norm_num, by norm_num, ?_, Or.inl rfl⟩
      · simp only [goDateToAbs]
        rw [hL]
        show goDaysSinceEpoch year + daysBefore (2 + 1 - 1) + 0 + ((1 : Nat) : Int) - 1
          = goDaysSinceEpoch year + daysBefore (2 - 1) + 0 + (d : Int) - 1 + 1
        rw [show daysBefore (2 + 1 - 1) = 59 from rfl,
          show daysBefore (2 - 1) = 31 from rfl]
        omega
      · show (1 : Nat) ≤ 31
        norm_num
    · -- month 3, leap year: false
      have hdim : d ≤ 31 := hd2
      have h1n : ¬ (d < 31) := h1
      refine ⟨?_, by norm_num, by norm_num, by norm_num, ?_, Or.inl rfl⟩
      · simp only [goDateToAbs]
        rw [hL]
        show goDaysSinceEpoch year + daysBefore (3 + 1 - 1) + 0 + ((1 : Nat) : Int) - 1
          = goDaysSinceEpoch year + daysBefore (3 - 1) + 0 + (d : Int) - 1 + 1
        rw [show daysBefore (3 + 1 - 1) = 90 from rfl,
          show daysBefore (3 - 1) = 59 from rfl]
        omega
      · show (1 : Nat) ≤ 30
        norm_num
    · -- month 4, leap year: false
      have hdim : d ≤ 30 := hd2
      have h1n : ¬ (d < 30) := h1
      refine ⟨?_, by norm_num, by norm_num, by norm_num, ?_, Or.inl rfl⟩
      · simp only [goDateToAbs]
        rw [hL]
        show goDaysSinceEpoch year + daysBefore (4 + 1 - 1) + 0 + ((1 : Nat) : Int) - 1
          = goDaysSinceEpoch year + daysBefore (4 - 1) + 0 + (d : Int) - 1 + 1
        rw [show daysBefore (4 + 1 - 1) = 120 from rfl,
          show daysBefore (4 - 1) = 90 from rfl]
        omega
      · show (1 : Nat) ≤ 31
        norm_num
    · -- month 5, leap year: false
      have hdim : d ≤ 31 := hd2
      have h1n : ¬ (d < 31) := h1
      refine ⟨?_, by norm_num, by norm_num, by norm_num, ?_, Or.inl rfl⟩
      · simp only [goDateToAbs]
        rw [hL]
        show goDaysSinceEpoch year + daysBefore (5 + 1 - 1) + 0 + ((1 : Nat) : Int) - 1
          = goDaysSinceEpoch year + daysBefore (5 - 1) + 0 + (d : Int) - 1 + 1
        rw [show daysBefore (5 + 1 - 1) = 151 from rfl,
          show daysBefore (5 - 1) = 120 from rfl]
        omega
      · show (1 : Nat) ≤ 30
        norm_num
    · -- month 6, leap year: false
      have hdim : d ≤ 30 := hd2
      have h1n : ¬ (d < 30) := h1
      refine ⟨?_, by norm_num, by norm_num, by norm_num, ?_, Or.inl rfl⟩
      · simp only [goDateToAbs]
        rw [hL]
        show goDaysSinceEpoch year + daysBefore (6 + 1 - 1) + 0 + ((1 : Nat) : Int) - 1
          = goDaysSinceEpoch year + daysBefore (6 - 1) + 0 + (d : Int) - 1 + 1
        rw [show daysBefore (6 + 1 - 1) = 181 from rfl,
          show daysBefore (6 - 1) = 151 from rfl]
        omega
      · show (1 : Nat) ≤ 31
        norm_num
    · -- month 7, leap year: false
      have hdim : d ≤ 31 := hd2
      have h1n : ¬ (d < 31) := h1
      refine ⟨?_, by norm_num, by norm_num, by norm_num, ?_, Or.inl rfl⟩
      · simp only [goDateToAbs]
        rw [hL]
        show goDaysSinceEpoch year + daysBefore (7 + 1 - 1) + 0 + ((1 : Nat) : Int) - 1
          = goDaysSinceEpoch year + daysBefore (7 - 1) + 0 + (d : Int) - 1 + 1
        rw [show daysBefore (7 + 1 - 1) = 212 from rfl,
          show daysBefore (7 - 1) = 181 from rfl]
        omega
      · show (1 : Nat) ≤ 31
        norm_num
    · -- month 8, leap year: false
      have hdim : d ≤ 31 := hd2
      have h1n : ¬ (d < 31) := h1
      refine ⟨?_, by norm_num, by norm_num, by norm_num, ?_, Or.inl rfl⟩
      · simp only [goDateToAbs]
        rw [hL]
        show goDaysSinceEpoch year + daysBefore (8 + 1 - 1) + 0 + ((1 : Nat) : Int) - 1
          = goDaysSinceEpoch year + daysBefore (8 - 1) + 0 + (d : Int) - 1 + 1
        rw [show daysBefore (8 + 1 - 1) = 243 from rfl,
          show daysBefore (8 - 1) = 212 from rfl]
        omega
      · show (1 : Nat) ≤ 30
        norm_num
    · -- month 9, leap year: false
      have hdim : d ≤ 30 := hd2
      have h1n : ¬ (d < 30) := h1
      refine ⟨?_, by norm_num, by norm_num, by norm_num, ?_, Or.inl rfl⟩
      · simp only [goDateToAbs]
        rw [hL]
        show goDaysSinceEpoch year + daysBefore (9 + 1 - 1) + 0 + ((1 : Nat) : Int) - 1
          = goDaysSinceEpoch year + daysBefore (9 - 1) + 0 + (d : Int) - 1 + 1
        rw [show daysBefore (9 + 1 - 1) = 273 from rfl,
          show daysBefore (9 - 1) = 243 from rfl]
        omega
      · show (1 : Nat) ≤ 31
        norm_num
    · -- month 10, leap year: false
      have hdim : d ≤ 31 := hd2
      have h1n : ¬ (d < 31) := h1
      refine ⟨?_, by norm_num, by norm_num, by norm_num, ?_, Or.inl rfl⟩
      · simp only [goDateToAbs]
        rw [hL]
        show goDaysSinceEpoch year + daysBefore (10 + 1 - 1) + 0 + ((1 : Nat) : Int) - 1
          = goDaysSinceEpoch year + daysBefore (10 - 1) + 0 + (d : Int) - 1 + 1
        rw [show daysBefore (10 + 1 - 1) = 304 from rfl,
          show daysBefore (10 - 1) = 273 from rfl]
        omega
      · show (1 : Nat) ≤ 30
        norm_num
    · -- month 11, leap year: false
      have hdim : d ≤ 30 := hd2
      have h1n : ¬ (d < 30) := h1
      refine ⟨?_, by norm_num, by norm_num, by norm_num, ?_, Or.inl rfl⟩
      · simp only [goDateToAbs]
        rw [hL]
        show goDaysSinceEpoch year + daysBefore (11 + 1 - 1) + 0 + ((1 : Nat) : Int) - 1
          = goDaysSinceEpoch year + daysBefore (11 - 1) + 0 + (d : Int) - 1 + 1
        rw [show daysBefore (11 + 1 - 1) = 334 from rfl,
          show daysBefore (11 - 1) = 304 from rfl]
        omega
      · show (1 : Nat) ≤ 31
        norm_num
  · -- first day of the next year
    have hm12 : m = 12 := by omega
    subst hm12
    have hdim : d ≤ 31 := hd2
    have h1n : ¬ (d < 31) := h1
    refine ⟨?_, by norm_num, by norm_num, by norm_num, ?_, Or.inr ⟨rfl, rfl⟩⟩
    · simp only [goDateToAbs]
      rw [gDSE_succ year,
        show daysBefore (1 - 1) = 0 from rfl,
        show daysBefore (12 - 1) = 334 from rfl,
        if_neg (show ¬ ((3 : Nat) ≤ 1 ∧ isLeapYear (year + 1) = true) from fun h => by omega)]
      rcases Bool.eq_false_or_eq_true (isLeapYear year) with hL | hL <;> rw [hL] <;>
        split_ifs <;> first | omega | simp_all
    · show (1 : Nat) ≤ 31
      norm_num

theorem goDateToAbs_le_max (year : Int) (m d : Nat) (hy1 : year ≤ 9999)
    (hm1 : 1 ≤ m) (hm2 : m ≤ 12) (hd1 : 1 ≤ d) (hd2 : d ≤ daysInMonth year m) :
    goDateToAbs year m d ≤ goDateToAbs 9999 12 31 := by
  obtain ⟨a, ha⟩ : ∃ a, (year + 292277022399) / 400 = a := ⟨_, rfl⟩
  obtain ⟨b, hb⟩ : ∃ b, (year + 292277022399 - 400 * a) / 100 = b := ⟨_, rfl⟩
  obtain ⟨c, hc⟩ : ∃ c, (year + 292277022399 - 400 * a - 100 * b) / 4 = c := ⟨_, rfl⟩
  obtain ⟨r3, hr3⟩ : ∃ r3, year + 292277022399 - 400 * a - 100 * b - 4 * c = r3 := ⟨_, rfl⟩
  have hb0 : 0 ≤ b ∧ b ≤ 3 := by omega
  have hc0 : 0 ≤ c ∧ c ≤ 24 := by omega
  have hr30 : 0 ≤ r3 ∧ r3 ≤ 3 := by omega
  have hyf : year = 400 * a + 100 * b + 4 * c + r3 - 292277022399 := by omega
  have hleap := isLeapYear_decomp a b c r3 hb0 hc0 hr30
  rw [← hyf] at hleap
  have hydb := ydayBounds year m d (r3 = 3 ∧ (c ≠ 24 ∨ b = 3)) hleap hm1 hm2 hd1 hd2
  have hbase : goDateToAbs year m d = 146097 * a + 36524 * b + 1461 * c + 365 * r3 +
      (daysBefore (m - 1) + (if 3 ≤ m ∧ isLeapYear year then 1 else 0) + (d : Int) - 1) := by
    simp only [goDateToAbs]
    rw [show goDaysSinceEpoch year = 146097 * a + 36524 * b + 1461 * c + 365 * r3 from by
      rw [hyf]; exact gDSE_decomp a b c r3 hb0 hc0 hr30]
    ring
  have hmax : goDateToAbs 9999 12 31 = 146097 * 730692580 + 145730 := by decide
  have haa : a ≤ 730692580 := by
    rw [← ha]
    calc (year + 292277022399) / 400 ≤ 292277032398 / 400 :=
          Int.ediv_le_ediv (by norm_num) (by omega)
      _ = 730692580 := by decide
  rw [hbase, hmax]
  by_cases hP : (r3 = 3 ∧ (c ≠ 24 ∨ b = 3))
  · rw [if_pos hP] at hydb
    rcases hP.2 with h | h <;> omega
  · rw [if_neg hP] at hydb
    omega
theorem digitChar_toNat (t : Nat) (ht : t ≤ 9) : (Char.ofNat (48 + t)).toNat = 48 + t := by
  interval_cases t <;> decide

theorem digitChar_isDigit (t : Nat) (ht : t ≤ 9) : (Char.ofNat (48 + t)).isDigit = true := by
  interval_cases t <;> decide

theorem parseDate_mk (y4 mo da : Nat) (hy : y4 ≤ 9999)
    (hmo1 : 1 ≤ mo) (hmo2 : mo ≤ 12) (hda1 : 1 ≤ da) (hda31 : da ≤ 31)
    (hda : da ≤ daysInMonth (y4 : Int) mo) :
    parseDate (pad4 y4 ++ "-" ++ pad2 mo ++ "-" ++ pad2 da)
      = some (goDateToAbs (y4 : Int) mo da) := by
  have hdata : (pad4 y4 ++ "-" ++ pad2 mo ++ "-" ++ pad2 da).data
      = [Char.ofNat (48 + y4 / 1000 % 10), Char.ofNat (48 + y4 / 100 % 10),
         Char.ofNat (48 + y4 / 10 % 10), Char.ofNat (48 + y4 % 10), '-',
         Char.ofNat (48 + mo / 10 % 10), Char.ofNat (48 + mo % 10), '-',
         Char.ofNat (48 + da / 10 % 10), Char.ofNat (48 + da % 10)] := by
    simp [pad4, pad2, String.data_append]
  simp only [parseDate, hdata]
  rw [if_pos]
  · have hyv : digitsVal [Char.ofNat (48 + y4 / 1000 % 10), Char.ofNat (48 + y4 / 100 % 10),
        Char.ofNat (48 + y4 / 10 % 10), Char.ofNat (48 + y4 % 10)] = y4 := by
      simp only [digitsVal, List.foldl]
      rw [digitChar_toNat _ (by omega), digitChar_toNat _ (by omega),
        digitChar_toNat _ (by omega), digitChar_toNat _ (by omega)]
      show (((0 * 10 + (48 + y4 / 1000 % 10 - 48)) * 10 + (48 + y4 / 100 % 10 - 48)) * 10
          + (48 + y4 / 10 % 10 - 48)) * 10 + (48 + y4 % 10 - 48) = y4
      omega
    have hmov : digitsVal [Char.ofNat (48 + mo / 10 % 10), Char.ofNat (48 + mo % 10)] = mo := by
      simp only [digitsVal, List.foldl]
      rw [digitChar_toNat _ (by omega), digitChar_toNat _ (by omega)]
      show (0 * 10 + (48 + mo / 10 % 10 - 48)) * 10 + (48 + mo % 10 - 48) = mo
      omega
    have hdav : digitsVal [Char.ofNat (48 + da / 10 % 10), Char.ofNat (48 + da % 10)] = da := by
      simp only [digitsVal, List.foldl]
      rw [digitChar_toNat _ (by omega), digitChar_toNat _ (by omega)]
      show (0 * 10 + (48 + da / 10 % 10 - 48)) * 10 + (48 + da % 10 - 48) = da
      omega
    rw [hyv, hmov, hdav, if_pos ⟨hmo1, hmo2, hda1, hda⟩]
  · refine ⟨trivial, trivial, ?_⟩
    simp only [List.all_cons, List.all_nil, Bool.and_eq_true]
    refine ⟨?_, ?_, ?_, ?_, ?_, ?_, ?_, ?_, trivial⟩ <;> exact digitChar_isDigit _ (by omega)

theorem daysInMonth_le_31 (y : Int) (m : Nat) : daysInMonth y m ≤ 31 := by
  simp only [daysInMonth]
  split_ifs <;> omega

theorem isDigit_toNat (c : Char) (h : c.isDigit = true) : 48 ≤ c.toNat ∧ c.toNat ≤ 57 := by
  simp only [Char.isDigit, decide_eq_true_eq, Bool.and_eq_true] at h
  obtain ⟨h1, h2⟩ := h
  exact ⟨h1, h2⟩

theorem parseDate_some (s : String) (l : Int) (h : parseDate s = some l) :
    ∃ y m d : Nat, y ≤ 9999 ∧ 1 ≤ m ∧ m ≤ 12 ∧ 1 ≤ d ∧
      d ≤ daysInMonth (y : Int) m ∧ d ≤ 31 ∧ l = goDateToAbs (y : Int) m d := by
  unfold parseDate at h
  split at h
  case h_2 => exact absurd h (by simp)
  case h_1 =>
    rename_i y1 y2 y3 y4 h1 c1 c2 h2 e1 e2 heq
    split_ifs at h with hc
    rw [show (let y : Int := digitsVal [y1, y2, y3, y4];
        let mo := digitsVal [c1, c2];
        let da := digitsVal [e1, e2];
        if 1 ≤ mo ∧ mo ≤ 12 ∧ 1 ≤ da ∧ da ≤ daysInMonth y mo then
          some (goDateToAbs y mo da)
        else none) =
        (if 1 ≤ digitsVal [c1, c2] ∧ digitsVal [c1, c2] ≤ 12 ∧ 1 ≤ digitsVal [e1, e2] ∧
            digitsVal [e1, e2] ≤ daysInMonth (digitsVal [y1, y2, y3, y4] : Int)
              (digitsVal [c1, c2]) then
          some (goDateToAbs (digitsVal [y1, y2, y3, y4] : Int) (digitsVal [c1, c2])
            (digitsVal [e1, e2]))
        else none) from rfl] at h
    split_ifs at h with hr
    · simp only [Option.some.injEq] at h
      obtain ⟨hd1, hd2, hdall⟩ := hc
      simp only [List.all_cons, List.all_nil, Bool.and_eq_true] at hdall
      obtain ⟨g1, g2, g3, g4, g5, g6, g7, g8, -⟩ := hdall
      obtain ⟨b1, b1u⟩ := isDigit_toNat _ g1
      obtain ⟨b2, b2u⟩ := isDigit_toNat _ g2
      obtain ⟨b3, b3u⟩ := isDigit_toNat _ g3
      obtain ⟨b4, b4u⟩ := isDigit_toNat _ g4
      refine ⟨digitsVal [y1, y2, y3, y4], digitsVal [c1, c2], digitsVal [e1, e2],
        ?_, hr.1, hr.2.1, hr.2.2.1, hr.2.2.2, le_trans hr.2.2.2 (daysInMonth_le_31 _ _), h.symm⟩
      have h0 : ('0' : Char).toNat = 48 := rfl
      simp only [digitsVal, List.foldl, h0]
      omega


theorem formatDate_goDateToAbs (y4 m d : Nat) (hy : y4 ≤ 9999)
    (hm1 : 1 ≤ m) (hm2 : m ≤ 12) (hd1 : 1 ≤ d) (hd : d ≤ daysInMonth (y4 : Int) m) :
    formatDate (goDateToAbs (y4 : Int) m d) = pad4 y4 ++ "-" ++ pad2 m ++ "-" ++ pad2 d ∧
      parseDate (formatDate (goDateToAbs (y4 : Int) m d))
        = some (goDateToAbs (y4 : Int) m d) := by
  have hrt := goAbsDate_goDateToAbs (y4 : Int) m d (by positivity)
    (by exact_mod_cast Nat.le_succ_of_le hy) hm1 hm2 hd1 hd
  have h1 : formatDate (goDateToAbs (y4 : Int) m d)
      = pad4 y4 ++ "-" ++ pad2 m ++ "-" ++ pad2 d := by
    simp only [formatDate, hrt, Int.toNat_natCast]
  refine ⟨h1, ?_⟩
  rw [h1]
  exact parseDate_mk y4 m d hy hm1 hm2 hd1 (le_trans hd (daysInMonth_le_31 _ _)) hd

theorem nextDay_year_le (l t K : Int) (y m d : Nat) (hy9 : y ≤ 9999)
    (hlv : l = goDateToAbs (y : Int) m d) (htmax : t ≤ goDateToAbs 9999 12 31)
    (hK : t - l = K) (hK1 : 1 < K) (hdm : d ≤ daysInMonth (y : Int) m)
    (hr : (nextDay (y : Int) m d).1 = (y : Int) + 1) (hm12 : m = 12) : y ≤ 9998 := by
  by_contra hgt
  have hy' : y = 9999 := by omega
  have hd31x : d = 31 := by
    have h12 : daysInMonth (y : Int) m = 31 := by rw [hm12]; rfl
    have hnd : ¬ d < daysInMonth (y : Int) m := by
      intro hlt
      simp only [nextDay, if_pos hlt] at hr
      omega
    omega
  have hlmax : l = goDateToAbs 9999 12 31 := by
    rw [hlv, hy', hm12, hd31x]; norm_cast
  omega

theorem parseDate_formatDate_next (lastRun today : String) (l t K : Int)
    (hl : parseDate lastRun = some l) (ht : parseDate today = some t)
    (hK : t - l = K) (hK1 : 1 < K) (hK5 : K ≤ 5) :
    parseDate (formatDate (l + 1)) = some (l + 1) := by
  obtain ⟨y, m, d, hy9, hm1, hm2, hd1, hdm, hd31, hlv⟩ := parseDate_some lastRun l hl
  obtain ⟨y', m', d', hy9', hm1', hm2', hd1', hdm', hd31', htv⟩ := parseDate_some today t ht
  have hnext := nextDay_spec (y : Int) m d hm1 hm2 hd1 hdm
  obtain ⟨habs, hnm1, hnm2, hnd1, hndm, hroll⟩ := hnext
  have htmax : t ≤ goDateToAbs 9999 12 31 := by
    rw [htv]
    exact goDateToAbs_le_max (y' : Int) m' d' (by exact_mod_cast hy9') hm1' hm2' hd1' hdm'
  obtain ⟨Y, hY, hY9⟩ : ∃ Y : Nat, (nextDay (y : Int) m d).1 = (Y : Int) ∧ Y ≤ 9999 := by
    rcases hroll with hr | ⟨hr, hm12⟩
    · exact ⟨y, hr, hy9⟩
    · refine ⟨y + 1, by push_cast [hr]; ring, ?_⟩
      exact Nat.succ_le_succ (nextDay_year_le l t K y m d hy9 hlv htmax hK hK1 hdm hr hm12)
  have hfmt := formatDate_goDateToAbs Y (nextDay (y : Int) m d).2.1
    (nextDay (y : Int) m d).2.2 hY9 hnm1 hnm2 hnd1 (by rw [← hY]; exact hndm)
  have hl1 : l + 1 = goDateToAbs (Y : Int) (nextDay (y : Int) m d).2.1
      (nextDay (y : Int) m d).2.2 := by
    rw [← hY, habs, hlv]
  rw [← hl1] at hfmt
  exact hfmt.2

theorem formatDate_next_ne_today (today : String) (l t : Int) (hK2 : t - l ≥ 2)
    (hp : parseDate (formatDate (l + 1)) = some (l + 1))
    (ht : parseDate today = some t) : formatDate (l + 1) ≠ today := by
  intro e
  rw [e, ht] at hp
  exact absurd (Option.some.inj hp).symm (by omega)

/-- **C2.**  When no explicit days-back is given, the last run's end date and
today both parse as calendar dates, and today is exactly `K` days after the
last run with `1 < K ≤ 5`, `resolvePeriod` succeeds — for every possible
operator answer, so the consent prompt is never consulted — returning
days-back `K` and the period id `start ++ ".." ++ today`, where `start` is
the `YYYY-MM-DD` rendering of the day after the last run (it parses back to
exactly that day number). -/
theorem resolvePeriod_catchup (lastRun today answer : String) (l t K : Int)
    (hl : parseDate lastRun = some l) (ht : parseDate today = some t)
    (hK : t - l = K) (hK1 : 1 < K) (hK5 : K ≤ 5) :
    resolvePeriod lastRun today 0 answer
        = .ok (formatDate (l + 1) ++ ".." ++ today, K) ∧
      parseDate (formatDate (l + 1)) = some (l + 1) := by
  have hp := parseDate_formatDate_next lastRun today l t K hl ht hK hK1 hK5
  have hne : lastRun ≠ "" := by
    intro e
    rw [e] at hl
    exact absurd hl (by simp [parseDate])
  have hst : formatDate (l + 1) ≠ today :=
    formatDate_next_ne_today today l t (by omega) hp ht
  refine ⟨?_, hp⟩
  simp only [resolvePeriod, hl, ht, Option.getD_some, MakePeriodID, if_neg hne, if_neg hst]
  rw [if_neg (by norm_num), if_neg (by omega), if_neg (by omega), if_neg (by omega)]
  rw [hK]

theorem resolvePeriod_catchup_witness :
    resolvePeriod "2026-02-01" "2026-02-04" 0 "n"
        = .ok ("2026-02-02..2026-02-04", 3) ∧
      parseDate "2026-02-02" = some (goDateToAbs 2026 2 1 + 1) := by
  have h := resolvePeriod_catchup "2026-02-01" "2026-02-04" "n"
    (goDateToAbs 2026 2 1) (goDateToAbs 2026 2 4) 3
    (by decide) (by decide) (by decide) (by decide) (by decide)
  have hf : formatDate (goDateToAbs 2026 2 1 + 1) = "2026-02-02" := by decide
  rw [hf] at h
  exact h

/-! ### Store, parser and clusterer claims -/

/-- A concrete article used by the closed instances below. -/
def wArticle : Article :=
  { id := 1, url := "https://example.org/x", title := "Some Title",
    source := none, publishedDate := none, content := none,
    contentFetched := false, periodID := none }

/-- **C5.**  Inserting a URL that the table already holds returns id `0` and
no error, and leaves the table — hence every previously inserted row —
unchanged, so any `GetArticleByID` lookup answers exactly as before. -/
theorem insertArticle_duplicate (db : ArticlesTable) (url title : String)
    (source publishedDate content periodID : Option String)
    (hdup : db.rows.any (fun r => r.url = url) = true) :
    InsertArticle db url title source publishedDate content periodID = (db, 0, none) ∧
      ∀ id, GetArticleByID
          (InsertArticle db url title source publishedDate content periodID).1 id
        = GetArticleByID db id := by
  have h : InsertArticle db url title source publishedDate content periodID
      = (db, 0, none) := by
    simp only [InsertArticle, if_pos hdup]
  exact ⟨h, fun id => by rw [h]⟩

theorem insertArticle_duplicate_witness :
    (InsertArticle ⟨[], 0⟩ "https://a" "First" none none none none).1
        = ⟨[⟨1, "https://a", "First", none, none, none, false, none⟩], 1⟩ ∧
      (⟨[⟨1, "https://a", "First", none, none, none, false, none⟩], 1⟩
          : ArticlesTable).rows.any (fun r => r.url = "https://a") = true ∧
      (InsertArticle ⟨[⟨1, "https://a", "First", none, none, none, false, none⟩], 1⟩
            "https://a" "Second" none none none none
          = (⟨[⟨1, "https://a", "First", none, none, none, false, none⟩], 1⟩, 0, none) ∧
        ∀ id, GetArticleByID
            (InsertArticle ⟨[⟨1, "https://a", "First", none, none, none, false, none⟩], 1⟩
              "https://a" "Second" none none none none).1 id
          = GetArticleByID
              ⟨[⟨1, "https://a", "First", none, none, none, false, none⟩], 1⟩ id) ∧
      (GetArticleByID ⟨[⟨1, "https://a", "First", none, none, none, false, none⟩], 1⟩
          1).map (fun a => a.title) = some "First" :=
  ⟨rfl, by decide,
    insertArticle_duplicate _ "https://a" "Second" none none none none (by decide), rfl⟩

/-- **C9.**  `ParseJSONResponse` answers `some` only when the trimmed,
fence-stripped input parses as a JSON *object*; any input whose top-level
value is an array, string, number, boolean or `null` — although valid
JSON — yields `none`. -/
theorem parseJSONResponse_object_only (text : String) :
    (∀ ms, ParseJSONResponse text = some ms →
      parseJsonTop (stripFences (goTrim text)) = some (J.obj ms)) ∧
      ∀ v, parseJsonTop (stripFences (goTrim text)) = some v →
        (∀ ms, v ≠ J.obj ms) → ParseJSONResponse text = none := by
  constructor
  · intro ms hms
    simp only [ParseJSONResponse] at hms
    split_ifs at hms with he
    split at hms
    · rename_i ms' heq
      rw [Option.some.injEq] at hms
      rw [← hms]
      exact heq
    · exact absurd hms (by simp)
  · intro v hv hne
    simp only [ParseJSONResponse]
    split_ifs with he
    · rfl
    · rw [hv]
      match v, hne with
      | .null, _ => rfl
      | .bool b, _ => rfl
      | .num q, _ => rfl
      | .str s, _ => rfl
      | .arr xs, _ => rfl
      | .obj ms, hne => exact absurd rfl (hne ms)

theorem parseJSONResponse_object_only_witness :
    parseJsonTop (stripFences (goTrim "[true, false]"))
        = some (J.arr [J.bool true, J.bool false]) ∧
      ParseJSONResponse "[true, false]" = none := by
  have hv : parseJsonTop (stripFences (goTrim "[true, false]"))
      = some (J.arr [J.bool true, J.bool false]) := by
    rfl
  exact ⟨hv, (parseJSONResponse_object_only "[true, false]").2
    (J.arr [J.bool true, J.bool false]) hv (fun ms h => J.noConfusion h)⟩

/-- **C10.**  With fewer than two relevant articles `ClusterArticles` never
calls the embedder: no articles gives the zero result without clearing
storylines, and exactly one clears the period and writes the single
"Briefly Noted" storyline directly. -/
theorem clusterArticles_small_no_embed (articles : List Article)
    (articleText : Article → String)
    (embed : List String → Except String (List (List ℝ)))
    (labelOrds : List Article → List (List String)) (threshold : ℝ)
    (h : articles.length < 2) :
    (ClusterArticles articles articleText embed labelOrds threshold).embedCalls = 0 ∧
      (articles = [] →
        ClusterArticles articles articleText embed labelOrds threshold
          = { result := some ⟨0, 0, 0⟩, cleared := false, inserts := [],
              embedCalls := 0 }) ∧
      ∀ a, articles = [a] →
        ClusterArticles articles articleText embed labelOrds threshold
          = { result := some ⟨1, 1, 1⟩, cleared := true,
              inserts := [(brieflyNotedLabel, [a.id])], embedCalls := 0 } := by
  refine ⟨?_, ?_, ?_⟩
  · simp only [ClusterArticles]
    split_ifs with h0 h1
    · rfl
    · rfl
  · intro he; subst he; rfl
  · intro a he; subst he; rfl

theorem clusterArticles_small_no_embed_witness :
    ([wArticle].length < 2) ∧
      ((ClusterArticles [wArticle] (fun a => a.title) (fun _ => .ok [])
          (fun _ => []) 1.2).embedCalls = 0 ∧
        ([wArticle] = [] →
          ClusterArticles [wArticle] (fun a => a.title) (fun _ => .ok [])
              (fun _ => []) 1.2
            = { result := some ⟨0, 0, 0⟩, cleared := false, inserts := [],
                embedCalls := 0 }) ∧
        ∀ a, [wArticle] = [a] →
          ClusterArticles [wArticle] (fun a => a.title) (fun _ => .ok [])
              (fun _ => []) 1.2
            = { result := some ⟨1, 1, 1⟩, cleared := true,
                inserts := [(brieflyNotedLabel, [a.id])], embedCalls := 0 }) :=
  ⟨by decide, clusterArticles_small_no_embed [wArticle] (fun a => a.title)
    (fun _ => .ok []) (fun _ => []) 1.2 (by decide)⟩

/-! ### Triage claims -/

theorem triageStep_foldl_ok (gen : Article → Except String String) (row : triageResult)
    (hrel : row.verdict = "relevant") :
    ∀ (articles : List Article), (∀ a ∈ articles, triageArticle (gen a) = .ok row) →
      ∀ acc, articles.foldl (triageStep gen) acc
        = ({ processed := acc.1.processed + articles.length,
             relevant := acc.1.relevant + articles.length,
             skipped := acc.1.skipped, errors := acc.1.errors },
           acc.2 ++ articles.map (fun a => (a.id, row))) := by
  intro articles
  induction articles with
  | nil =>
    intro _ acc
    simp
  | cons a rest ih =>
    intro hrow acc
    have ha : triageArticle (gen a) = .ok row := hrow a (by simp)
    have hstep : triageStep gen acc a
        = ({ processed := acc.1.processed + 1, relevant := acc.1.relevant + 1,
             skipped := acc.1.skipped, errors := acc.1.errors },
           acc.2 ++ [(a.id, row)]) := by
      simp [triageStep, ha, hrel]
    rw [List.foldl_cons, hstep, ih (fun x hx => hrow x (by simp [hx]))]
    simp only [List.length_cons, List.map_cons, List.cons_append, List.append_assoc,
      List.singleton_append, Prod.mk.injEq, TriageRunResult.mk.injEq]
    exact ⟨⟨by omega, by omega, trivial, trivial⟩, by simp⟩

/-- **C6.**  A response that fails JSON parsing makes `triageArticle` store
exactly the recovery row — verdict `relevant`, type `other`, no key points,
score 2, reason `"LLM response could not be parsed"` — and the triage loop
counts such articles as processed (and relevant), never as errors. -/
theorem triage_recovery_row (resp : String) (articles : List Article)
    (gen : Article → Except String String)
    (hp : ParseJSONResponse resp = none) :
    triageArticle (.ok resp) = .ok recoveryTriageResult ∧
      recoveryTriageResult.verdict = "relevant" ∧
      recoveryTriageResult.articleType = some "other" ∧
      recoveryTriageResult.keyPoints = [] ∧
      recoveryTriageResult.practicalScore = 2 ∧
      recoveryTriageResult.reason = some "LLM response could not be parsed" ∧
      ((∀ a ∈ articles, gen a = .ok resp) →
        triageArticlesLoop articles gen
          = ({ processed := articles.length, relevant := articles.length,
               skipped := 0, errors := 0 },
             articles.map (fun a => (a.id, recoveryTriageResult)))) := by
  have ht : triageArticle (.ok resp) = .ok recoveryTriageResult := by
    simp [triageArticle, hp]
  refine ⟨ht, rfl, rfl, rfl, rfl, rfl, ?_⟩
  intro hg
  have := triageStep_foldl_ok gen recoveryTriageResult rfl articles
    (fun a ha => by rw [hg a ha]; exact ht) (⟨0, 0, 0, 0⟩, [])
  rw [triageArticlesLoop, this]
  simp

theorem triage_recovery_row_witness :
    ParseJSONResponse "oops, not json" = none ∧
      (triageArticle (.ok "oops, not json") = .ok recoveryTriageResult ∧
        recoveryTriageResult.verdict = "relevant" ∧
        recoveryTriageResult.articleType = some "other" ∧
        recoveryTriageResult.keyPoints = [] ∧
        recoveryTriageResult.practicalScore = 2 ∧
        recoveryTriageResult.reason = some "LLM response could not be parsed" ∧
        ((∀ a ∈ [wArticle], (fun _ : Article => Except.ok (ε := String) "oops, not json") a
            = .ok "oops, not json") →
          triageArticlesLoop [wArticle]
              (fun _ => .ok "oops, not json")
            = ({ processed := 1, relevant := 1, skipped := 0, errors := 0 },
               [(wArticle.id, recoveryTriageResult)]))) :=
  ⟨by rfl, triage_recovery_row "oops, not json" [wArticle]
    (fun _ => .ok "oops, not json") (by rfl)⟩

/-! ### Fetch claims -/

/-- **C7** (amended: the stored-content threshold is *strictly more than*
100 characters).  On transport success with status < 400 and a successful
extraction, the trimmed text is stored (and `content_fetched` set) exactly
when its length exceeds 100; at 100 characters or fewer only the attempt is
marked: the flag is set and no content is written. -/
theorem fetchAction_threshold (status : Nat) (body textContent : String)
    (extract : String → Except String String) (hs : status < 400)
    (hx : extract body = .ok textContent) :
    (100 < (goTrim textContent).length →
      fetchActionFor (.resp status body) extract = .store (goTrim textContent) ∧
      ∀ row, applyFetchAction row (fetchActionFor (.resp status body) extract)
        = { row with content := some (goTrim textContent), contentFetched := true }) ∧
    ((goTrim textContent).length ≤ 100 →
      fetchActionFor (.resp status body) extract = .markOnly ∧
      ∀ row, applyFetchAction row (fetchActionFor (.resp status body) extract)
        = { row with contentFetched := true }) := by
  by_cases hlen : 100 < (goTrim textContent).length
  · have hfc : fetchArticleContent (.resp status body) extract
        = (goTrim textContent, none) := by
      simp only [fetchArticleContent, if_neg (by omega : ¬ 400 ≤ status), hx, if_pos hlen]
    have hne : goTrim textContent ≠ "" := by
      intro e
      rw [e] at hlen
      simp at hlen
    have hfa : fetchActionFor (.resp status body) extract = .store (goTrim textContent) := by
      simp only [fetchActionFor, hfc]
      simp [hne]
    exact ⟨fun _ => ⟨hfa, fun row => by rw [hfa]; rfl⟩, fun hle => absurd hlen (by omega)⟩
  · have hfc : fetchArticleContent (.resp status body) extract = ("", none) := by
      simp only [fetchArticleContent, if_neg (by omega : ¬ 400 ≤ status), hx, if_neg hlen]
    have hfa : fetchActionFor (.resp status body) extract = .markOnly := by
      simp [fetchActionFor, hfc]
    exact ⟨fun hgt => absurd hgt hlen, fun _ => ⟨hfa, fun row => by rw [hfa]; rfl⟩⟩

theorem fetchAction_threshold_witness :
    ((200 : Nat) < 400 ∧
      (fun _ : String => Except.ok (ε := String)
        (String.mk (List.replicate 101 'a'))) "b" = .ok (String.mk (List.replicate 101 'a'))) ∧
      (100 < (goTrim (String.mk (List.replicate 101 'a'))).length →
        fetchActionFor (.resp 200 "b")
            (fun _ => .ok (String.mk (List.replicate 101 'a')))
          = .store (goTrim (String.mk (List.replicate 101 'a'))) ∧
        ∀ row, applyFetchAction row (fetchActionFor (.resp 200 "b")
            (fun _ => .ok (String.mk (List.replicate 101 'a'))))
          = { row with
              content := some (goTrim (String.mk (List.replicate 101 'a')))
              contentFetched := true }) ∧
      ((goTrim (String.mk (List.replicate 101 'a'))).length ≤ 100 →
        fetchActionFor (.resp 200 "b")
            (fun _ => .ok (String.mk (List.replicate 101 'a')))
          = .markOnly ∧
        ∀ row, applyFetchAction row (fetchActionFor (.resp 200 "b")
            (fun _ => .ok (String.mk (List.replicate 101 'a'))))
          = { row with contentFetched := true }) :=
  ⟨⟨by omega, rfl⟩,
    (fetchAction_threshold 200 "b" (String.mk (List.replicate 101 'a'))
      (fun _ => .ok (String.mk (List.replicate 101 'a'))) (by omega) rfl).1,
    (fetchAction_threshold 200 "b" (String.mk (List.replicate 101 'a'))
      (fun _ => .ok (String.mk (List.replicate 101 'a'))) (by omega) rfl).2⟩

theorem fetchAction_exactly_100 :
    (goTrim (String.mk (List.replicate 100 'a'))).length = 100 ∧
      fetchActionFor (.resp 200 "b")
          (fun _ => .ok (String.mk (List.replicate 100 'a')))
        = .markOnly ∧
      fetchActionFor (.resp 200 "b")
          (fun _ => .ok (String.mk (List.replicate 100 'a')))
        ≠ .store (goTrim (String.mk (List.replicate 100 'a'))) := by
  refine ⟨by rfl, by rfl, ?_⟩
  intro h
  rw [show fetchActionFor (.resp 200 "b")
      (fun _ => .ok (String.mk (List.replicate 100 'a'))) = .markOnly from by rfl] at h
  exact FetchAction.noConfusion h

/-! ### Composer claims -/

/-- **C4** (amended: only a provider *error* or an *empty* response falls
back to the bullet list; a non-empty response that fails JSON parsing is
stored as the trimmed response text instead).  With at least one narrative,
`ComposeBriefing` stores `fallbackTLDR` on error or empty response, and the
trimmed raw text when the response is non-empty but unparseable. -/
theorem composeBriefing_tldr_fallback (periodID : String)
    (narratives : List StorylineNarrative) (storylines : List Storyline)
    (hn : narratives ≠ []) :
    (∀ e, (ComposeBriefing periodID narratives storylines (some (.error e))).tldr
        = fallbackTLDR narratives) ∧
      (ComposeBriefing periodID narratives storylines (some (.ok ""))).tldr
        = fallbackTLDR narratives ∧
      ∀ resp, resp ≠ "" → ParseJSONResponse resp = none →
        (ComposeBriefing periodID narratives storylines (some (.ok resp))).tldr
          = goTrim resp := by
  have hlen : ¬ narratives.length = 0 := fun h => hn (List.length_eq_zero.mp h)
  refine ⟨?_, ?_, ?_⟩
  · intro e
    simp only [ComposeBriefing, if_neg hlen]
    rfl
  · simp only [ComposeBriefing, if_neg hlen]
    rfl
  · intro resp hresp hp
    simp only [ComposeBriefing, if_neg hlen, generateTLDR, if_neg hresp, hp]

theorem composeBriefing_tldr_fallback_witness :
    ([⟨1, "Alpha", "t", []⟩] : List StorylineNarrative) ≠ [] ∧
      ((∀ e, (ComposeBriefing "p" [⟨1, "Alpha", "t", []⟩] []
            (some (.error e))).tldr = fallbackTLDR [⟨1, "Alpha", "t", []⟩]) ∧
        (ComposeBriefing "p" [⟨1, "Alpha", "t", []⟩] [] (some (.ok ""))).tldr
          = fallbackTLDR [⟨1, "Alpha", "t", []⟩] ∧
        ∀ resp, resp ≠ "" → ParseJSONResponse resp = none →
          (ComposeBriefing "p" [⟨1, "Alpha", "t", []⟩] [] (some (.ok resp))).tldr
            = goTrim resp) :=
  ⟨List.cons_ne_nil _ _,
    composeBriefing_tldr_fallback "p" [⟨1, "Alpha", "t", []⟩] [] (List.cons_ne_nil _ _)⟩

theorem composeBriefing_unparseable_not_fallback :
    (ComposeBriefing "p" [⟨1, "Alpha", "t", []⟩] [] (some (.ok "not json"))).tldr
        = "not json" ∧
      fallbackTLDR [⟨1, "Alpha", "t", []⟩] = "- Alpha" ∧
      (ComposeBriefing "p" [⟨1, "Alpha", "t", []⟩] [] (some (.ok "not json"))).tldr
        ≠ fallbackTLDR [⟨1, "Alpha", "t", []⟩] := by
  refine ⟨by rfl, by rfl, ?_⟩
  intro h
  rw [show (ComposeBriefing "p" [⟨1, "Alpha", "t", []⟩] []
        (some (.ok "not json"))).tldr = "not json" from by rfl,
      show fallbackTLDR [⟨1, "Alpha", "t", []⟩] = "- Alpha" from by rfl] at h
  exact absurd h (by decide)

/-- The clamping invariants every row decoded from a JSON object satisfies. -/
theorem clampTriage_invariants (parsed : List (String × J)) :
    ((clampTriage parsed).verdict = "skip" ↔ (clampTriage parsed).practicalScore = 0) ∧
      ((clampTriage parsed).verdict = "relevant" →
        1 ≤ (clampTriage parsed).practicalScore ∧ (clampTriage parsed).practicalScore ≤ 5) ∧
      ((clampTriage parsed).verdict = "relevant" ∨ (clampTriage parsed).verdict = "skip") ∧
      (clampTriage parsed).keyPoints.length ≤ 5 := by
  refine ⟨?_, ?_, ?_, ?_⟩ <;> simp only [clampTriage]
  · split_ifs <;> (try simp_all) <;> omega
  · split_ifs <;> intro hv <;> (try simp_all) <;> omega
  · split_ifs with h1
    · exact Or.inl rfl
    · rcases not_and_or.mp h1 with hc | hc
      · exact Or.inl (not_not.mp hc)
      · exact Or.inr (not_not.mp hc)
  · split
    · rename_i arr heq
      split_ifs with h5
      · rw [List.length_take]; omega
      · omega
    · simp

/-- **C3** (amended: the verdict is lowercased *before* the known-verdict
check, so a non-lowercase spelling of a known verdict — e.g. `"SKIP"` — is
kept as its lowercase form rather than normalized to `"relevant"`; only
verdicts unknown after lowercasing become `"relevant"`).  Every row
`triageArticle` returns satisfies: verdict is `"skip"` iff the score is 0,
a `"relevant"` verdict carries a score clamped into `[1, 5]`, the stored
verdict is `"relevant"` or `"skip"`, and at most 5 key points are kept. -/
theorem triage_row_invariants (gen : Except String String) (row : triageResult)
    (h : triageArticle gen = .ok row) :
    (row.verdict = "skip" ↔ row.practicalScore = 0) ∧
      (row.verdict = "relevant" → 1 ≤ row.practicalScore ∧ row.practicalScore ≤ 5) ∧
      (row.verdict = "relevant" ∨ row.verdict = "skip") ∧
      row.keyPoints.length ≤ 5 := by
  match gen with
  | .error e => exact absurd h (by simp [triageArticle])
  | .ok resp =>
    rw [triageArticle] at h
    cases hp : ParseJSONResponse resp with
    | none =>
      simp only [hp] at h
      rw [Except.ok.injEq] at h
      rw [← h]
      refine ⟨by decide, by decide, by decide, by decide⟩
    | some parsed =>
      simp only [hp] at h
      rw [Except.ok.injEq] at h
      rw [← h]
      exact clampTriage_invariants parsed

theorem triage_row_invariants_witness :
    triageArticle (.ok "\x7b\"verdict\": \"maybe\"\x7d")
        = .ok ⟨"relevant", some "other", [], some "", 2⟩ ∧
      (((⟨"relevant", some "other", [], some "", 2⟩ : triageResult).verdict = "skip"
          ↔ (⟨"relevant", some "other", [], some "", 2⟩ : triageResult).practicalScore = 0) ∧
        ((⟨"relevant", some "other", [], some "", 2⟩ : triageResult).verdict = "relevant" →
          1 ≤ (⟨"relevant", some "other", [], some "", 2⟩ : triageResult).practicalScore ∧
            (⟨"relevant", some "other", [], some "", 2⟩ : triageResult).practicalScore ≤ 5) ∧
        ((⟨"relevant", some "other", [], some "", 2⟩ : triageResult).verdict = "relevant" ∨
          (⟨"relevant", some "other", [], some "", 2⟩ : triageResult).verdict = "skip") ∧
        (⟨"relevant", some "other", [], some "", 2⟩ : triageResult).keyPoints.length ≤ 5) :=
  ⟨by rfl, triage_row_invariants (.ok "\x7b\"verdict\": \"maybe\"\x7d")
    ⟨"relevant", some "other", [], some "", 2⟩ (by rfl)⟩

theorem triage_uppercase_skip :
    (triageArticle (.ok "\x7b\"verdict\": \"SKIP\"\x7d")).map (fun r => r.verdict)
        = .ok "skip" ∧
      goToLower "SKIP" ≠ "SKIP" ∧
      (triageArticle (.ok "\x7b\"verdict\": \"SKIP\"\x7d")).map (fun r => r.verdict)
        ≠ .ok "relevant" := by
  refine ⟨by rfl, by decide, ?_⟩
  intro h
  rw [show (triageArticle (.ok "\x7b\"verdict\": \"SKIP\"\x7d")).map (fun r => r.verdict)
      = .ok "skip" from by rfl] at h
  simp at h

/-! ### Label claims -/

theorem pickMax_fold (cnt : String → Nat) :
    ∀ (ord : List String) (acc : String × Nat),
      (∀ w ∈ ord, cnt w ≤ (ord.foldl
        (fun acc w => if acc.2 < cnt w then (w, cnt w) else acc) acc).2) ∧
      acc.2 ≤ (ord.foldl
        (fun acc w => if acc.2 < cnt w then (w, cnt w) else acc) acc).2 ∧
      ((ord.foldl (fun acc w => if acc.2 < cnt w then (w, cnt w) else acc) acc) = acc ∨
        ((ord.foldl (fun acc w => if acc.2 < cnt w then (w, cnt w) else acc) acc).1 ∈ ord ∧
          (ord.foldl (fun acc w => if acc.2 < cnt w then (w, cnt w) else acc) acc).2
            = cnt (ord.foldl
                (fun acc w => if acc.2 < cnt w then (w, cnt w) else acc) acc).1)) := by
  intro ord
  induction ord with
  | nil => intro acc; exact ⟨by simp, le_refl _, Or.inl rfl⟩
  | cons a rest ih =>
    intro acc
    simp only [List.foldl_cons]
    by_cases hlt : acc.2 < cnt a
    · rw [if_pos hlt]
      obtain ⟨h1, h2, h3⟩ := ih (a, cnt a)
      refine ⟨?_, ?_, ?_⟩
      · intro w hw
        rcases List.mem_cons.mp hw with rfl | hw
        · exact le_trans (le_of_eq rfl) h2
        · exact h1 w hw
      · exact le_trans (le_of_lt hlt) h2
      · rcases h3 with h3 | ⟨h3a, h3b⟩
        · exact Or.inr ⟨by rw [h3]; exact List.mem_cons_self a rest, by rw [h3]⟩
        · exact Or.inr ⟨List.mem_cons_of_mem a h3a, h3b⟩
    · rw [if_neg hlt]
      obtain ⟨h1, h2, h3⟩ := ih acc
      refine ⟨?_, h2, ?_⟩
      · intro w hw
        rcases List.mem_cons.mp hw with rfl | hw
        · exact le_trans (Nat.le_of_not_lt hlt) h2
        · exact h1 w hw
      · rcases h3 with h3 | h3
        · exact Or.inl h3
        · exact Or.inr ⟨List.mem_cons_of_mem a h3.1, h3.2⟩

theorem pickMaxWord_spec (cnt : String → Nat) (ord : List String)
    (h : ∃ w ∈ ord, 0 < cnt w) :
    pickMaxWord cnt ord ∈ ord ∧ 0 < cnt (pickMaxWord cnt ord) ∧
      ∀ w ∈ ord, cnt w ≤ cnt (pickMaxWord cnt ord) := by
  obtain ⟨w0, hw0, hpos⟩ := h
  obtain ⟨h1, h2, h3⟩ := pickMax_fold cnt ord ("", 0)
  rcases h3 with h3 | ⟨h3a, h3b⟩
  · exact absurd (h3 ▸ h1 w0 hw0) (by omega)
  · refine ⟨h3a, ?_, ?_⟩
    · rw [pickMaxWord, ← h3b]
      exact lt_of_lt_of_le hpos (h1 w0 hw0)
    · intro w hw
      rw [pickMaxWord, ← h3b]
      exact h1 w hw

theorem pickMaxWord_zero (cnt : String → Nat) (ord : List String)
    (h : ∀ w ∈ ord, cnt w = 0) : pickMaxWord cnt ord = "" := by
  rw [pickMaxWord]
  have aux : ∀ (l : List String), (∀ w ∈ l, cnt w = 0) → ∀ acc : String × Nat,
      l.foldl (fun acc w => if acc.2 < cnt w then (w, cnt w) else acc) acc = acc := by
    intro l
    induction l with
    | nil => intro _ acc; rfl
    | cons a rest ih =>
      intro hz acc
      rw [List.foldl_cons, if_neg (by rw [hz a (by simp)]; omega)]
      exact ih (fun w hw => hz w (by simp [hw])) acc
  rw [aux ord h ("", 0)]

theorem mem_firstSeen {α : Type} [DecidableEq α] (l : List α) (x : α) :
    x ∈ firstSeen l ↔ x ∈ l := by
  have aux : ∀ (l : List α) (acc : List α),
      (x ∈ l.foldl (fun acc w => if w ∈ acc then acc else acc ++ [w]) acc
        ↔ x ∈ acc ∨ x ∈ l) := by
    intro l
    induction l with
    | nil => intro acc; simp
    | cons a rest ih =>
      intro acc
      rw [List.foldl_cons]
      by_cases ha : a ∈ acc
      · rw [if_pos ha, ih acc]
        constructor
        · rintro (h | h)
          · exact Or.inl h
          · exact Or.inr (List.mem_cons_of_mem a h)
        · rintro (h | h)
          · exact Or.inl h
          · rcases List.mem_cons.mp h with rfl | h
            · exact Or.inl ha
            · exact Or.inr h
      · rw [if_neg ha, ih (acc ++ [a])]
        simp only [List.mem_append, List.mem_singleton, List.mem_cons]
        tauto
  rw [firstSeen, aux l []]
  simp

theorem nodup_firstSeen {α : Type} [DecidableEq α] (l : List α) :
    (firstSeen l).Nodup := by
  have aux : ∀ (l : List α) (acc : List α), acc.Nodup →
      (l.foldl (fun acc w => if w ∈ acc then acc else acc ++ [w]) acc).Nodup := by
    intro l
    induction l with
    | nil => intro acc h; exact h
    | cons a rest ih =>
      intro acc h
      rw [List.foldl_cons]
      by_cases ha : a ∈ acc
      · rw [if_pos ha]; exact ih acc h
      · rw [if_neg ha]
        exact ih (acc ++ [a]) (by simp [List.nodup_append, h, ha])
  exact aux l [] (by simp)

theorem surviving_long (articles : List Article) (w : String)
    (h : w ∈ survivingTokens articles) : 2 < w.length := by
  rw [survivingTokens] at h
  obtain ⟨a, _, hw⟩ := List.mem_flatMap.mp h
  have := List.of_mem_filter hw
  simp only [decide_eq_true_eq] at this
  exact this.1

theorem labelStep_pick (toks : List String) (st : List String × List String)
    (ord : List String) (w : String)
    (hw : pickMaxWord (fun v => toks.count v) ord = w) (hne : w ≠ "") :
    labelStep toks st ord = (st.1 ++ [goTitle w], st.2 ++ [w]) := by
  simp only [labelStep, hw, if_pos hne]

theorem labelStep_skip (toks : List String) (st : List String × List String)
    (ord : List String) (hw : pickMaxWord (fun v => toks.count v) ord = "") :
    labelStep toks st ord = st := by
  simp [labelStep, hw]

theorem long_ne_empty (w : String) (h : 2 < w.length) : w ≠ "" := by
  intro e
  rw [e] at h
  simp at h

set_option maxRecDepth 8192

/-- **C8** (amended: tokens are punctuation-trimmed at *both* ends, not only
trailing, and frequency ties are broken by the Go map's enumeration order,
not by first-seen order).  For admissible enumeration orders: with no
surviving tokens the label falls back to the first article's title truncated
to 50 characters (empty when there is no article); otherwise the label
space-joins the title-cased greedy picks — `min 3 k` distinct surviving
tokens (`k` the number of distinct tokens), each of maximal frequency among
the keys not yet picked. -/
theorem generateLabel_top3 (articles : List Article) (ords : List (List String))
    (hadm : labelOrdsAdmissible articles ords = true) :
    (survivingTokens articles = [] →
      generateLabel articles ords
        = (articles.head?.map (fun a => a.title.take 50)).getD "") ∧
    (survivingTokens articles ≠ [] →
      ∃ picks : List String, picks ≠ [] ∧
        picks.length = min 3 (firstSeen (survivingTokens articles)).length ∧
        generateLabel articles ords = String.intercalate " " (picks.map goTitle) ∧
        picks.Nodup ∧
        (∀ w ∈ picks, w ∈ survivingTokens articles) ∧
        ∀ (i : Nat) (hi : i < picks.length), ∀ w ∈ firstSeen (survivingTokens articles),
          w ∉ picks.take i →
            (survivingTokens articles).count w
              ≤ (survivingTokens articles).count (picks.get ⟨i, hi⟩)) := by
  rw [labelOrdsAdmissible, Bool.and_eq_true, decide_eq_true_eq] at hadm
  obtain ⟨hlen3, hrounds⟩ := hadm
  obtain ⟨o1, o2, o3, rfl⟩ := List.length_eq_three.mp hlen3
  simp only [roundsAdmissible, Bool.and_eq_true] at hrounds
  obtain ⟨hp1, hp2, hp3, -⟩ := hrounds
  constructor
  · -- no surviving tokens: every round's order is empty and the fold is a no-op
    intro he
    have hk0 : firstSeen (survivingTokens articles) = [] := by rw [he]; rfl
    rw [hk0] at hp1
    have ho1 : o1 = [] := (List.isPerm_iff.mp hp1).eq_nil
    subst ho1
    rw [hk0, List.erase_nil, ite_self] at hp2
    have ho2 : o2 = [] := (List.isPerm_iff.mp hp2).eq_nil
    subst ho2
    rw [hk0, List.erase_nil, ite_self, List.erase_nil, ite_self] at hp3
    have ho3 : o3 = [] := (List.isPerm_iff.mp hp3).eq_nil
    subst ho3
    simp only [generateLabel, List.getD_cons_zero, List.getD_cons_succ, List.foldl_cons,
      List.foldl_nil, labelStep_skip (survivingTokens articles) _ [] rfl]
    cases articles with
    | nil => simp
    | cons a rest => simp
  · intro hne
    have hN : (firstSeen (survivingTokens articles)).Nodup := nodup_firstSeen _
    have hcnt0 : ∀ w ∈ firstSeen (survivingTokens articles),
        0 < (survivingTokens articles).count w := fun w hw =>
      List.count_pos_iff.mpr ((mem_firstSeen _ _).mp hw)
    have hk0ne : firstSeen (survivingTokens articles) ≠ [] := by
      obtain ⟨t, ht⟩ := List.exists_mem_of_ne_nil _ hne
      intro e
      have hmem := (mem_firstSeen (survivingTokens articles) t).mpr ht
      rw [e] at hmem
      simp at hmem
    -- round 1
    have hperm1 := List.isPerm_iff.mp hp1
    obtain ⟨t0, ht0⟩ := List.exists_mem_of_ne_nil _ hk0ne
    obtain ⟨hw1mem, hw1pos, hw1max⟩ := pickMaxWord_spec
      (fun v => (survivingTokens articles).count v) o1
      ⟨t0, hperm1.mem_iff.mpr ht0, hcnt0 t0 ht0⟩
    obtain ⟨w1, hw1def⟩ : ∃ w,
        pickMaxWord (fun v => (survivingTokens articles).count v) o1 = w := ⟨_, rfl⟩
    rw [hw1def] at hw1mem hw1pos hw1max hp2 hp3
    have hw1k0 : w1 ∈ firstSeen (survivingTokens articles) := hperm1.mem_iff.mp hw1mem
    have hw1toks : w1 ∈ survivingTokens articles := (mem_firstSeen _ _).mp hw1k0
    have hw1ne : w1 ≠ "" := long_ne_empty _ (surviving_long articles _ hw1toks)
    have hw1max0 : ∀ w ∈ firstSeen (survivingTokens articles),
        (survivingTokens articles).count w ≤ (survivingTokens articles).count w1 :=
      fun w hw => hw1max w (hperm1.mem_iff.mpr hw)
    rw [if_pos hw1ne] at hp2 hp3
    have hk1len : ((firstSeen (survivingTokens articles)).erase w1).length
        = (firstSeen (survivingTokens articles)).length - 1 :=
      List.length_erase_of_mem hw1k0
    have hk1mem : ∀ w, w ∈ (firstSeen (survivingTokens articles)).erase w1 ↔
        w ≠ w1 ∧ w ∈ firstSeen (survivingTokens articles) := fun w =>
      hN.mem_erase_iff
    by_cases hone : (firstSeen (survivingTokens articles)).length = 1
    · -- exactly one key: rounds 2 and 3 run on empty orders
      have hk1nil : (firstSeen (survivingTokens articles)).erase w1 = [] :=
        List.length_eq_zero.mp (by omega)
      rw [hk1nil] at hp2
      have ho2 : o2 = [] := (List.isPerm_iff.mp hp2).eq_nil
      subst ho2
      rw [hk1nil, List.erase_nil, ite_self] at hp3
      have ho3 : o3 = [] := (List.isPerm_iff.mp hp3).eq_nil
      subst ho3
      refine ⟨[w1], by simp, by simp [hone], ?_, by simp, ?_, ?_⟩
      · simp only [generateLabel, List.getD_cons_zero, List.getD_cons_succ,
          List.foldl_cons, List.foldl_nil,
          labelStep_pick (survivingTokens articles) ([], []) o1 w1 hw1def hw1ne,
          labelStep_skip (survivingTokens articles) _ [] rfl]
        rfl
      · intro w hw
        rw [List.mem_singleton] at hw
        subst hw
        exact hw1toks
      · intro i hi w hw hnotin
        simp only [List.length_cons, List.length_nil] at hi
        rcases i with _ | i
        · exact hw1max0 w hw
        · omega
    · -- at least two keys: round 2 picks a second word
      have htwo : 2 ≤ (firstSeen (survivingTokens articles)).length := by
        have : 0 < (firstSeen (survivingTokens articles)).length :=
          List.length_pos.mpr hk0ne
        omega
      have hperm2 := List.isPerm_iff.mp hp2
      have hk1ne : (firstSeen (survivingTokens articles)).erase w1 ≠ [] := by
        intro e
        rw [e] at hk1len
        simp at hk1len
        omega
      obtain ⟨t1, ht1⟩ := List.exists_mem_of_ne_nil _ hk1ne
      obtain ⟨hw2mem, hw2pos, hw2max⟩ := pickMaxWord_spec
        (fun v => (survivingTokens articles).count v) o2
        ⟨t1, hperm2.mem_iff.mpr ht1,
          hcnt0 t1 (List.mem_of_mem_erase ht1)⟩
      obtain ⟨w2, hw2def⟩ : ∃ w,
          pickMaxWord (fun v => (survivingTokens articles).count v) o2 = w := ⟨_, rfl⟩
      rw [hw2def] at hw2mem hw2pos hw2max hp3
      have hw2k1 : w2 ∈ (firstSeen (survivingTokens articles)).erase w1 :=
        hperm2.mem_iff.mp hw2mem
      have hw2k0 : w2 ∈ firstSeen (survivingTokens articles) :=
        List.mem_of_mem_erase hw2k1
      have hw2ne1 : w2 ≠ w1 := ((hk1mem w2).mp hw2k1).1
      have hw2toks : w2 ∈ survivingTokens articles := (mem_firstSeen _ _).mp hw2k0
      have hw2ne : w2 ≠ "" := long_ne_empty _ (surviving_long articles _ hw2toks)
      have hw2max1 : ∀ w ∈ (firstSeen (survivingTokens articles)).erase w1,
          (survivingTokens articles).count w ≤ (survivingTokens articles).count w2 :=
        fun w hw => hw2max w (hperm2.mem_iff.mpr hw)
      rw [if_pos hw2ne] at hp3
      have hNk1 : ((firstSeen (survivingTokens articles)).erase w1).Nodup := hN.erase w1
      have hk2len : (((firstSeen (survivingTokens articles)).erase w1).erase w2).length
          = (firstSeen (survivingTokens articles)).length - 2 := by
        rw [List.length_erase_of_mem hw2k1, hk1len]
        omega
      have hk2mem : ∀ w, w ∈ ((firstSeen (survivingTokens articles)).erase w1).erase w2 ↔
          w ≠ w2 ∧ w ≠ w1 ∧ w ∈ firstSeen (survivingTokens articles) := by
        intro w
        rw [hNk1.mem_erase_iff, hk1mem]
      by_cases htwoex : (firstSeen (survivingTokens articles)).length = 2
      · -- exactly two keys: round 3 runs on an empty order
        have hk2nil : ((firstSeen (survivingTokens articles)).erase w1).erase w2 = [] :=
          List.length_eq_zero.mp (by omega)
        rw [hk2nil] at hp3
        have ho3 : o3 = [] := (List.isPerm_iff.mp hp3).eq_nil
        subst ho3
        refine ⟨[w1, w2], by simp, by simp [htwoex], ?_, by simp [hw2ne1.symm], ?_, ?_⟩
        · simp only [generateLabel, List.getD_cons_zero, List.getD_cons_succ,
            List.foldl_cons, List.foldl_nil, List.nil_append, List.cons_append,
            labelStep_pick (survivingTokens articles) ([], []) o1 w1 hw1def hw1ne,
            labelStep_pick (survivingTokens articles) ([goTitle w1], [w1]) o2 w2
              hw2def hw2ne,
            labelStep_skip (survivingTokens articles) _ [] rfl]
          rfl
        · intro w hw
          rcases List.mem_cons.mp hw with rfl | hw
          · exact hw1toks
          · rw [List.mem_singleton] at hw
            subst hw
            exact hw2toks
        · intro i hi w hw hnotin
          simp only [List.length_cons, List.length_nil] at hi
          rcases i with _ | _ | i
          · exact hw1max0 w hw
          · rw [show List.take 1 [w1, w2] = [w1] from rfl] at hnotin
            simp only [List.mem_singleton] at hnotin
            exact hw2max1 w ((hk1mem w).mpr ⟨hnotin, hw⟩)
          · omega
      · -- at least three keys: round 3 picks a third word
        have hthree : 3 ≤ (firstSeen (survivingTokens articles)).length := by omega
        have hperm3 := List.isPerm_iff.mp hp3
        have hk2ne : ((firstSeen (survivingTokens articles)).erase w1).erase w2 ≠ [] := by
          intro e
          rw [e] at hk2len
          simp at hk2len
          omega
        obtain ⟨t2, ht2⟩ := List.exists_mem_of_ne_nil _ hk2ne
        obtain ⟨hw3mem, hw3pos, hw3max⟩ := pickMaxWord_spec
          (fun v => (survivingTokens articles).count v) o3
          ⟨t2, hperm3.mem_iff.mpr ht2,
            hcnt0 t2 (List.mem_of_mem_erase (List.mem_of_mem_erase ht2))⟩
        obtain ⟨w3, hw3def⟩ : ∃ w,
            pickMaxWord (fun v => (survivingTokens articles).count v) o3 = w := ⟨_, rfl⟩
        rw [hw3def] at hw3mem hw3pos hw3max
        have hw3k2 : w3 ∈ ((firstSeen (survivingTokens articles)).erase w1).erase w2 :=
          hperm3.mem_iff.mp hw3mem
        obtain ⟨hw3ne2, hw3ne1, hw3k0⟩ := (hk2mem w3).mp hw3k2
        have hw3toks : w3 ∈ survivingTokens articles := (mem_firstSeen _ _).mp hw3k0
        have hw3ne : w3 ≠ "" := long_ne_empty _ (surviving_long articles _ hw3toks)
        have hw3max2 : ∀ w ∈ ((firstSeen (survivingTokens articles)).erase w1).erase w2,
            (survivingTokens articles).count w ≤ (survivingTokens articles).count w3 :=
          fun w hw => hw3max w (hperm3.mem_iff.mpr hw)
        refine ⟨[w1, w2, w3], by simp, by simp; omega, ?_,
          by simp [hw2ne1.symm, hw3ne1.symm, hw3ne2.symm], ?_, ?_⟩
        · simp only [generateLabel, List.getD_cons_zero, List.getD_cons_succ,
            List.foldl_cons, List.foldl_nil, List.nil_append, List.cons_append,
            labelStep_pick (survivingTokens articles) ([], []) o1 w1 hw1def hw1ne,
            labelStep_pick (survivingTokens articles) ([goTitle w1], [w1]) o2 w2
              hw2def hw2ne,
            labelStep_pick (survivingTokens articles) ([goTitle w1, goTitle w2], [w1, w2])
              o3 w3 hw3def hw3ne]
          rfl
        · intro w hw
          rcases List.mem_cons.mp hw with rfl | hw
          · exact hw1toks
          rcases List.mem_cons.mp hw with rfl | hw
          · exact hw2toks
          rw [List.mem_singleton] at hw
          subst hw
          exact hw3toks
        · intro i hi w hw hnotin
          simp only [List.length_cons, List.length_nil] at hi
          rcases i with _ | _ | _ | i
          · exact hw1max0 w hw
          · rw [show List.take 1 [w1, w2, w3] = [w1] from rfl] at hnotin
            simp only [List.mem_singleton] at hnotin
            exact hw2max1 w ((hk1mem w).mpr ⟨hnotin, hw⟩)
          · rw [show List.take 2 [w1, w2, w3] = [w1, w2] from rfl] at hnotin
            simp only [List.mem_cons, List.mem_singleton, not_or] at hnotin
            exact hw3max2 w ((hk2mem w).mpr ⟨hnotin.2.1, hnotin.1, hw⟩)
          · omega

theorem generateLabel_top3_witness :
    labelOrdsAdmissible [⟨1, "u", "gamma delta", none, none, none, false, none⟩]
        [["delta", "gamma"], ["gamma"], []] = true ∧
      ((survivingTokens [⟨1, "u", "gamma delta", none, none, none, false, none⟩] = [] →
        generateLabel [⟨1, "u", "gamma delta", none, none, none, false, none⟩]
            [["delta", "gamma"], ["gamma"], []]
          = ((([⟨1, "u", "gamma delta", none, none, none, false, none⟩]
              : List Article).head?.map (fun a => a.title.take 50)).getD "")) ∧
      (survivingTokens [⟨1, "u", "gamma delta", none, none, none, false, none⟩] ≠ [] →
        ∃ picks : List String, picks ≠ [] ∧
          picks.length = min 3 (firstSeen (survivingTokens
            [⟨1, "u", "gamma delta", none, none, none, false, none⟩])).length ∧
          generateLabel [⟨1, "u", "gamma delta", none, none, none, false, none⟩]
              [["delta", "gamma"], ["gamma"], []]
            = String.intercalate " " (picks.map goTitle) ∧
          picks.Nodup ∧
          (∀ w ∈ picks, w ∈ survivingTokens
            [⟨1, "u", "gamma delta", none, none, none, false, none⟩]) ∧
          ∀ (i : Nat) (hi : i < picks.length),
            ∀ w ∈ firstSeen (survivingTokens
              [⟨1, "u", "gamma delta", none, none, none, false, none⟩]),
              w ∉ picks.take i →
                (survivingTokens
                  [⟨1, "u", "gamma delta", none, none, none, false, none⟩]).count w
                  ≤ (survivingTokens
                    [⟨1, "u", "gamma delta", none, none, none, false, none⟩]).count
                      (picks.get ⟨i, hi⟩))) :=
  ⟨by rfl, generateLabel_top3 [⟨1, "u", "gamma delta", none, none, none, false, none⟩]
    [["delta", "gamma"], ["gamma"], []] (by rfl)⟩

theorem generateLabel_enum_order :
    labelOrdsAdmissible [⟨1, "u", "gamma delta", none, none, none, false, none⟩]
        [["delta", "gamma"], ["gamma"], []] = true ∧
      generateLabel [⟨1, "u", "gamma delta", none, none, none, false, none⟩]
        [["delta", "gamma"], ["gamma"], []] = "Delta Gamma" ∧
      specLabel [⟨1, "u", "gamma delta", none, none, none, false, none⟩] = "Gamma Delta" ∧
      generateLabel [⟨1, "u", "gamma delta", none, none, none, false, none⟩]
          [["delta", "gamma"], ["gamma"], []]
        ≠ specLabel [⟨1, "u", "gamma delta", none, none, none, false, none⟩] := by
  refine ⟨by rfl, by rfl, by rfl, ?_⟩
  intro h
  rw [show generateLabel [⟨1, "u", "gamma delta", none, none, none, false, none⟩]
        [["delta", "gamma"], ["gamma"], []] = "Delta Gamma" from by rfl,
      show specLabel [⟨1, "u", "gamma delta", none, none, none, false, none⟩]
        = "Gamma Delta" from by rfl] at h
  exact absurd h (by decide)

/-! ### Ward linkage: keys, minimum search and the merge invariant -/

theorem mulAdd_inj (M a b c d : Nat) (hb : b < M) (hd : d < M)
    (h : a * M + b = c * M + d) : a = c ∧ b = d := by
  have hac : a = c := by
    rcases Nat.lt_trichotomy a c with hlt | heq | hgt
    · have : a * M + b < c * M + d := by
        calc a * M + b < a * M + M := by omega
        _ = (a + 1) * M := by ring
        _ ≤ c * M := Nat.mul_le_mul_right M hlt
        _ ≤ c * M + d := by omega
      omega
    · exact heq
    · have : c * M + d < a * M + b := by
        calc c * M + d < c * M + M := by omega
        _ = (c + 1) * M := by ring
        _ ≤ a * M := Nat.mul_le_mul_right M hgt
        _ ≤ a * M + b := by omega
      omega
  subst hac
  omega

theorem condensedIndex_lt (n i j : Nat) (hij : i ≠ j) (hi : i < n) (hj : j < n) :
    condensedIndex n i j < n * (n - 1) / 2 := by
  have key : ∀ a b : Nat, a < b → b < n →
      n * a - a * (a + 1) / 2 + b - a - 1 < n * (n - 1) / 2 := by
    intro a b hab hbn
    obtain ⟨n1, hn1⟩ : ∃ n1, n = n1 + 1 := ⟨n - 1, by omega⟩
    have h2a : 2 * (a * (a + 1) / 2) = a * (a + 1) :=
      Nat.two_mul_div_two_of_even (Nat.even_mul_succ_self a)
    have h2n : 2 * (n * (n - 1) / 2) = n * (n - 1) := by
      have hev : Even (n * (n - 1)) := by
        rw [hn1]
        simp only [Nat.add_sub_cancel]
        have := Nat.even_mul_succ_self n1
        rwa [Nat.mul_comm] at this
      exact Nat.two_mul_div_two_of_even hev
    obtain ⟨T, hT⟩ : ∃ T, a * (a + 1) / 2 = T := ⟨_, rfl⟩
    obtain ⟨H, hH⟩ : ∃ H, n * (n - 1) / 2 = H := ⟨_, rfl⟩
    rw [hT] at h2a
    rw [hH] at h2n
    rw [hT, hH]
    have han : a + 1 ≤ n1 := by omega
    have hta : T ≤ n * a := by nlinarith
    have hL : (n * a - T + b - a - 1) + T + a + 1 = n * a + b := by omega
    obtain ⟨L, hLdef⟩ : ∃ L, n * a - T + b - a - 1 = L := ⟨_, rfl⟩
    rw [hLdef] at hL ⊢
    have hb1 : b ≤ n1 := by omega
    have hnn : n * (n - 1) = n * n1 := by rw [hn1]; simp
    rw [hnn] at h2n
    zify at hL h2a h2n hb1 han hn1 ⊢
    have f1 : (0:ℤ) ≤ (n1:ℤ) - a := by omega
    have f2 : (0:ℤ) ≤ (n1:ℤ) - a - 1 := by omega
    nlinarith [mul_nonneg f1 f2]
  rcases Nat.lt_or_ge i j with hlt | hge
  · rw [condensedIndex, if_neg (by omega)]
    exact key i j hlt hj
  · have hlt : j < i := by omega
    rw [condensedIndex, if_pos hlt]
    exact key j i hlt hi

theorem extendedKey_ge (n i j : Nat) : n * (n - 1) / 2 ≤ extendedKey n i j := by
  rw [extendedKey]
  split_ifs <;> omega

theorem extendedKey_ordered (n a b : Nat) (h : a < b) :
    extendedKey n a b = n * (n - 1) / 2 + a * (2 * n - 1) + b ∧
      extendedKey n b a = n * (n - 1) / 2 + a * (2 * n - 1) + b := by
  constructor
  · rw [extendedKey, if_neg (by omega)]
  · rw [extendedKey, if_pos h]

theorem extendedKey_inj (n s1 l1 s2 l2 : Nat) (hl1 : l1 < 2 * n - 1) (hl2 : l2 < 2 * n - 1)
    (h : n * (n - 1) / 2 + s1 * (2 * n - 1) + l1
      = n * (n - 1) / 2 + s2 * (2 * n - 1) + l2) : s1 = s2 ∧ l1 = l2 := by
  have h1 : s1 * (2 * n - 1) + l1 = s2 * (2 * n - 1) + l2 := by
    have e1 : n * (n - 1) / 2 + (s1 * (2 * n - 1) + l1)
        = n * (n - 1) / 2 + (s2 * (2 * n - 1) + l2) := by
      rw [← Nat.add_assoc, ← Nat.add_assoc]
      exact h
    exact Nat.add_left_cancel e1
  exact mulAdd_inj (2 * n - 1) s1 l1 s2 l2 hl1 hl2 h1

theorem readKey_ne (n N a b j : Nat) (hnN : n ≤ N) (hN2 : N ≤ 2 * n - 2)
    (ha : a < N) (hb : b < N) (hab : a ≠ b) :
    (if a < n ∧ b < n then condensedIndex n a b else extendedKey n a b)
      ≠ extendedKey n N j := by
  intro h
  split_ifs at h with hcase
  · have h1 := condensedIndex_lt n a b hab hcase.1 hcase.2
    have h2 := extendedKey_ge n N j
    omega
  · obtain ⟨s, l, hsl, hlN, hkey⟩ : ∃ s l, s < l ∧ l < N ∧
        extendedKey n a b = n * (n - 1) / 2 + s * (2 * n - 1) + l := by
      rcases Nat.lt_or_ge a b with hlt | hge
      · exact ⟨a, b, hlt, hb, (extendedKey_ordered n a b hlt).1⟩
      · have hlt : b < a := by omega
        exact ⟨b, a, hlt, ha, (extendedKey_ordered n b a hlt).2⟩
    rw [hkey] at h
    rcases Nat.lt_trichotomy j N with hjN | rfl | hNj
    · rw [(extendedKey_ordered n j N hjN).2] at h
      have := extendedKey_inj n s l j N (by omega) (by omega) h
      omega
    · rw [extendedKey, if_neg (by omega)] at h
      have hs : s + 1 ≤ j := by omega
      have hlt : s * (2 * n - 1) + l < j * (2 * n - 1) + j := by
        calc s * (2 * n - 1) + l < s * (2 * n - 1) + (2 * n - 1) := by omega
        _ = (s + 1) * (2 * n - 1) := by ring
        _ ≤ j * (2 * n - 1) := Nat.mul_le_mul_right _ hs
        _ ≤ j * (2 * n - 1) + j := by omega
      omega
    · rw [(extendedKey_ordered n N j hNj).1] at h
      have hs : s + 1 ≤ N := by omega
      have hlt : s * (2 * n - 1) + l < N * (2 * n - 1) + j := by
        calc s * (2 * n - 1) + l < s * (2 * n - 1) + (2 * n - 1) := by omega
        _ = (s + 1) * (2 * n - 1) := by ring
        _ ≤ N * (2 * n - 1) := Nat.mul_le_mul_right _ hs
        _ ≤ N * (2 * n - 1) + j := by omega
      omega

theorem newKey_inj (n N k k' : Nat) (hn : 1 ≤ n) (hk : k < N) (hk' : k' < N)
    (h : extendedKey n N k = extendedKey n N k') : k = k' := by
  rw [(extendedKey_ordered n k N hk).2, (extendedKey_ordered n k' N hk').2] at h
  have h1 : k * (2 * n - 1) + N = k' * (2 * n - 1) + N := by
    have e1 : n * (n - 1) / 2 + (k * (2 * n - 1) + N)
        = n * (n - 1) / 2 + (k' * (2 * n - 1) + N) := by
      rw [← Nat.add_assoc, ← Nat.add_assoc]
      exact h
    exact Nat.add_left_cancel e1
  have h2 : k * (2 * n - 1) = k' * (2 * n - 1) := Nat.add_right_cancel h1
  exact Nat.eq_of_mul_eq_mul_right (by omega) h2

theorem getDist_eq (d : Nat → ℝ) (n i j : Nat) (hne : i ≠ j) :
    getDist d n i j
      = d (if i < n ∧ j < n then condensedIndex n i j else extendedKey n i j) := by
  rw [getDist, if_neg hne]
  split_ifs <;> rfl

theorem condensedIndex_symm (n i j : Nat) : condensedIndex n i j = condensedIndex n j i := by
  rcases Nat.lt_trichotomy i j with h | rfl | h
  · rw [condensedIndex, if_neg (by omega), condensedIndex, if_pos h]
  · rfl
  · rw [condensedIndex, if_pos h, condensedIndex, if_neg (by omega)]

theorem extendedKey_symm (n i j : Nat) : extendedKey n i j = extendedKey n j i := by
  rcases Nat.lt_trichotomy i j with h | rfl | h
  · rw [extendedKey, if_neg (by omega), extendedKey, if_pos h]
  · rfl
  · rw [extendedKey, if_pos h, extendedKey, if_neg (by omega)]

theorem getDist_symm (d : Nat → ℝ) (n i j : Nat) : getDist d n i j = getDist d n j i := by
  by_cases hne : i = j
  · subst hne; rfl
  · rw [getDist_eq d n i j hne, getDist_eq d n j i (Ne.symm hne)]
    by_cases hi : i < n <;> by_cases hj : j < n
    · rw [if_pos ⟨hi, hj⟩, if_pos ⟨hj, hi⟩, condensedIndex_symm]
    · rw [if_neg (by tauto), if_neg (by tauto), extendedKey_symm]
    · rw [if_neg (by tauto), if_neg (by tauto), extendedKey_symm]
    · rw [if_neg (by tauto), if_neg (by tauto), extendedKey_symm]

theorem setDist_high (d : Nat → ℝ) (n N k : Nat) (v : ℝ) (hnN : n ≤ N) :
    setDist d n N k v = fun m => if m = extendedKey n N k then v else d m := by
  rw [setDist]
  simp only [if_neg (show ¬ (N < n ∧ k < n) by omega)]

theorem goPairs_mem (m : Nat) (p : Nat × Nat) : p ∈ goPairs m ↔ p.1 < p.2 ∧ p.2 < m := by
  rw [goPairs]
  simp only [List.mem_flatMap, List.mem_map, List.mem_range, List.mem_range'_1]
  constructor
  · rintro ⟨i, hi, j, ⟨hj1, hj2⟩, rfl⟩
    constructor <;> omega
  · rintro ⟨h1, h2⟩
    exact ⟨p.1, by omega, p.2, ⟨by omega, by omega⟩, rfl⟩

theorem findMinStep_inactive (d : Nat → ℝ) (n : Nat) (active : Nat → Bool)
    (acc : Option (ℝ × Nat × Nat)) (p : Nat × Nat)
    (hact : ¬ (active p.1 && active p.2) = true) :
    findMinStep d n active acc p = acc := by
  simp [findMinStep, hact]

theorem findMinStep_first (d : Nat → ℝ) (n : Nat) (active : Nat → Bool) (p : Nat × Nat)
    (hact : (active p.1 && active p.2) = true) :
    findMinStep d n active none p = some (getDist d n p.1 p.2, p.1, p.2) := by
  simp [findMinStep, hact]

theorem findMinStep_lt (d : Nat → ℝ) (n : Nat) (active : Nat → Bool)
    (best : ℝ × Nat × Nat) (p : Nat × Nat)
    (hact : (active p.1 && active p.2) = true)
    (hlt : getDist d n p.1 p.2 < best.1) :
    findMinStep d n active (some best) p = some (getDist d n p.1 p.2, p.1, p.2) := by
  simp [findMinStep, hact, hlt]

theorem findMinStep_ge (d : Nat → ℝ) (n : Nat) (active : Nat → Bool)
    (best : ℝ × Nat × Nat) (p : Nat × Nat)
    (hact : (active p.1 && active p.2) = true)
    (hge : ¬ getDist d n p.1 p.2 < best.1) :
    findMinStep d n active (some best) p = some best := by
  simp [findMinStep, hact, hge]

theorem findMin_fold (d : Nat → ℝ) (n : Nat) (active : Nat → Bool) :
    ∀ (L : List (Nat × Nat)) (acc : Option (ℝ × Nat × Nat)),
      (∀ b0, acc = some b0 →
        ∃ b, L.foldl (findMinStep d n active) acc = some b ∧ b.1 ≤ b0.1) ∧
      (∀ p ∈ L, active p.1 = true → active p.2 = true →
        ∃ b, L.foldl (findMinStep d n active) acc = some b ∧ b.1 ≤ getDist d n p.1 p.2) ∧
      (∀ b, L.foldl (findMinStep d n active) acc = some b →
        acc = some b ∨ ∃ p ∈ L, active p.1 = true ∧ active p.2 = true ∧
          b = (getDist d n p.1 p.2, p.1, p.2)) := by
  intro L
  induction L with
  | nil =>
    intro acc
    exact ⟨fun b0 h => ⟨b0, h, le_refl _⟩,
      fun p hp => absurd hp (List.not_mem_nil p),
      fun b h => Or.inl h⟩
  | cons p rest ih =>
    intro acc
    rw [List.foldl_cons]
    by_cases hact : (active p.1 && active p.2) = true
    · have hpair : active p.1 = true ∧ active p.2 = true := by simpa using hact
      cases acc with
      | none =>
        rw [findMinStep_first d n active p hact]
        obtain ⟨ih1, ih2, ih3⟩ := ih (some (getDist d n p.1 p.2, p.1, p.2))
        refine ⟨?_, ?_, ?_⟩
        · intro b0 hb0
          exact absurd hb0 (by simp)
        · intro q hq hq1 hq2
          rcases List.mem_cons.mp hq with rfl | hq
          · exact ih1 _ rfl
          · exact ih2 q hq hq1 hq2
        · intro b hb
          rcases ih3 b hb with h | h
          · right
            refine ⟨p, List.mem_cons_self p rest, hpair.1, hpair.2, ?_⟩
            injection h with h
            exact h.symm
          · obtain ⟨q, hq, hh⟩ := h
            exact Or.inr ⟨q, List.mem_cons_of_mem p hq, hh⟩
      | some best =>
        by_cases hlt : getDist d n p.1 p.2 < best.1
        · rw [findMinStep_lt d n active best p hact hlt]
          obtain ⟨ih1, ih2, ih3⟩ := ih (some (getDist d n p.1 p.2, p.1, p.2))
          refine ⟨?_, ?_, ?_⟩
          · intro b0 hb0
            injection hb0 with hb0
            obtain ⟨b, hb, hble⟩ := ih1 _ rfl
            exact ⟨b, hb, by rw [← hb0]; exact le_trans hble (le_of_lt hlt)⟩
          · intro q hq hq1 hq2
            rcases List.mem_cons.mp hq with rfl | hq
            · exact ih1 _ rfl
            · exact ih2 q hq hq1 hq2
          · intro b hb
            rcases ih3 b hb with h | h
            · right
              refine ⟨p, List.mem_cons_self p rest, hpair.1, hpair.2, ?_⟩
              injection h with h
              exact h.symm
            · obtain ⟨q, hq, hh⟩ := h
              exact Or.inr ⟨q, List.mem_cons_of_mem p hq, hh⟩
        · rw [findMinStep_ge d n active best p hact hlt]
          obtain ⟨ih1, ih2, ih3⟩ := ih (some best)
          refine ⟨?_, ?_, ?_⟩
          · intro b0 hb0
            injection hb0 with hb0
            obtain ⟨b, hb, hble⟩ := ih1 best rfl
            exact ⟨b, hb, by rw [← hb0]; exact hble⟩
          · intro q hq hq1 hq2
            rcases List.mem_cons.mp hq with rfl | hq
            · obtain ⟨b, hb, hble⟩ := ih1 best rfl
              exact ⟨b, hb, le_trans hble (not_lt.mp hlt)⟩
            · exact ih2 q hq hq1 hq2
          · intro b hb
            rcases ih3 b hb with h | h
            · exact Or.inl h
            · obtain ⟨q, hq, hh⟩ := h
              exact Or.inr ⟨q, List.mem_cons_of_mem p hq, hh⟩
    · rw [findMinStep_inactive d n active acc p hact]
      obtain ⟨ih1, ih2, ih3⟩ := ih acc
      refine ⟨ih1, ?_, ?_⟩
      · intro q hq hq1 hq2
        rcases List.mem_cons.mp hq with rfl | hq
        · exact absurd (show (active q.1 && active q.2) = true by simp [hq1, hq2]) hact
        · exact ih2 q hq hq1 hq2
      · intro b hb
        rcases ih3 b hb with h | h
        · exact Or.inl h
        · obtain ⟨q, hq, hh⟩ := h
          exact Or.inr ⟨q, List.mem_cons_of_mem p hq, hh⟩

/-- What `findMinPair` returns when at least one active pair exists below `m`:
some minimal active pair. -/
theorem findMinPair_spec (d : Nat → ℝ) (n : Nat) (active : Nat → Bool) (m : Nat)
    (a b : Nat) (hab : a < b) (hbm : b < m)
    (ha : active a = true) (hb : active b = true) :
    ∃ md mi mj, findMinPair d n active m = some (md, mi, mj) ∧
      mi < mj ∧ mj < m ∧ active mi = true ∧ active mj = true ∧
      md = getDist d n mi mj ∧
      ∀ i j, i < j → j < m → active i = true → active j = true →
        md ≤ getDist d n i j := by
  obtain ⟨f1, f2, f3⟩ := findMin_fold d n active (goPairs m) none
  obtain ⟨bst, hbst, hble⟩ := f2 (a, b) ((goPairs_mem m (a, b)).mpr ⟨hab, hbm⟩) ha hb
  rcases f3 bst hbst with h | ⟨q, hq, hq1, hq2, hq3⟩
  · exact absurd h (by simp)
  · obtain ⟨hqab, hqm⟩ := (goPairs_mem m q).mp hq
    refine ⟨bst.1, bst.2.1, bst.2.2, ?_, ?_, ?_, ?_, ?_, ?_, ?_⟩
    · rw [findMinPair, hbst]
    · rw [hq3]; exact hqab
    · rw [hq3]; exact hqm
    · rw [hq3]; exact hq1
    · rw [hq3]; exact hq2
    · rw [hq3]
    · intro i j hij hjm hi hj
      obtain ⟨b2, hb2, hb2le⟩ := f2 (i, j) ((goPairs_mem m (i, j)).mpr ⟨hij, hjm⟩) hi hj
      rw [hbst] at hb2
      injection hb2 with hb2
      rw [hb2]
      exact hb2le

theorem wardUpdate_inactive (n N mi mj : Nat) (size : Nat → Nat) (active1 : Nat → Bool)
    (md : ℝ) (d : Nat → ℝ) (k : Nat) (h : active1 k = false) :
    wardUpdate n size active1 N mi mj md d k = d := by
  rw [wardUpdate, if_neg (by simp [h])]

theorem wardUpdate_active (n N mi mj : Nat) (size : Nat → Nat) (active1 : Nat → Bool)
    (md : ℝ) (d : Nat → ℝ) (k : Nat) (h : active1 k = true) (hnN : n ≤ N) :
    wardUpdate n size active1 N mi mj md d k
      = fun m => if m = extendedKey n N k then
          (((size k : ℝ) + (size mi : ℝ)) * getDist d n mi k
            + ((size k : ℝ) + (size mj : ℝ)) * getDist d n mj k
            - (size k : ℝ) * md) / ((size k : ℝ) + (size mi : ℝ) + (size mj : ℝ))
        else d m := by
  rw [wardUpdate, if_pos h]
  exact setDist_high d n N k _ hnN

theorem wardFold_spec (n N mi mj : Nat) (size : Nat → Nat) (active1 : Nat → Bool)
    (md : ℝ) (hnN : n ≤ N) (hN2 : N ≤ 2 * n - 2)
    (hmi : mi < N) (hmj : mj < N)
    (hami : active1 mi = false) (hamj : active1 mj = false) :
    ∀ (L : List Nat) (d : Nat → ℝ), (∀ k ∈ L, k < N) → L.Nodup →
      (∀ key, (∀ j, key ≠ extendedKey n N j) →
        L.foldl (wardUpdate n size active1 N mi mj md) d key = d key) ∧
      (∀ k0, k0 ∉ L → k0 < N →
        L.foldl (wardUpdate n size active1 N mi mj md) d (extendedKey n N k0)
          = d (extendedKey n N k0)) ∧
      (∀ k ∈ L, active1 k = true →
        L.foldl (wardUpdate n size active1 N mi mj md) d (extendedKey n N k)
          = (((size k : ℝ) + (size mi : ℝ)) * getDist d n mi k
              + ((size k : ℝ) + (size mj : ℝ)) * getDist d n mj k
              - (size k : ℝ) * md) / ((size k : ℝ) + (size mi : ℝ) + (size mj : ℝ))) := by
  intro L
  induction L with
  | nil =>
    intro d _ _
    exact ⟨fun _ _ => rfl, fun _ _ _ => rfl, fun k hk => absurd hk (List.not_mem_nil k)⟩
  | cons k rest ih =>
    intro d hlt hnd
    rw [List.foldl_cons]
    have hkN : k < N := hlt k (List.mem_cons_self k rest)
    have hrestN : ∀ x ∈ rest, x < N := fun x hx => hlt x (List.mem_cons_of_mem k hx)
    have hknr : k ∉ rest := (List.nodup_cons.mp hnd).1
    have hndr : rest.Nodup := (List.nodup_cons.mp hnd).2
    obtain ⟨ih1, ih2, ih3⟩ := ih (wardUpdate n size active1 N mi mj md d k) hrestN hndr
    have hstep_off : ∀ key, (∀ j, key ≠ extendedKey n N j) →
        wardUpdate n size active1 N mi mj md d k key = d key := by
      intro key hkey
      by_cases ha : active1 k = true
      · rw [congrFun (wardUpdate_active n N mi mj size active1 md d k ha hnN) key,
          if_neg (hkey k)]
      · rw [wardUpdate_inactive n N mi mj size active1 md d k (by simpa using ha)]
    have hstep_other : ∀ k0, k0 ≠ k → k0 < N →
        wardUpdate n size active1 N mi mj md d k (extendedKey n N k0)
          = d (extendedKey n N k0) := by
      intro k0 hne hk0
      by_cases ha : active1 k = true
      · rw [congrFun (wardUpdate_active n N mi mj size active1 md d k ha hnN)
          (extendedKey n N k0)]
        rw [if_neg (fun e => hne (newKey_inj n N k0 k (by omega) hk0 hkN e))]
      · rw [wardUpdate_inactive n N mi mj size active1 md d k (by simpa using ha)]
    refine ⟨?_, ?_, ?_⟩
    · intro key hkey
      rw [ih1 key hkey, hstep_off key hkey]
    · intro k0 hk0 hk0N
      have hk0ne : k0 ≠ k := fun e => hk0 (e ▸ List.mem_cons_self k rest)
      have hk0nr : k0 ∉ rest := fun h => hk0 (List.mem_cons_of_mem k h)
      rw [ih2 k0 hk0nr hk0N, hstep_other k0 hk0ne hk0N]
    · intro k2 hk2 hact2
      rcases List.mem_cons.mp hk2 with rfl | hk2
      · rw [ih2 k2 hknr hkN]
        rw [congrFun (wardUpdate_active n N mi mj size active1 md d k2 hact2 hnN)
          (extendedKey n N k2), if_pos rfl]
      · rw [ih3 k2 hk2 hact2]
        have hne2i : k2 ≠ mi := fun e => by
          rw [e, hami] at hact2
          exact Bool.noConfusion hact2
        have hne2j : k2 ≠ mj := fun e => by
          rw [e, hamj] at hact2
          exact Bool.noConfusion hact2
        have hg1 : getDist (wardUpdate n size active1 N mi mj md d k) n mi k2
            = getDist d n mi k2 := by
          rw [getDist_eq _ n mi k2 (Ne.symm hne2i), getDist_eq d n mi k2 (Ne.symm hne2i)]
          exact hstep_off _
            (fun j => readKey_ne n N mi k2 j hnN hN2 hmi (hrestN k2 hk2) (Ne.symm hne2i))
        have hg2 : getDist (wardUpdate n size active1 N mi mj md d k) n mj k2
            = getDist d n mj k2 := by
          rw [getDist_eq _ n mj k2 (Ne.symm hne2j), getDist_eq d n mj k2 (Ne.symm hne2j)]
          exact hstep_off _
            (fun j => readKey_ne n N mj k2 j hnN hN2 hmj (hrestN k2 hk2) (Ne.symm hne2j))
        rw [hg1, hg2]

theorem lw_ge (ni nj nk dik djk md : ℝ) (hni : 1 ≤ ni) (hnj : 1 ≤ nj) (hnk : 1 ≤ nk)
    (h1 : md ≤ dik) (h2 : md ≤ djk) :
    md ≤ ((nk + ni) * dik + (nk + nj) * djk - nk * md) / (nk + ni + nj) := by
  rw [le_div_iff (by linarith)]
  nlinarith [mul_le_mul_of_nonneg_left h1 (by linarith : (0:ℝ) ≤ nk + ni),
    mul_le_mul_of_nonneg_left h2 (by linarith : (0:ℝ) ≤ nk + nj)]

/-- The state invariant of the `wardLinkage` main loop after `s` merges:
`s` merges recorded, `n - s` active clusters all below `n + s` with positive
sizes, and a nonnegative lower bound `lb` on all active pairwise distances
that dominates (as `√lb`) every recorded merge distance, the recorded
distances being non-decreasing. -/
def WardInvariant (n s : Nat) (st : WardState) : Prop :=
  st.merges.length = s ∧
  (∃ A : Finset Nat, (∀ i, st.active i = true ↔ i ∈ A) ∧ A.card = n - s ∧
    ∀ i ∈ A, i < n + s) ∧
  (∀ i, st.active i = true → 1 ≤ st.size i) ∧
  ∃ lb : ℝ, 0 ≤ lb ∧
    (∀ i j, st.active i = true → st.active j = true → i ≠ j → lb ≤ getDist st.d n i j) ∧
    (∀ m ∈ st.merges, m.distance ≤ Real.sqrt lb) ∧
    List.Chain' (fun a b => a.distance ≤ b.distance) st.merges

theorem wardStep_spec (n s : Nat) (st : WardState) (hn : 2 ≤ n) (hs : s + 1 ≤ n - 1)
    (inv : WardInvariant n s st) : WardInvariant n (s + 1) (wardStep n st s) := by
  obtain ⟨hlen, ⟨A, hA, hAcard, hAlt⟩, hsize, lb, hlb0, hlbd, hlbm, hchain⟩ := inv
  have hcard2 : 2 ≤ A.card := by omega
  obtain ⟨x, hx, y, hy, hxy⟩ := Finset.one_lt_card.mp (by omega : 1 < A.card)
  obtain ⟨a, b, hab, ha, hb⟩ : ∃ a b, a < b ∧ a ∈ A ∧ b ∈ A := by
    rcases Nat.lt_or_ge x y with h | h
    · exact ⟨x, y, h, hx, hy⟩
    · exact ⟨y, x, by omega, hy, hx⟩
  have hbm : b < n + s := hAlt b hb
  obtain ⟨md, mi, mj, hfind, hmilt, hmjlt, hmia, hmja, hmdval, hmdmin⟩ :=
    findMinPair_spec st.d n st.active (n + s) a b hab hbm ((hA a).mpr ha) ((hA b).mpr hb)
  have hmiA : mi ∈ A := (hA mi).mp hmia
  have hmjA : mj ∈ A := (hA mj).mp hmja
  have hmiN : mi < n + s := hAlt mi hmiA
  have hmjN : mj < n + s := hAlt mj hmjA
  have hminej : mi ≠ mj := Nat.ne_of_lt hmilt
  have hlbmd : lb ≤ md := by
    rw [hmdval]
    exact hlbd mi mj hmia hmja hminej
  have hmd0 : 0 ≤ md := le_trans hlb0 hlbmd
  simp only [wardStep, hfind]
  rw [WardInvariant]
  dsimp only
  -- the fold characterization
  have hfold := wardFold_spec n (n + s) mi mj st.size
    (fun i => if i = mi ∨ i = mj then false else st.active i) md
    (by omega) (by omega) hmiN hmjN (by simp) (by simp)
    (List.range (n + s)) st.d (fun k hk => List.mem_range.mp hk) (List.nodup_range _)
  obtain ⟨hf1, hf2, hf3⟩ := hfold
  refine ⟨?_, ?_, ?_, ?_⟩
  · simp [hlen]
  · refine ⟨insert (n + s) ((A.erase mi).erase mj), ?_, ?_, ?_⟩
    · intro i
      simp only [Finset.mem_insert, Finset.mem_erase]
      by_cases hiN : i = n + s
      · simp [hiN]
      · rw [if_neg hiN]
        by_cases hmm : i = mi ∨ i = mj
        · rw [if_pos hmm]
          constructor
          · intro h; exact Bool.noConfusion h
          · rintro (h | ⟨h1, h2, h3⟩)
            · exact absurd h hiN
            · rcases hmm with rfl | rfl
              · exact absurd rfl h2
              · exact absurd rfl h1
        · rw [if_neg hmm]
          push_neg at hmm
          rw [hA i]
          constructor
          · intro h; exact Or.inr ⟨hmm.2, hmm.1, h⟩
          · rintro (h | ⟨h1, h2, h3⟩)
            · exact absurd h hiN
            · exact h3
    · have hNnot : (n + s) ∉ (A.erase mi).erase mj := by
        intro h
        have := hAlt (n + s) (Finset.mem_of_mem_erase (Finset.mem_of_mem_erase h))
        omega
      rw [Finset.card_insert_of_not_mem hNnot,
        Finset.card_erase_of_mem (Finset.mem_erase.mpr ⟨Ne.symm hminej, hmjA⟩),
        Finset.card_erase_of_mem hmiA, hAcard]
      omega
    · intro i hi
      rcases Finset.mem_insert.mp hi with rfl | hi
      · omega
      · have := hAlt i (Finset.mem_of_mem_erase (Finset.mem_of_mem_erase hi))
        omega
  · intro i hi
    by_cases hiN : i = n + s
    · subst hiN
      rw [if_pos (rfl : n + s = n + s)]
      have h1 := hsize mi hmia
      have h2 := hsize mj hmja
      omega
    · rw [if_neg hiN]
      rw [if_neg hiN] at hi
      by_cases hmm : i = mi ∨ i = mj
      · rw [if_pos hmm] at hi
        exact Bool.noConfusion hi
      · rw [if_neg hmm] at hi
        exact hsize i hi
  · refine ⟨md, hmd0, ?_, ?_, ?_⟩
    · -- every pair of the new active set is at distance ≥ md
      intro i j hi hj hij
      -- characterize activity
      have hact : ∀ t, (if t = n + s then true else
          if t = mi ∨ t = mj then false else st.active t) = true →
          t = n + s ∨ (t ≠ n + s ∧ t ≠ mi ∧ t ≠ mj ∧ st.active t = true ∧ t < n + s) := by
        intro t ht
        by_cases htN : t = n + s
        · exact Or.inl htN
        · rw [if_neg htN] at ht
          by_cases hmm : t = mi ∨ t = mj
          · rw [if_pos hmm] at ht
            exact Bool.noConfusion ht
          · rw [if_neg hmm] at ht
            push_neg at hmm
            exact Or.inr ⟨htN, hmm.1, hmm.2, ht, hAlt t ((hA t).mp ht)⟩
      -- distance of an old active cluster to the new one
      have hnewdist : ∀ t, t ≠ mi → t ≠ mj → st.active t = true → t < n + s →
          md ≤ getDist (List.foldl (wardUpdate n st.size
              (fun i => if i = mi ∨ i = mj then false else st.active i)
              (n + s) mi mj md) st.d (List.range (n + s))) n (n + s) t := by
        intro t hti htj hta htN
        have hact1 : (fun i => if i = mi ∨ i = mj then false else st.active i) t = true := by
          simp only [if_neg (by tauto : ¬ (t = mi ∨ t = mj))]
          exact hta
        have hw := hf3 t (List.mem_range.mpr htN) hact1
        rw [getDist_eq _ n (n + s) t (by omega), if_neg (by omega), hw]
        have h1 : md ≤ getDist st.d n mi t := by
          rcases Nat.lt_or_ge mi t with h | h
          · exact hmdmin mi t h htN hmia hta
          · rw [getDist_symm]
            exact hmdmin t mi (by omega) hmiN hta hmia
        have h2 : md ≤ getDist st.d n mj t := by
          rcases Nat.lt_or_ge mj t with h | h
          · exact hmdmin mj t h htN hmja hta
          · rw [getDist_symm]
            exact hmdmin t mj (by omega) hmjN hta hmja
        exact lw_ge _ _ _ _ _ _
          (by exact_mod_cast hsize mi hmia) (by exact_mod_cast hsize mj hmja)
          (by exact_mod_cast hsize t hta) h1 h2
      -- distance between two old active clusters is untouched
      have holddist : ∀ u v, u ≠ mi → u ≠ mj → v ≠ mi → v ≠ mj → u ≠ v →
          u < n + s → v < n + s → st.active u = true → st.active v = true →
          md ≤ getDist (List.foldl (wardUpdate n st.size
              (fun i => if i = mi ∨ i = mj then false else st.active i)
              (n + s) mi mj md) st.d (List.range (n + s))) n u v := by
        intro u v hui huj hvi hvj huv huN hvN hua hva
        have hkeep : getDist (List.foldl (wardUpdate n st.size
            (fun i => if i = mi ∨ i = mj then false else st.active i)
            (n + s) mi mj md) st.d (List.range (n + s))) n u v = getDist st.d n u v := by
          rw [getDist_eq _ n u v huv, getDist_eq st.d n u v huv]
          exact hf1 _ (fun j => readKey_ne n (n + s) u v j (by omega) (by omega) huN hvN huv)
        rw [hkeep]
        rcases Nat.lt_or_ge u v with h | h
        · exact hmdmin u v h hvN hua hva
        · rw [getDist_symm]
          exact hmdmin v u (by omega) huN hva hua
      rcases hact i hi with rfl | ⟨hiN, hii, hij2, hia, hilt⟩
      · rcases hact j hj with rfl | ⟨hjN, hji, hjj, hja, hjlt⟩
        · exact absurd rfl hij
        · exact hnewdist j hji hjj hja hjlt
      · rcases hact j hj with rfl | ⟨hjN, hji, hjj, hja, hjlt⟩
        · rw [getDist_symm]
          exact hnewdist i hii hij2 hia hilt
        · exact holddist i j hii hij2 hji hjj hij hilt hjlt hia hja
    · intro m hm
      rcases List.mem_append.mp hm with hm | hm
      · exact le_trans (hlbm m hm) (Real.sqrt_le_sqrt hlbmd)
      · rw [List.mem_singleton] at hm
        subst hm
        exact le_refl _
    · rw [List.chain'_append]
      refine ⟨hchain, List.chain'_singleton _, ?_⟩
      intro m hm m' hm'
      simp only [List.head?_cons, Option.mem_def, Option.some.injEq] at hm'
      subst hm'
      have hmmem : m ∈ st.merges := List.mem_of_mem_getLast? hm
      exact le_trans (hlbm m hmmem) (Real.sqrt_le_sqrt hlbmd)

theorem sqDist_nonneg (xs ys : List ℝ) : 0 ≤ sqDist xs ys := by
  rw [sqDist]
  apply List.sum_nonneg
  intro x hx
  rw [List.mem_iff_get] at hx
  obtain ⟨k, hk⟩ := hx
  rw [← hk, List.get_zipWith]
  exact mul_self_nonneg _

theorem pairwiseDistances_nonneg (embeddings : List (List ℝ)) (x : ℝ)
    (hx : x ∈ pairwiseDistances embeddings) : 0 ≤ x := by
  rw [pairwiseDistances] at hx
  simp only [List.mem_flatMap, List.mem_map] at hx
  obtain ⟨i, _, j, _, rfl⟩ := hx
  exact sqDist_nonneg _ _

theorem wardInvariant_init (n : Nat) (dist : List ℝ)
    (hd : ∀ x ∈ dist, (0:ℝ) ≤ x) :
    WardInvariant n 0
      { d := fun m => if h : m < dist.length then dist.get ⟨m, h⟩ else 0
        active := fun i => decide (i < n)
        size := fun i => if i < n then 1 else 0
        merges := [] } := by
  have hd0 : ∀ m, (0:ℝ) ≤ if h : m < dist.length then dist.get ⟨m, h⟩ else 0 := by
    intro m
    split
    · exact hd _ (List.get_mem dist _ _)
    · exact le_refl 0
  refine ⟨rfl, ⟨Finset.range n, ?_, by simp, ?_⟩, ?_, 0, le_refl 0, ?_, ?_, ?_⟩
  · intro i
    simp [Finset.mem_range]
  · intro i hi
    simpa using Finset.mem_range.mp hi
  · intro i hi
    have : i < n := by simpa using hi
    simp [this]
  · intro i j _ _ hij
    rw [getDist_eq _ n i j hij]
    split_ifs <;> exact hd0 _
  · intro m hm
    exact absurd hm (List.not_mem_nil m)
  · exact List.chain'_nil

theorem ward_fold_inv (n : Nat) (hn : 2 ≤ n) :
    ∀ (k s : Nat) (st : WardState), s + k = n - 1 → WardInvariant n s st →
      WardInvariant n (n - 1) (List.foldl (wardStep n) st (List.range' s k)) := by
  intro k
  induction k with
  | zero =>
    intro s st hs hinv
    rw [List.range'_zero, List.foldl_nil]
    have : s = n - 1 := by omega
    rwa [this] at hinv
  | succ k ih =>
    intro s st hs hinv
    rw [List.range'_succ, List.foldl_cons]
    exact ih (s + 1) (wardStep n st s) (by omega)
      (wardStep_spec n s st hn (by omega) hinv)

/-- **C1.**  For `n ≥ 2` same-dimension vectors, Ward linkage over their
condensed pairwise squared distances records exactly `n - 1` merges, and the
recorded merge distances (the Euclidean square roots of the successive
minimal squared distances) form a non-decreasing sequence. -/
theorem wardLinkage_monotone (embeddings : List (List ℝ)) (dim : Nat)
    (hdim : ∀ v ∈ embeddings, v.length = dim) (hn : 2 ≤ embeddings.length) :
    (wardLinkage (pairwiseDistances embeddings) embeddings.length).length
        = embeddings.length - 1 ∧
      List.Chain' (· ≤ ·)
        ((wardLinkage (pairwiseDistances embeddings) embeddings.length).map
          (fun m => m.distance)) := by
  have hinv0 := wardInvariant_init embeddings.length (pairwiseDistances embeddings)
    (pairwiseDistances_nonneg embeddings)
  have hfin := ward_fold_inv embeddings.length hn (embeddings.length - 1) 0 _
    (by omega) hinv0
  obtain ⟨hlen, -, -, lb, -, -, -, hchain⟩ := hfin
  constructor
  · simp only [wardLinkage]
    rw [List.range_eq_range']
    exact hlen
  · simp only [wardLinkage]
    rw [List.range_eq_range', List.chain'_map]
    exact hchain

theorem wardLinkage_monotone_witness :
    (∀ v ∈ [[(0:ℝ), 0], [0, 1]], v.length = 2) ∧
      2 ≤ ([[(0:ℝ), 0], [0, 1]]).length ∧
      ((wardLinkage (pairwiseDistances [[(0:ℝ), 0], [0, 1]])
          ([[(0:ℝ), 0], [0, 1]]).length).length = ([[(0:ℝ), 0], [0, 1]]).length - 1 ∧
        List.Chain' (· ≤ ·)
          ((wardLinkage (pairwiseDistances [[(0:ℝ), 0], [0, 1]])
              ([[(0:ℝ), 0], [0, 1]]).length).map (fun m => m.distance))) := by
  have hdim : ∀ v ∈ [[(0:ℝ), 0], [0, 1]], v.length = 2 := by
    intro v hv
    rcases List.mem_cons.mp hv with rfl | hv
    · rfl
    · rcases List.mem_cons.mp hv with rfl | hv
      · rfl
      · exact absurd hv (List.not_mem_nil v)
  exact ⟨hdim, by simp, wardLinkage_monotone [[(0:ℝ), 0], [0, 1]] 2 hdim (by simp)⟩
